import Mathlib

/-!
# Notification dispatch (`server.doSendNotification`) and the handlers

A shallow embedding of `src/notification_handlers.go`, of the responses and
error values of `src/handlers/handlers.go`, of `src/task_handlers.go` and of
the handlers `UpdateEvent`, `InviteEventMembers`, `RSVP`
(`src/event_handlers.go`) and `DeleteExpense` (`src/expense_handlers.go`).

* Go `error` values are the inductive `GoError`; a nil error is `none`.
* Go `map[string]string` is a key-unique association list (`GoMap`) with the
  update `GoMap.set` (assignment `m[k] = v`) and the lookup `GoMap.get`.
* The collaborators behind the interfaces `models.NotificationManager` and
  `models.UserManager` are arbitrary: each is a function of the history of
  collaborator calls made so far (with their results) and of its arguments.
  Every call is appended to that history, so that call counts and call
  sequences can be read off the returned history.
* A handler is a function of the history, the collaborators and what it
  reads of its `gin.Context`; it returns what it writes with `c.JSON` and the
  extended history.
* Calls to `logger.Info` are not modelled.
-/

namespace Kickback

/-! ## Errors (`src/handlers/handlers.go`) -/

/-- Go error values. The first three constructors are the error structs of
`src/handlers/handlers.go`; `apiError` is any other value implementing
`handlers.APIError`, `plain` any other `error`. -/
inductive GoError where
  | MissingPathParamError (Param : String)
  | MissingBodyFieldError (Field : String)
  | MalformedBodyError (Field : String)
  | apiError (message : String) (code : Int)
  | plain (message : String)
deriving DecidableEq, Repr

/-- The method `Error()` of an error value. -/
def GoError.Error : GoError → String
  | .MissingPathParamError Param => "missing required path parameter '" ++ Param ++ "'"
  | .MissingBodyFieldError Field => "missing required body field '" ++ Field ++ "'"
  | .MalformedBodyError _ => "malformed request body"
  | .apiError message _ => message
  | .plain message => message

/-! ## Go maps -/

/-- A Go `map[string]string`: association list holding each key at most once. -/
abbrev GoMap := List (String × String)

/-- The assignment `m[k] = v`: replaces the value of a present key, adds an
absent one. -/
def GoMap.set : GoMap → String → String → GoMap
  | [], k, v => [(k, v)]
  | (k', v') :: m, k, v =>
    if k' = k then (k', v) :: m else (k', v') :: GoMap.set m k v

/-- The lookup `v, ok := m[k]`. -/
def GoMap.get : GoMap → String → Option String
  | [], _ => none
  | (k', v') :: m, k => if k' = k then some v' else GoMap.get m k

/-! ## Data model (the fields `doSendNotification` reads) -/

/-- The fields of `models.User` used by the dispatch and by the handlers. -/
structure User where
  ID : String := ""
  ExpoPushNotificationToken : String := ""
  PhoneNumber : String := ""
  FirstName : String := ""
  LastName : String := ""
deriving DecidableEq, Repr

/-- The struct `models.Notification`; `Type_` is its field `Type`. -/
structure Notification where
  Type_ : String := ""
  Channels : List String := []
  To : List String := []
  Title : String := ""
  Body : String := ""
  SMSmessage : String := ""
  Data : GoMap := []
deriving DecidableEq, Repr

/-- The struct `models.NotificationErrorReport`. -/
structure NotificationErrorReport where
  Push : GoMap := []
  SMS : GoMap := []
deriving DecidableEq, Repr

/-- Modelled from the spec: the constant `expo.DefaultPriority` of the push
SDK is not among the sources; the spec calls it the default priority. -/
def DefaultPriority : String := "default"

/-- The struct `expo.PushMessage`, with the fields the dispatch sets. -/
structure PushMessage where
  To : List String := []
  Title : String := ""
  Body : String := ""
  Data : GoMap := []
  Sound : String := ""
  Priority : String := ""
deriving DecidableEq, Repr

/-- One call to a collaborator, with its arguments and what it returned. -/
inductive Event where
  | SendNotification (notification : Notification) (res : String × Option GoError)
  | GetUsers (ids : List String) (res : List User × Option GoError)
  | SendPushNotification (msg : PushMessage) (res : Option GoError)
  | SendSMS (message : String) (phoneNumber : String) (res : Option GoError)
deriving DecidableEq, Repr

/-- The collaborators of `doSendNotification`. The service methods see the
history of calls so far, so they may answer the same arguments differently
at different times. `Validate` is `models.Notification.Validate` and
`NewExponentPushToken` is `expo.NewExponentPushToken`; both are pure. -/
structure Env where
  Validate : Notification → Bool
  NewExponentPushToken : String → String × Option GoError
  SendNotification : List Event → Notification → String × Option GoError
  GetUsers : List Event → List String → List User × Option GoError
  SendPushNotification : List Event → PushMessage → Option GoError
  SendSMS : List Event → String → String → Option GoError

/-- Modelled from the spec: `utils.ContainsString` is not among the sources;
the spec reads `utils.ContainsString(channels, "sms")` as "`channels`
includes SMS", list membership. -/
def ContainsString (list : List String) (s : String) : Bool :=
  list.contains s

/-! ## `doSendNotification` -/

/-- The loop of lines 60-67: validates each user's push token; an invalid one
is reported under the user's ID, a valid one is appended to `pushTokens`. -/
def collectPushTokens (env : Env) :
    List User → NotificationErrorReport → List String → NotificationErrorReport × List String
  | [], errReport, pushTokens => (errReport, pushTokens)
  | user :: users, errReport, pushTokens =>
    match env.NewExponentPushToken user.ExpoPushNotificationToken with
    | (_, some _) =>
      collectPushTokens env users
        { errReport with Push := errReport.Push.set user.ID "failed to get expo token" } pushTokens
    | (token, none) => collectPushTokens env users errReport (pushTokens ++ [token])

/-- The loop of lines 81-87: one `SendSMS` call per user; a failed call is
reported in `errReport.Push` under the user's ID. -/
def sendSMSLoop (env : Env) (SMSmessage : String) :
    List User → NotificationErrorReport → List Event → NotificationErrorReport × List Event
  | [], errReport, trace => (errReport, trace)
  | user :: users, errReport, trace =>
    let err := env.SendSMS trace SMSmessage user.PhoneNumber
    let trace1 := trace ++ [Event.SendSMS SMSmessage user.PhoneNumber err]
    match err with
    | some e =>
      sendSMSLoop env SMSmessage users
        { errReport with Push := errReport.Push.set user.ID ("failed to send SMS: " ++ e.Error) }
        trace1
    | none => sendSMSLoop env SMSmessage users errReport trace1

/-- The push block, lines 58-79. -/
def pushBlock (env : Env) (notification : Notification) (users : List User)
    (errReport : NotificationErrorReport) (trace : List Event) :
    NotificationErrorReport × List Event :=
  if ContainsString notification.Channels "push" then
    let (errReport1, pushTokens) := collectPushTokens env users errReport []
    let msg : PushMessage :=
      { To := pushTokens
        Title := notification.Title
        Body := notification.Body
        Data := notification.Data
        Sound := "default"
        Priority := DefaultPriority }
    let err := env.SendPushNotification trace msg
    let trace1 := trace ++ [Event.SendPushNotification msg err]
    match err with
    | some e =>
      ({ errReport1 with Push := errReport1.Push.set "general" ("failed to send push: " ++ e.Error) },
        trace1)
    | none => (errReport1, trace1)
  else (errReport, trace)

/-- The SMS block, lines 80-88. -/
def smsBlock (env : Env) (notification : Notification) (users : List User)
    (errReport : NotificationErrorReport) (trace : List Event) :
    NotificationErrorReport × List Event :=
  if ContainsString notification.Channels "sms" && notification.SMSmessage != "" then
    sendSMSLoop env notification.SMSmessage users errReport trace
  else (errReport, trace)

/-- What a run of `doSendNotification` produces: its three return values and
the history of collaborator calls extended by the calls of this run. -/
structure Outcome where
  notificationID : String
  errReport : NotificationErrorReport
  err : Option GoError
  trace : List Event
deriving DecidableEq, Repr

/-- The method `S.doSendNotification` (lines 41-91), started after the
collaborator calls `trace`. -/
def doSendNotification (env : Env) (trace : List Event) (notification : Notification) :
    Outcome :=
  let errReport : NotificationErrorReport := { Push := [], SMS := [] }
  if !env.Validate notification then
    { notificationID := "", errReport := errReport,
      err := some (GoError.MalformedBodyError ""), trace := trace }
  else
    let saved := env.SendNotification trace notification
    let trace1 := trace ++ [Event.SendNotification notification saved]
    match saved with
    | (_, some err) =>
      { notificationID := "", errReport := errReport, err := some err, trace := trace1 }
    | (notifcationID, none) =>
      let found := env.GetUsers trace1 notification.To
      let trace2 := trace1 ++ [Event.GetUsers notification.To found]
      match found with
      | (_, some err) =>
        { notificationID := "", errReport := errReport, err := some err, trace := trace2 }
      | (users, none) =>
        let (errReport1, trace3) := pushBlock env notification users errReport trace2
        let (errReport2, trace4) := smsBlock env notification users errReport1 trace3
        { notificationID := notifcationID, errReport := errReport2, err := none, trace := trace4 }

/-- Whether `expo.NewExponentPushToken` accepts the push token of `user`
(returns a nil error). -/
def tokenAccepted (env : Env) (user : User) : Bool :=
  (env.NewExponentPushToken user.ExpoPushNotificationToken).2.isNone

/-- Whether an event is a `SendSMS` call that returned an error. -/
def Event.failedSMS : Event → Bool
  | Event.SendSMS _ _ (some _) => true
  | _ => false

/-- The events a run has added to the history `before` it started with. -/
def eventsSince (before : List Event) (out : Outcome) : List Event :=
  out.trace.drop before.length

/-! ## Reading the history -/

/-- The `SendSMS` calls of a history, in order, as (message, phone number). -/
def smsCalls : List Event → List (String × String)
  | [] => []
  | Event.SendSMS message phoneNumber _ :: es => (message, phoneNumber) :: smsCalls es
  | _ :: es => smsCalls es

/-- The messages handed to `SendPushNotification` in a history, in order. -/
def pushCalls : List Event → List PushMessage
  | [] => []
  | Event.SendPushNotification msg _ :: es => msg :: pushCalls es
  | _ :: es => pushCalls es

/-- The notifications handed to `NotificationService.SendNotification`. -/
def persistCalls : List Event → List Notification
  | [] => []
  | Event.SendNotification notification _ :: es => notification :: persistCalls es
  | _ :: es => persistCalls es

/-- The identifier lists handed to `UserService.GetUsers`. -/
def getUsersCalls : List Event → List (List String)
  | [] => []
  | Event.GetUsers ids _ :: es => ids :: getUsersCalls es
  | _ :: es => getUsersCalls es

/-! ## Concrete collaborators used in the examples -/

/-- A token check in the manner of the push SDK: a token is accepted when it
starts with `ExponentPushToken`. -/
def prefixTokenCheck (token : String) : String × Option GoError :=
  if "ExponentPushToken".data.isPrefixOf token.data then (token, none)
  else ("", some (GoError.plain "malformed push token"))

/-- A user with a well-formed push token and a phone number. -/
def userWithToken : User :=
  { ID := "U1", ExpoPushNotificationToken := "ExponentPushToken[a]", PhoneNumber := "555-0100" }

/-- A user without push token. -/
def userWithoutToken : User := { ID := "U2", PhoneNumber := "555-0101" }

/-- The notification `InviteEventMembers` dispatches (`src/event_handlers.go`,
lines 331-340): push and SMS are requested and `SMSmessage` is left empty.
`EventRSVP` is the constant `models.EventRSVP`. -/
def inviteNotification (EventRSVP : String) (To : List String) (hostName eventName eventID : String) :
    Notification :=
  { Type_ := EventRSVP
    Channels := ["push", "sms"]
    To := To
    Title := "You've been invited to a new Kickback event"
    Body := hostName ++ " invited you to " ++ eventName
    Data := [("eventId", eventID)] }

/-- Collaborators for the examples: a notification validates when it has a
recipient, persistence answers `saved`, the directory answers `found`, and
the push and SMS providers answer `pushErr` and `smsErr` to every call. -/
def fixedEnv (saved : String × Option GoError) (found : List User × Option GoError)
    (pushErr smsErr : Option GoError) : Env where
  Validate := fun n => !n.To.isEmpty
  NewExponentPushToken := prefixTokenCheck
  SendNotification := fun _ _ => saved
  GetUsers := fun _ _ => found
  SendPushNotification := fun _ _ => pushErr
  SendSMS := fun _ _ _ => smsErr

/-- Collaborators for the examples: the record is stored as `N1` and the
directory returns `users`. -/
def exampleEnv (users : List User) (pushErr smsErr : Option GoError) : Env :=
  fixedEnv ("N1", none) (users, none) pushErr smsErr

/-! ## Further readings of the history -/

/-- Whether an event is a `SendPushNotification` call that returned an error. -/
def Event.failedPush : Event → Bool
  | Event.SendPushNotification _ (some _) => true
  | _ => false

/-- Whether an event is a `NotificationService.SendNotification` call that
returned a nil error: the notification record has been stored. -/
def Event.stored : Event → Bool
  | Event.SendNotification _ (_, none) => true
  | _ => false

/-- The message the push block (lines 68-75) builds from the notification
and the collected tokens. -/
def pushMessage (notification : Notification) (pushTokens : List String) : PushMessage :=
  { To := pushTokens
    Title := notification.Title
    Body := notification.Body
    Data := notification.Data
    Sound := "default"
    Priority := DefaultPriority }

/-! ## The validator -/

/-- Modelled from the spec: `models.Notification.Validate` is not among the
sources. By section 4.1 of the spec validation fails when `recipients` is
empty, when `channels` is empty, when `channels` contains a kind outside
push and sms, or when `type` is not a recognised enumerated value. `types`
lists the recognised values of `Type`. -/
def Notification.Validate (types : List String) (n : Notification) : Bool :=
  !n.To.isEmpty && !n.Channels.isEmpty &&
    n.Channels.all (fun c => c == "push" || c == "sms") && types.contains n.Type_

/-- Collaborators for the examples whose validator is the one of the spec. -/
def validatingEnv (types : List String) (users : List User) (pushErr smsErr : Option GoError) :
    Env :=
  { exampleEnv users pushErr smsErr with Validate := Notification.Validate types }

/-! ## HTTP responses (`src/handlers/handlers.go`) -/

/-- Modelled from the spec: the constant `http.StatusOK` of Go's `net/http` is
not among the sources; the claims give it as 200. -/
def StatusOK : Int := 200

/-- Modelled from the spec: the constant `http.StatusNoContent` of Go's
`net/http` is not among the sources; the claims give it as 204. -/
def StatusNoContent : Int := 204

/-- Modelled from the spec: the constant `http.StatusBadRequest` of Go's
`net/http` is not among the sources; the claims give it as 400. -/
def StatusBadRequest : Int := 400

/-- Modelled from the spec: the constant `http.StatusInternalServerError` of
Go's `net/http` is not among the sources; the claims give it as 500. -/
def StatusInternalServerError : Int := 500

/-- The method `Code()` of an error value that implements `handlers.APIError`
(lines 104-106, 116-118, 128-130); `none` for an error value that does not
implement the interface. -/
def GoError.Code : GoError → Option Int
  | .MissingPathParamError _ => some StatusBadRequest
  | .MissingBodyFieldError _ => some StatusBadRequest
  | .MalformedBodyError _ => some StatusBadRequest
  | .apiError _ code => some code
  | .plain _ => none

/-- The fields of `models.Task` the handlers use, with its ID and name. -/
structure Task where
  ID : String := ""
  Name : String := ""
  ParentID : String := ""
  Assignees : List String := []
  CreatedBy : String := ""
deriving DecidableEq, Repr

/-- The struct `models.TaskUpdates`, which the handlers pass on unread. -/
structure TaskUpdates where
  Fields : GoMap := []
deriving DecidableEq, Repr

/-- Go values of type `interface{}` that the handlers put into a response:
`nil`, a string, an integer, a task, a slice, or a map with string keys
(`gin.H`, `models.M`). -/
inductive Value where
  | nil
  | str (s : String)
  | int (n : Int)
  | task (t : Task)
  | list (vs : List Value)
  | map (kvs : List (String × Value))

/-- The assignment `m[k] = v` on a map with string keys. -/
def Value.setField : List (String × Value) → String → Value → List (String × Value)
  | [], k, v => [(k, v)]
  | (k', v') :: m, k, v =>
    if k' = k then (k', v) :: m else (k', v') :: Value.setField m k v

/-- The struct `errorState` (lines 25-28). -/
structure errorState where
  Message : String := ""
  Code : String := ""
deriving DecidableEq, Repr

/-- The struct `meta` (lines 19-23); a nil `Error` is `none`. -/
structure meta where
  RequestID : String := ""
  HTTPStatus : String := ""
  Error : Option errorState := none
deriving DecidableEq, Repr

/-- The struct `APIResponse` (lines 14-17); a result that is not set is
`Value.nil`. -/
structure APIResponse where
  Result : Value := Value.nil
  Meta : meta := {}

/-- What a handler reads of its `gin.Context`: the path parameters through
`c.Param`, the header `X-Request-ID` of the writer, the request body, the
query parameters through `c.Query` and the ID of `utils.CurrentUser(c)`. -/
structure Context where
  Param : String → String := fun _ => ""
  RequestID : String := ""
  Body : String := ""
  Query : String → String := fun _ => ""
  CurrentUserID : String := ""

/-- The arguments of a call `c.JSON(code, resp)` of a handler. -/
structure Response where
  Status : Int
  Body : APIResponse

/-- The function `EncodeSuccess` (lines 35-45); `StatusText` is
`http.StatusText`. -/
def EncodeSuccess (StatusText : Int → String) (c : Context) (statusCode : Int)
    (result : Value) : Response :=
  { Status := statusCode
    Body :=
      { Result := result
        Meta :=
          { RequestID := c.RequestID
            HTTPStatus := StatusText statusCode
            Error := none } } }

/-- The function `EncodeError` (lines 47-75); `StatusText` is
`http.StatusText`. -/
def EncodeError (StatusText : Int → String) (c : Context) (err : GoError) : Response :=
  match err.Code with
  | some code =>
    { Status := code
      Body :=
        { Result := Value.nil
          Meta :=
            { RequestID := c.RequestID
              HTTPStatus := StatusText code
              Error := some { Message := err.Error } } } }
  | none =>
    { Status := StatusInternalServerError
      Body :=
        { Result := Value.nil
          Meta :=
            { RequestID := c.RequestID
              HTTPStatus := StatusText StatusInternalServerError
              Error := some { Message := "internal service error" } } } }

/-! ## Task handlers (`src/task_handlers.go`) -/

/-- What `UserService.SummarizeUsers` returns, with its field `Summaries`. -/
structure UserSummaries where
  Summaries : Value := Value.nil

/-- One call to a collaborator of the task handlers, with its arguments and
what it returned. -/
inductive TaskEvent where
  | CreateTask (t : Task) (res : String × Option GoError)
  | GetTask (taskID : String) (res : Task × Option GoError)
  | GetTasks (kickbackID : String) (res : List Task × Option GoError)
  | UpdateTask (taskID : String) (updates : TaskUpdates) (res : Option GoError)
  | DeleteTask (taskID : String) (res : Option GoError)
  | SummarizeUsers (ids : List String) (res : UserSummaries)

/-- The collaborators of the task handlers. `StatusText` is `http.StatusText`;
`DecodeTask` and `DecodeTaskUpdates` are the JSON decoding of the request
body into a `models.Task` and a `models.TaskUpdates`; `Find` is the method
`Find` of the value `SummarizeUsers` returns; `Normalize` is
`utils.Normalize`. The service methods see the history of calls so far. -/
structure TaskEnv where
  StatusText : Int → String
  DecodeTask : String → Task × Option GoError
  DecodeTaskUpdates : String → TaskUpdates × Option GoError
  CreateTask : List TaskEvent → Task → String × Option GoError
  GetTask : List TaskEvent → String → Task × Option GoError
  GetTasks : List TaskEvent → String → List Task × Option GoError
  UpdateTask : List TaskEvent → String → TaskUpdates → Option GoError
  DeleteTask : List TaskEvent → String → Option GoError
  SummarizeUsers : List TaskEvent → List String → UserSummaries
  Find : UserSummaries → String → Value
  Normalize : Task → List (String × Value)

/-- The handler `S.CreateTask` (lines 14-34): the response written and the
history extended by the calls of the handler. -/
def CreateTask (env : TaskEnv) (trace : List TaskEvent) (c : Context) :
    Response × List TaskEvent :=
  let param := "kickbackId"
  let kickbackID := c.Param param
  if kickbackID = "" then
    (EncodeError env.StatusText c (GoError.MissingPathParamError "kickbackId"), trace)
  else
    match env.DecodeTask c.Body with
    | (_, some _) => (EncodeError env.StatusText c (GoError.MalformedBodyError ""), trace)
    | (t, none) =>
      let t1 : Task := { t with ParentID := kickbackID }
      let res := env.CreateTask trace t1
      let trace1 := trace ++ [TaskEvent.CreateTask t1 res]
      match res with
      | (_, some err) => (EncodeError env.StatusText c err, trace1)
      | (taskID, none) =>
        (EncodeSuccess env.StatusText c StatusOK (Value.map [("taskId", Value.str taskID)]),
          trace1)

/-- The handler `S.GetTask` (lines 36-50). -/
def GetTask (env : TaskEnv) (trace : List TaskEvent) (c : Context) :
    Response × List TaskEvent :=
  let param := "taskId"
  let taskID := c.Param param
  if taskID = "" then
    (EncodeError env.StatusText c (GoError.MissingPathParamError param), trace)
  else
    let res := env.GetTask trace taskID
    let trace1 := trace ++ [TaskEvent.GetTask taskID res]
    match res with
    | (_, some err) => (EncodeError env.StatusText c err, trace1)
    | (task, none) => (EncodeSuccess env.StatusText c StatusOK (Value.task task), trace1)

/-- The loop of lines 65-71 of `S.GetTasks`: each task is normalized into a
map whose `assignees` and `created_by` are replaced by user summaries. -/
def tasksWithUserInfo (env : TaskEnv) :
    List Task → List Value → List TaskEvent → List Value × List TaskEvent
  | [], acc, trace => (acc, trace)
  | task :: res, acc, trace =>
    let s1 := env.SummarizeUsers trace task.Assignees
    let trace1 := trace ++ [TaskEvent.SummarizeUsers task.Assignees s1]
    let assignees := s1.Summaries
    let taskAsMap := env.Normalize task
    let taskAsMap1 := Value.setField taskAsMap "assignees" assignees
    let s2 := env.SummarizeUsers trace1 [task.CreatedBy]
    let trace2 := trace1 ++ [TaskEvent.SummarizeUsers [task.CreatedBy] s2]
    let taskAsMap2 := Value.setField taskAsMap1 "created_by" (env.Find s2 task.CreatedBy)
    tasksWithUserInfo env res (acc ++ [Value.map taskAsMap2]) trace2

/-- The handler `S.GetTasks` (lines 52-74). -/
def GetTasks (env : TaskEnv) (trace : List TaskEvent) (c : Context) :
    Response × List TaskEvent :=
  let param := "kickbackId"
  let kickbackID := c.Param param
  if kickbackID = "" then
    (EncodeError env.StatusText c (GoError.MissingPathParamError param), trace)
  else
    let res := env.GetTasks trace kickbackID
    let trace1 := trace ++ [TaskEvent.GetTasks kickbackID res]
    match res with
    | (_, some err) => (EncodeError env.StatusText c err, trace1)
    | (tasks, none) =>
      let (withInfo, trace2) := tasksWithUserInfo env tasks [] trace1
      (EncodeSuccess env.StatusText c StatusOK (Value.map [("tasks", Value.list withInfo)]),
        trace2)

/-- The handler `S.UpdateTask` (lines 76-95). -/
def UpdateTask (env : TaskEnv) (trace : List TaskEvent) (c : Context) :
    Response × List TaskEvent :=
  let param := "taskId"
  let taskID := c.Param param
  if taskID = "" then
    (EncodeError env.StatusText c (GoError.MissingPathParamError param), trace)
  else
    match env.DecodeTaskUpdates c.Body with
    | (_, some _) => (EncodeError env.StatusText c (GoError.MalformedBodyError ""), trace)
    | (updates, none) =>
      let err := env.UpdateTask trace taskID updates
      let trace1 := trace ++ [TaskEvent.UpdateTask taskID updates err]
      match err with
      | some e => (EncodeError env.StatusText c e, trace1)
      | none => (EncodeSuccess env.StatusText c StatusNoContent Value.nil, trace1)

/-- The handler `S.DeleteTask` (lines 97-111). -/
def DeleteTask (env : TaskEnv) (trace : List TaskEvent) (c : Context) :
    Response × List TaskEvent :=
  let param := "taskId"
  let taskID := c.Param param
  if taskID = "" then
    (EncodeError env.StatusText c (GoError.MissingPathParamError param), trace)
  else
    let err := env.DeleteTask trace taskID
    let trace1 := trace ++ [TaskEvent.DeleteTask taskID err]
    match err with
    | some e => (EncodeError env.StatusText c e, trace1)
    | none => (EncodeSuccess env.StatusText c StatusNoContent Value.nil, trace1)

/-- Collaborators of the task handlers for the examples: the body `bad` does
not decode, every other body decodes to `task`, and every service call
answers `err`. -/
def exampleTaskEnv (task : Task) (err : Option GoError) : TaskEnv where
  StatusText := fun code => if code = 400 then "Bad Request" else ""
  DecodeTask := fun body =>
    if body = "bad" then ({}, some (GoError.plain "invalid character")) else (task, none)
  DecodeTaskUpdates := fun body =>
    if body = "bad" then ({}, some (GoError.plain "invalid character")) else ({}, none)
  CreateTask := fun _ _ => ("TSK_1", err)
  GetTask := fun _ _ => (task, err)
  GetTasks := fun _ _ => ([task], err)
  UpdateTask := fun _ _ _ => err
  DeleteTask := fun _ _ => err
  SummarizeUsers := fun _ _ => {}
  Find := fun _ _ => Value.nil
  Normalize := fun t => [("_id", Value.str t.ID), ("name", Value.str t.Name)]

/-- A request context without path parameters. -/
def noParams : Context := {}

/-- The `meta.error.errorMessage` of a response, when `meta.error` is set. -/
def Response.errorMessage (r : Response) : Option String :=
  r.Body.Meta.Error.map (fun e => e.Message)

/-- The `meta.error.errorCode` of a response, when `meta.error` is set. -/
def Response.errorCode (r : Response) : Option String :=
  r.Body.Meta.Error.map (fun e => e.Code)

/-! ## Event and expense handlers: data
(`src/event_handlers.go`, `src/expense_handlers.go`) -/

/-- The struct `models.Member`, with the fields the handlers set. -/
structure Member where
  UserID : String := ""
  Status : String := ""
  InvitedBy : String := ""
deriving DecidableEq, Repr

/-- The fields of the struct `models.Event` the handlers read. -/
structure models.Event where
  ID : String := ""
  Name : String := ""
  Description : String := ""
  CreatedBy : String := ""
  CreatedAt : Int := 0
  Hosts : List String := []
  Members : List Member := []
deriving DecidableEq, Repr

/-- The struct `models.EventUpdates`, which `UpdateEvent` passes on unread. -/
structure EventUpdates where
  Fields : GoMap := []
deriving DecidableEq, Repr

/-- The fields of `models.ExpenseAssignee` the handlers read. -/
structure ExpenseAssignee where
  UserID : String := ""
  IsCompleted : Bool := false
deriving DecidableEq, Repr

/-- The fields of `models.Expense` the handlers read. -/
structure Expense where
  ID : String := ""
  Name : String := ""
  ParentID : String := ""
  CreatedBy : String := ""
  Assignees : List ExpenseAssignee := []
deriving DecidableEq, Repr

/-- The body `RSVP` decodes (lines 386-391 of `src/event_handlers.go`). -/
structure RSVPBody where
  UserID : String := ""
  Status : String := ""
deriving DecidableEq, Repr

/-- An element of `users` in the body of `InviteEventMembers` (lines 245-248). -/
structure InviteUser where
  IsHost : Bool := false
  UserID : String := ""
deriving DecidableEq, Repr

/-- An element of `new_users` in the body of `InviteEventMembers`
(lines 249-254). -/
structure InviteNewUser where
  IsHost : Bool := false
  PhoneNumber : String := ""
  FirstName : String := ""
  LastName : String := ""
deriving DecidableEq, Repr

/-- The body `InviteEventMembers` decodes (lines 244-255). -/
structure InviteBody where
  Users : List InviteUser := []
  NewUsers : List InviteNewUser := []
deriving DecidableEq, Repr

/-- One call a handler makes, with its arguments and what it returned. For
`ResolveLinks` the returned value is not recorded; `doSendNotification` is
a call of the handler to `S.doSendNotification`, whose results no handler
reads. -/
inductive HandlerEvent where
  | UpdateEvent (eventID : String) (updates : EventUpdates) (res : Option GoError)
  | GetEvent (eventID : String) (res : models.Event × Option GoError)
  | ResolveLinks (event : models.Event)
  | RSVP (eventID : String) (userID : String) (status : String) (res : Option GoError)
  | GetUserByID (userID : String) (res : User × Option GoError)
  | CreateUser (user : User) (res : String × Option GoError)
  | Invite (eventID : String) (invites : List Member) (res : List Member × Option GoError)
  | AddEventHosts (eventID : String) (hosts : List String) (res : Option GoError)
  | GetUsers (ids : List String) (res : List User × Option GoError)
  | SendSMS (message : String) (phoneNumber : String) (res : Option GoError)
  | Connect (ids : List String) (res : Option GoError)
  | GetExpense (expenseID : String) (res : Expense × Option GoError)
  | DeleteExpense (expenseID : String) (res : Option GoError)
  | doSendNotification (notification : Notification)
deriving DecidableEq, Repr

/-- The collaborators of the event and expense handlers.

* `Notify` holds the collaborators of `doSendNotification`.
* `StatusText` is `http.StatusText`; `Since` is
  `time.Since(time.Unix(t, 0))` in nanoseconds and `Hour` is `time.Hour`.
* `EventUpdated`, `EventRSVP`, `EventMemberAttending`, `EventCoHost`,
  `ExpenseDeleted`, `MemberStatusInvited` and `MemberStatusGoing` are the
  constants of package `models`.
* `RequiresNotification`, `MemberUserIDs` and `Name` are the methods of
  `models.EventUpdates`, `models.Event` and `models.User`;
  `AsUserExistsError` is the type assertion `err.(services.UserExistsError)`,
  giving the `ExistingUserID` of such an error.
* `DecodeEventUpdates`, `DecodeRSVP` and `DecodeInvite` are the JSON decoding
  of the request body.
* The service methods see the history of the calls of the handler so far. -/
structure HandlerEnv where
  Notify : Env
  StatusText : Int → String
  Since : Int → Int
  Hour : Int
  EventUpdated : String
  EventRSVP : String
  EventMemberAttending : String
  EventCoHost : String
  ExpenseDeleted : String
  MemberStatusInvited : String
  MemberStatusGoing : String
  RequiresNotification : EventUpdates → Bool
  MemberUserIDs : models.Event → List String
  Name : User → String
  AsUserExistsError : GoError → Option String
  DecodeEventUpdates : String → EventUpdates × Option GoError
  DecodeRSVP : String → RSVPBody × Option GoError
  DecodeInvite : String → InviteBody × Option GoError
  UpdateEvent : List HandlerEvent → String → EventUpdates → Option GoError
  GetEvent : List HandlerEvent → String → models.Event × Option GoError
  ResolveLinks : List HandlerEvent → models.Event → Value
  RSVP : List HandlerEvent → String → String → String → Option GoError
  GetUserByID : List HandlerEvent → String → User × Option GoError
  CreateUser : List HandlerEvent → User → String × Option GoError
  Invite : List HandlerEvent → String → List Member → List Member × Option GoError
  AddEventHosts : List HandlerEvent → String → List String → Option GoError
  GetUsers : List HandlerEvent → List String → List User × Option GoError
  SendSMS : List HandlerEvent → String → String → Option GoError
  Connect : List HandlerEvent → List String → Option GoError
  GetExpense : List HandlerEvent → String → Expense × Option GoError
  DeleteExpense : List HandlerEvent → String → Option GoError

/-- What a run of a handler produces: the responses it writes with `c.JSON`,
in order, the history of its calls and the history of the collaborators of
`doSendNotification`, both extended by this run. -/
structure HandlerResult where
  Responses : List Response
  trace : List HandlerEvent
  ntrace : List Event

/-- A call `s.doSendNotification(c, notification)` whose results are
dropped: the call is recorded and the dispatch runs on the history of its
own collaborators. -/
def dispatch (env : HandlerEnv) (trace : List HandlerEvent) (ntrace : List Event)
    (notification : Notification) : List HandlerEvent × List Event :=
  (trace ++ [HandlerEvent.doSendNotification notification],
    (doSendNotification env.Notify ntrace notification).trace)

/-- The function `memberListToUserIDs` (`src/event_handlers.go`, lines
496-502), with `userIDs` as the slice built so far. -/
def memberListToUserIDsLoop : List Member → List String → List String
  | [], userIDs => userIDs
  | m :: members, userIDs => memberListToUserIDsLoop members (userIDs ++ [m.UserID])

/-- The function `memberListToUserIDs`. -/
def memberListToUserIDs (members : List Member) : List String :=
  memberListToUserIDsLoop members []

/-- The loop of `assigneesToUserIDs` (`src/expense_handlers.go`, lines
334-339), with `userIDs` as the slice built so far. -/
def assigneesToUserIDsLoop (onlyCompleted : Bool) :
    List ExpenseAssignee → List String → List String
  | [], userIDs => userIDs
  | assignee :: assignees, userIDs =>
    if onlyCompleted && !assignee.IsCompleted then
      assigneesToUserIDsLoop onlyCompleted assignees userIDs
    else assigneesToUserIDsLoop onlyCompleted assignees (userIDs ++ [assignee.UserID])

/-- The function `assigneesToUserIDs` (lines 332-341). -/
def assigneesToUserIDs (assignees : List ExpenseAssignee) (onlyCompleted : Bool) :
    List String :=
  assigneesToUserIDsLoop onlyCompleted assignees []

/-! ## Event and expense handlers -/

/-- The loop of lines 148-153 of `S.UpdateEvent`, with `usersToNotify` as the
slice built so far: every member except the current user is appended. -/
def usersToNotifyLoop (currentUserID : String) : List String → List String → List String
  | [], usersToNotify => usersToNotify
  | userID :: userIDs, usersToNotify =>
    if userID != currentUserID then
      usersToNotifyLoop currentUserID userIDs (usersToNotify ++ [userID])
    else usersToNotifyLoop currentUserID userIDs usersToNotify

/-- The notification `S.UpdateEvent` dispatches (lines 155-164). -/
def eventUpdatedNotification (env : HandlerEnv) (usersToNotify : List String)
    (updatedEvent : models.Event) (eventID : String) : Notification :=
  { Type_ := env.EventUpdated
    Channels := ["push"]
    To := usersToNotify
    Title := "Your event " ++ updatedEvent.Name ++ " has been updated"
    Body := "check your new event details"
    Data := [("eventId", eventID)] }

/-- The handler `S.UpdateEvent` (`src/event_handlers.go`, lines 120-169). -/
def UpdateEvent (env : HandlerEnv) (trace : List HandlerEvent) (ntrace : List Event)
    (c : Context) : HandlerResult :=
  let eventID := c.Param "eventId"
  if eventID = "" then
    ⟨[EncodeError env.StatusText c (GoError.MissingBodyFieldError "eventId")], trace, ntrace⟩
  else
    match env.DecodeEventUpdates c.Body with
    | (_, some _) =>
      ⟨[EncodeError env.StatusText c (GoError.MalformedBodyError "")], trace, ntrace⟩
    | (eventUpdates, none) =>
      let err := env.UpdateEvent trace eventID eventUpdates
      let trace1 := trace ++ [HandlerEvent.UpdateEvent eventID eventUpdates err]
      match err with
      | some e => ⟨[EncodeError env.StatusText c e], trace1, ntrace⟩
      | none =>
        let got := env.GetEvent trace1 eventID
        let trace2 := trace1 ++ [HandlerEvent.GetEvent eventID got]
        match got with
        | (_, some e) => ⟨[EncodeError env.StatusText c e], trace2, ntrace⟩
        | (updatedEvent, none) =>
          let sent : List HandlerEvent × List Event :=
            if env.RequiresNotification eventUpdates then
              let d := env.Since updatedEvent.CreatedAt
              if d < 1 * env.Hour then (trace2, ntrace)
              else
                let usersToNotify :=
                  usersToNotifyLoop c.CurrentUserID (env.MemberUserIDs updatedEvent) []
                dispatch env trace2 ntrace
                  (eventUpdatedNotification env usersToNotify updatedEvent eventID)
            else (trace2, ntrace)
          let links := env.ResolveLinks sent.1 updatedEvent
          ⟨[EncodeSuccess env.StatusText c StatusOK links],
            sent.1 ++ [HandlerEvent.ResolveLinks updatedEvent], sent.2⟩

/-- The notifications `S.RSVP` dispatches when the status is going (lines
416-446): a text to the user when the request comes from the web, and a push
to the user when the user is a host of the event. -/
def rsvpGoingDispatches (env : HandlerEnv) (trace : List HandlerEvent) (ntrace : List Event)
    (source : String) (eventID : String) (event : models.Event) (user : User) :
    List HandlerEvent × List Event :=
  let sent : List HandlerEvent × List Event :=
    if source = "web" then
      let msg := "Thank you for RSVPing " ++ event.Name ++ "." ++
        " The other attendees have been added to your Kickback contacts and you can invite them to events going forward." ++
        " To host your own event, get our app"
      dispatch env trace ntrace
        { Type_ := env.EventMemberAttending
          Channels := ["sms"]
          To := [user.ID]
          Title := ""
          Body := ""
          Data := [("eventId", eventID)]
          SMSmessage := msg }
    else (trace, ntrace)
  if ContainsString event.Hosts user.ID then
    dispatch env sent.1 sent.2
      { Type_ := env.EventCoHost
        Channels := ["push"]
        To := [user.ID]
        Title := "You've been been made a co-host"
        Body := "You are now a cohost of " ++ event.Name
        Data := [("eventId", eventID)] }
  else sent

/-- The handler `S.RSVP` (`src/event_handlers.go`, lines 378-461). -/
def RSVP (env : HandlerEnv) (trace : List HandlerEvent) (ntrace : List Event) (c : Context) :
    HandlerResult :=
  let param := "eventId"
  let eventID := c.Param param
  if eventID = "" then
    ⟨[EncodeError env.StatusText c (GoError.MissingPathParamError param)], trace, ntrace⟩
  else
    let source := c.Query "source"
    match env.DecodeRSVP c.Body with
    | (_, some _) =>
      ⟨[EncodeError env.StatusText c (GoError.MalformedBodyError "")], trace, ntrace⟩
    | (rsvp, none) =>
      let currentUserID := c.CurrentUserID
      if currentUserID = "" ∧ rsvp.UserID = "" then
        ⟨[EncodeError env.StatusText c (GoError.MissingPathParamError param)], trace, ntrace⟩
      else
        let userID := if rsvp.UserID = "" then currentUserID else rsvp.UserID
        let err := env.RSVP trace eventID userID rsvp.Status
        let trace1 := trace ++ [HandlerEvent.RSVP eventID userID rsvp.Status err]
        match err with
        | some e => ⟨[EncodeError env.StatusText c e], trace1, ntrace⟩
        | none =>
          let gotEvent := env.GetEvent trace1 eventID
          let trace2 := trace1 ++ [HandlerEvent.GetEvent eventID gotEvent]
          match gotEvent with
          | (_, some e) => ⟨[EncodeError env.StatusText c e], trace2, ntrace⟩
          | (event, none) =>
            let gotUser := env.GetUserByID trace2 userID
            let trace3 := trace2 ++ [HandlerEvent.GetUserByID userID gotUser]
            match gotUser with
            | (_, some e) => ⟨[EncodeError env.StatusText c e], trace3, ntrace⟩
            | (user, none) =>
              let sent : List HandlerEvent × List Event :=
                if rsvp.Status = env.MemberStatusGoing then
                  rsvpGoingDispatches env trace3 ntrace source eventID event user
                else (trace3, ntrace)
              let last := dispatch env sent.1 sent.2
                { Type_ := env.EventRSVP
                  Channels := ["push"]
                  To := [event.CreatedBy]
                  Title := "Someone RSVPed to your Kickback event"
                  Body := env.Name user ++ " set their status as " ++ rsvp.Status ++
                    " for your event " ++ event.Name
                  Data := [("eventId", eventID)] }
              ⟨[EncodeSuccess env.StatusText c StatusOK
                  (Value.map [(userID, Value.str rsvp.Status)])], last.1, last.2⟩

/-- The handler `S.DeleteExpense` (`src/expense_handlers.go`, lines
197-257). -/
def DeleteExpense (env : HandlerEnv) (trace : List HandlerEvent) (ntrace : List Event)
    (c : Context) : HandlerResult :=
  let expenseID := c.Param "expenseId"
  if expenseID = "" then
    ⟨[EncodeError env.StatusText c (GoError.MissingPathParamError "expenseId")], trace, ntrace⟩
  else
    let gotExpense := env.GetExpense trace expenseID
    let trace1 := trace ++ [HandlerEvent.GetExpense expenseID gotExpense]
    match gotExpense with
    | (_, some e) => ⟨[EncodeError env.StatusText c e], trace1, ntrace⟩
    | (expense, none) =>
      let gotEvent := env.GetEvent trace1 expense.ParentID
      let trace2 := trace1 ++ [HandlerEvent.GetEvent expense.ParentID gotEvent]
      match gotEvent with
      | (_, some e) => ⟨[EncodeError env.StatusText c e], trace2, ntrace⟩
      | (event, none) =>
        let err := env.DeleteExpense trace2 expenseID
        let trace3 := trace2 ++ [HandlerEvent.DeleteExpense expenseID err]
        match err with
        | some e => ⟨[EncodeError env.StatusText c e], trace3, ntrace⟩
        | none =>
          let sent : List HandlerEvent × List Event :=
            if expense.CreatedBy = c.CurrentUserID then
              dispatch env trace3 ntrace
                { Type_ := env.ExpenseDeleted
                  Channels := ["push"]
                  To := assigneesToUserIDs expense.Assignees false
                  Title := "Your assigned expense has been deleted"
                  Body := expense.Name ++ " has been deleted in your Kickback " ++ event.Name
                  Data := [("eventId", expense.ParentID)] }
            else (trace3, ntrace)
          if expense.CreatedBy ≠ c.CurrentUserID then
            let gotUser := env.GetUserByID sent.1 c.CurrentUserID
            let trace4 := sent.1 ++ [HandlerEvent.GetUserByID c.CurrentUserID gotUser]
            match gotUser with
            | (_, some e) => ⟨[EncodeError env.StatusText c e], trace4, sent.2⟩
            | (user, none) =>
              let last := dispatch env trace4 sent.2
                { Type_ := env.ExpenseDeleted
                  Channels := ["push"]
                  To := [expense.CreatedBy]
                  Title := "Your expense has been deleted"
                  Body := env.Name user ++ " marked your expense " ++ expense.Name ++
                    " as completed in your Kickback " ++ event.Name
                  Data := [("eventId", expense.ParentID)] }
              ⟨[EncodeSuccess env.StatusText c StatusNoContent Value.nil], last.1, last.2⟩
          else ⟨[EncodeSuccess env.StatusText c StatusNoContent Value.nil], sent.1, sent.2⟩

/-- The loop over `body.NewUsers` of `S.InviteEventMembers` (lines 268-296):
each new user is created; an existing account is invited under its existing
ID; any other failure is noted in `failures` under the phone number, and the
user is invited all the same, under the ID `CreateUser` returned. -/
def newUsersLoop (env : HandlerEnv) (currentUser : String) :
    List InviteNewUser → List Member → GoMap → List String → List HandlerEvent →
      List Member × GoMap × List String × List HandlerEvent
  | [], invitesToSend, failures, hosts, trace => (invitesToSend, failures, hosts, trace)
  | newUser :: newUsers, invitesToSend, failures, hosts, trace =>
    let arg : User :=
      { PhoneNumber := newUser.PhoneNumber
        FirstName := newUser.FirstName
        LastName := newUser.LastName }
    let res := env.CreateUser trace arg
    let trace1 := trace ++ [HandlerEvent.CreateUser arg res]
    match res with
    | (newUserID, some err) =>
      match env.AsUserExistsError err with
      | some ExistingUserID =>
        newUsersLoop env currentUser newUsers
          (invitesToSend ++ [{ UserID := ExistingUserID, Status := env.MemberStatusInvited,
                               InvitedBy := currentUser }])
          failures
          (if newUser.IsHost then hosts ++ [ExistingUserID] else hosts)
          trace1
      | none =>
        newUsersLoop env currentUser newUsers
          (invitesToSend ++ [{ UserID := newUserID, Status := env.MemberStatusInvited,
                               InvitedBy := currentUser }])
          (failures.set newUser.PhoneNumber ("Failed: " ++ err.Error))
          (if newUser.IsHost then hosts ++ [newUserID] else hosts)
          trace1
    | (newUserID, none) =>
      newUsersLoop env currentUser newUsers
        (invitesToSend ++ [{ UserID := newUserID, Status := env.MemberStatusInvited,
                             InvitedBy := currentUser }])
        failures
        (if newUser.IsHost then hosts ++ [newUserID] else hosts)
        trace1

/-- The loop over `body.Users` of `S.InviteEventMembers` (lines 298-307). -/
def usersLoop (env : HandlerEnv) (currentUser : String) :
    List InviteUser → List Member → List String → List Member × List String
  | [], invitesToSend, hosts => (invitesToSend, hosts)
  | user :: users, invitesToSend, hosts =>
    usersLoop env currentUser users
      (invitesToSend ++ [{ UserID := user.UserID, Status := env.MemberStatusInvited,
                           InvitedBy := currentUser }])
      (if user.IsHost then hosts ++ [user.UserID] else hosts)

/-- Lines 264-307 of `S.InviteEventMembers`: the invites to send, the
failures, the hosts and the extended history. -/
def collectInvites (env : HandlerEnv) (currentUser : String) (body : InviteBody)
    (trace : List HandlerEvent) : List Member × GoMap × List String × List HandlerEvent :=
  let fromNew := newUsersLoop env currentUser body.NewUsers [] [] [] trace
  let fromUsers := usersLoop env currentUser body.Users fromNew.1 fromNew.2.2.1
  (fromUsers.1, fromNew.2.1, fromUsers.2, fromNew.2.2.2)

/-- The loop of lines 348-357 of `S.InviteEventMembers`: a personal text to
every invited user with a phone number. -/
def inviteSMSLoop (env : HandlerEnv) (hostName : String) (event : models.Event)
    (eventID : String) : List User → List HandlerEvent → List HandlerEvent
  | [], trace => trace
  | invited :: invitedUsers, trace =>
    let msg := hostName ++ " has invited you to " ++ event.Name ++ "\n\n" ++
      "Description: " ++ event.Description ++ "\n\n" ++
      "See event details and RSVP: [Link to app]\n\n" ++
      "https://kickbackapp.io/invited?eventId=" ++ eventID ++ "&userId=" ++ invited.ID
    if invited.PhoneNumber ≠ "" then
      let err := env.SendSMS trace msg invited.PhoneNumber
      inviteSMSLoop env hostName event eventID invitedUsers
        (trace ++ [HandlerEvent.SendSMS msg invited.PhoneNumber err])
    else inviteSMSLoop env hostName event eventID invitedUsers trace

/-- The handler `S.InviteEventMembers` (`src/event_handlers.go`, lines
237-366). -/
def InviteEventMembers (env : HandlerEnv) (trace : List HandlerEvent) (ntrace : List Event)
    (c : Context) : HandlerResult :=
  let param := "eventId"
  let eventID := c.Param param
  if eventID = "" then
    ⟨[EncodeError env.StatusText c (GoError.MissingPathParamError param)], trace, ntrace⟩
  else
    match env.DecodeInvite c.Body with
    | (_, some _) =>
      ⟨[EncodeError env.StatusText c (GoError.MalformedBodyError "")], trace, ntrace⟩
    | (body, none) =>
      let currentUser := c.CurrentUserID
      let collected := collectInvites env currentUser body trace
      let invitesToSend := collected.1
      let failures := collected.2.1
      let hosts := collected.2.2.1
      let trace1 := collected.2.2.2
      let invited := env.Invite trace1 eventID invitesToSend
      let trace2 := trace1 ++ [HandlerEvent.Invite eventID invitesToSend invited]
      match invited with
      | (_, some e) => ⟨[EncodeError env.StatusText c e], trace2, ntrace⟩
      | (membersAdded, none) =>
        let err := env.AddEventHosts trace2 eventID hosts
        let trace3 := trace2 ++ [HandlerEvent.AddEventHosts eventID hosts err]
        match err with
        | some e => ⟨[EncodeError env.StatusText c e], trace3, ntrace⟩
        | none =>
          let gotEvent := env.GetEvent trace3 eventID
          let trace4 := trace3 ++ [HandlerEvent.GetEvent eventID gotEvent]
          match gotEvent with
          | (_, some e) => ⟨[EncodeError env.StatusText c e], trace4, ntrace⟩
          | (event, none) =>
            let gotHost := env.GetUserByID trace4 event.CreatedBy
            let trace5 := trace4 ++ [HandlerEvent.GetUserByID event.CreatedBy gotHost]
            match gotHost with
            | (_, some e) => ⟨[EncodeError env.StatusText c e], trace5, ntrace⟩
            | (host, none) =>
              let sent := dispatch env trace5 ntrace
                (inviteNotification env.EventRSVP (memberListToUserIDs membersAdded)
                  (env.Name host) event.Name eventID)
              let gotUsers := env.GetUsers sent.1 (memberListToUserIDs membersAdded)
              let trace7 := sent.1 ++
                [HandlerEvent.GetUsers (memberListToUserIDs membersAdded) gotUsers]
              match gotUsers with
              | (_, some e) => ⟨[EncodeError env.StatusText c e], trace7, sent.2⟩
              | (invitedUsers, none) =>
                let trace8 := inviteSMSLoop env (env.Name host) event eventID invitedUsers trace7
                let cerr := env.Connect trace8 (env.MemberUserIDs event)
                let trace9 := trace8 ++ [HandlerEvent.Connect (env.MemberUserIDs event) cerr]
                let success := EncodeSuccess env.StatusText c StatusOK
                  (Value.map
                    [("failures", Value.map (failures.map (fun kv => (kv.1, Value.str kv.2)))),
                     ("invites_sent", Value.int membersAdded.length)])
                match cerr with
                | some e => ⟨[EncodeError env.StatusText c e, success], trace9, sent.2⟩
                | none => ⟨[success], trace9, sent.2⟩

/-! ## Reading the history of a handler -/

/-- The events a handler has added to the history `before` it started with. -/
def HandlerResult.events (before : List HandlerEvent) (r : HandlerResult) :
    List HandlerEvent :=
  r.trace.drop before.length

/-- The notifications handed to `doSendNotification`, in order. -/
def dispatches : List HandlerEvent → List Notification
  | [] => []
  | HandlerEvent.doSendNotification n :: es => n :: dispatches es
  | _ :: es => dispatches es

/-- The calls of `EventService.RSVP`, as (event, user, status). -/
def rsvpCalls : List HandlerEvent → List (String × String × String)
  | [] => []
  | HandlerEvent.RSVP eventID userID status _ :: es => (eventID, userID, status) :: rsvpCalls es
  | _ :: es => rsvpCalls es

/-- The calls of `EventService.Invite`, as (event, invites). -/
def inviteCalls : List HandlerEvent → List (String × List Member)
  | [] => []
  | HandlerEvent.Invite eventID invites _ :: es => (eventID, invites) :: inviteCalls es
  | _ :: es => inviteCalls es

/-- The calls of `UserService.CreateUser`, with what they returned. -/
def createUserCalls : List HandlerEvent → List (User × (String × Option GoError))
  | [] => []
  | HandlerEvent.CreateUser user res :: es => (user, res) :: createUserCalls es
  | _ :: es => createUserCalls es

/-- The user a new user is invited as: the existing account when `CreateUser`
failed with a `UserExistsError`, the ID `CreateUser` returned otherwise. -/
def invitee (env : HandlerEnv) (res : String × Option GoError) : String :=
  match res with
  | (newUserID, some err) =>
    match env.AsUserExistsError err with
    | some ExistingUserID => ExistingUserID
    | none => newUserID
  | (newUserID, none) => newUserID

/-- Collaborators of the handlers for the examples. Every body decodes, to the
values given; events were created long ago and every update requires a
notification; `CreateUser` answers the phone number `555-0000` with `taken`,
which is the `UserExistsError` of the account `U7`, and every other number
with `createRes`; every other service call succeeds. -/
def exampleHandlerEnv (event : models.Event) (expense : Expense) (rsvp : RSVPBody)
    (invite : InviteBody) (createRes : String × Option GoError) : HandlerEnv where
  Notify := exampleEnv [] none none
  StatusText := fun _ => ""
  Since := fun _ => 7200000000000
  Hour := 3600000000000
  EventUpdated := "event-updated"
  EventRSVP := "event-rsvp"
  EventMemberAttending := "event-member-attending"
  EventCoHost := "event-cohost"
  ExpenseDeleted := "expense-deleted"
  MemberStatusInvited := "invited"
  MemberStatusGoing := "going"
  RequiresNotification := fun _ => true
  MemberUserIDs := fun e => e.Members.map (fun m => m.UserID)
  Name := fun u => u.FirstName
  AsUserExistsError := fun err => if err = GoError.plain "taken" then some "U7" else none
  DecodeEventUpdates := fun _ => ({}, none)
  DecodeRSVP := fun _ => (rsvp, none)
  DecodeInvite := fun _ => (invite, none)
  UpdateEvent := fun _ _ _ => none
  GetEvent := fun _ _ => (event, none)
  ResolveLinks := fun _ _ => Value.nil
  RSVP := fun _ _ _ _ => none
  GetUserByID := fun _ id => ({ ID := id, FirstName := "Ann" }, none)
  CreateUser := fun _ u =>
    if u.PhoneNumber = "555-0000" then ("", some (GoError.plain "taken")) else createRes
  Invite := fun _ _ invites => (invites, none)
  AddEventHosts := fun _ _ _ => none
  GetUsers := fun _ _ => ([], none)
  SendSMS := fun _ _ _ => none
  Connect := fun _ _ => none
  GetExpense := fun _ _ => (expense, none)
  DeleteExpense := fun _ _ => none

/-- The invite `InviteEventMembers` builds for the user `userID`. -/
def invitedMember (env : HandlerEnv) (currentUser : String) (userID : String) : Member :=
  { UserID := userID, Status := env.MemberStatusInvited, InvitedBy := currentUser }

/-- The user `InviteEventMembers` hands to `CreateUser` for a new user. -/
def newUserArg (newUser : InviteNewUser) : User :=
  { PhoneNumber := newUser.PhoneNumber
    FirstName := newUser.FirstName
    LastName := newUser.LastName }

/-- What the `SendSMS` calls of a history returned, in order. -/
def smsResults : List Event → List (Option GoError)
  | [] => []
  | Event.SendSMS _ _ res :: es => res :: smsResults es
  | _ :: es => smsResults es

/-! ## What `c.JSON` makes of a response -/

/-- What reaches the client of a handler: a panic of the handler, or a
response with a status and, when the status allows one, a body. -/
inductive Written where
  | panic
  | response (status : Int) (body : Option APIResponse)

/-- The status of what was written, when the handler did not panic. -/
def Written.status : Written → Option Int
  | Written.panic => none
  | Written.response status _ => some status

/-- The `meta.error.errorMessage` of the body written, when there is one. -/
def Written.errorMessage : Written → Option String
  | Written.response _ (some body) => body.Meta.Error.map (fun e => e.Message)
  | _ => none

theorem GoMap.get_set_self (m : GoMap) (k v : String) : (m.set k v).get k = some v := by
  induction m with
  | nil => simp [GoMap.set, GoMap.get]
  | cons kv m ih =>
    obtain ⟨a, b⟩ := kv
    by_cases h : a = k
    · simp [GoMap.set, GoMap.get, h]
    · simp [GoMap.set, GoMap.get, h, ih]

theorem GoMap.get_set_of_ne (m : GoMap) (k v j : String) (h : k ≠ j) :
    (m.set k v).get j = m.get j := by
  induction m with
  | nil => simp [GoMap.set, GoMap.get, h]
  | cons kv m ih =>
    obtain ⟨a, b⟩ := kv
    by_cases hak : a = k
    · subst hak
      simp [GoMap.set, GoMap.get, h]
    · by_cases haj : a = j
      · subst haj
        simp [GoMap.set, GoMap.get, hak]
      · simp [GoMap.set, GoMap.get, hak, haj, ih]

theorem GoMap.mem_set (m : GoMap) (k v : String) (kv : String × String)
    (h : kv ∈ m.set k v) : kv ∈ m ∨ kv = (k, v) := by
  induction m with
  | nil => simpa [GoMap.set] using h
  | cons ab m ih =>
    obtain ⟨a, b⟩ := ab
    by_cases hak : a = k
    · subst hak
      simp only [GoMap.set, if_true, List.mem_cons] at h
      rcases h with h | h
      · exact Or.inr h
      · exact Or.inl (List.mem_cons_of_mem _ h)
    · simp only [GoMap.set, hak, if_false, List.mem_cons] at h
      rcases h with h | h
      · exact Or.inl (h ▸ List.mem_cons_self _ _)
      · rcases ih h with h | h
        · exact Or.inl (List.mem_cons_of_mem _ h)
        · exact Or.inr h

theorem smsCalls_append (a b : List Event) : smsCalls (a ++ b) = smsCalls a ++ smsCalls b := by
  induction a with
  | nil => rfl
  | cons e a ih => cases e <;> simp [smsCalls, ih]

theorem pushCalls_append (a b : List Event) :
    pushCalls (a ++ b) = pushCalls a ++ pushCalls b := by
  induction a with
  | nil => rfl
  | cons e a ih => cases e <;> simp [pushCalls, ih]

theorem persistCalls_append (a b : List Event) :
    persistCalls (a ++ b) = persistCalls a ++ persistCalls b := by
  induction a with
  | nil => rfl
  | cons e a ih => cases e <;> simp [persistCalls, ih]

theorem getUsersCalls_append (a b : List Event) :
    getUsersCalls (a ++ b) = getUsersCalls a ++ getUsersCalls b := by
  induction a with
  | nil => rfl
  | cons e a ih => cases e <;> simp [getUsersCalls, ih]

/-! ## The two loops -/

theorem collectPushTokens_tokens (env : Env) (users : List User)
    (errReport : NotificationErrorReport) (pushTokens : List String) :
    (collectPushTokens env users errReport pushTokens).2
      = pushTokens ++ (users.filter (tokenAccepted env)).map
          (fun u => (env.NewExponentPushToken u.ExpoPushNotificationToken).1) := by
  induction users generalizing errReport pushTokens with
  | nil => simp [collectPushTokens]
  | cons u us ih =>
    rcases h : env.NewExponentPushToken u.ExpoPushNotificationToken with ⟨t, _ | e⟩
    · simp [collectPushTokens, h, ih, tokenAccepted]
    · simp [collectPushTokens, h, ih, tokenAccepted]

theorem collectPushTokens_SMS (env : Env) (users : List User)
    (errReport : NotificationErrorReport) (pushTokens : List String) :
    (collectPushTokens env users errReport pushTokens).1.SMS = errReport.SMS := by
  induction users generalizing errReport pushTokens with
  | nil => simp [collectPushTokens]
  | cons u us ih =>
    rcases h : env.NewExponentPushToken u.ExpoPushNotificationToken with ⟨t, _ | e⟩
    · simp [collectPushTokens, h, ih]
    · simp [collectPushTokens, h, ih]

/-- After the token loop, a key belonging to a user with a rejected token
holds the token reason. -/
theorem collectPushTokens_get_rejected (env : Env) (users : List User)
    (errReport : NotificationErrorReport) (pushTokens : List String) (u : User)
    (hmem : u ∈ users) (hbad : tokenAccepted env u = false) :
    (collectPushTokens env users errReport pushTokens).1.Push.get u.ID
      = some "failed to get expo token" := by
  induction users generalizing errReport pushTokens with
  | nil => simp at hmem
  | cons w ws ih =>
    by_cases hin : u ∈ ws
    · rcases h : env.NewExponentPushToken w.ExpoPushNotificationToken with ⟨t, _ | e⟩
      · simp only [collectPushTokens, h]
        exact ih _ _ hin
      · simp only [collectPushTokens, h]
        exact ih _ _ hin
    · have huw : u = w := by
        rcases List.mem_cons.mp hmem with h | h
        · exact h
        · exact absurd h hin
      subst huw
      rcases h : env.NewExponentPushToken u.ExpoPushNotificationToken with ⟨t, _ | e⟩
      · simp [tokenAccepted, h] at hbad
      · simp only [collectPushTokens, h]
        clear hmem hin ih
        generalize hr : ({ errReport with
          Push := errReport.Push.set u.ID "failed to get expo token" } :
            NotificationErrorReport) = r
        have hget : r.Push.get u.ID = some "failed to get expo token" := by
          subst hr
          exact GoMap.get_set_self _ _ _
        clear hr
        induction ws generalizing r pushTokens with
        | nil => simpa [collectPushTokens] using hget
        | cons x xs ihx =>
          rcases hx : env.NewExponentPushToken x.ExpoPushNotificationToken with ⟨t, _ | e⟩
          · simp only [collectPushTokens, hx]
            exact ihx _ _ hget
          · simp only [collectPushTokens, hx]
            apply ihx
            by_cases hk : x.ID = u.ID
            · simp only [hk]
              exact GoMap.get_set_self _ _ _
            · simp only [GoMap.get_set_of_ne _ _ _ _ hk]
              exact hget

/-- Every entry the token loop leaves in the push map was there before or
carries the token reason. -/
theorem collectPushTokens_mem (env : Env) (users : List User)
    (errReport : NotificationErrorReport) (pushTokens : List String) (kv : String × String)
    (h : kv ∈ (collectPushTokens env users errReport pushTokens).1.Push) :
    kv ∈ errReport.Push ∨ kv.2 = "failed to get expo token" := by
  induction users generalizing errReport pushTokens with
  | nil => exact Or.inl (by simpa [collectPushTokens] using h)
  | cons u us ih =>
    rcases hu : env.NewExponentPushToken u.ExpoPushNotificationToken with ⟨t, _ | e⟩
    · simp only [collectPushTokens, hu] at h
      exact ih _ _ h
    · simp only [collectPushTokens, hu] at h
      rcases ih _ _ h with h1 | h1
      · rcases GoMap.mem_set _ _ _ _ h1 with h2 | h2
        · exact Or.inl h2
        · exact Or.inr (by rw [h2])
      · exact Or.inr h1

theorem sendSMSLoop_smsCalls (env : Env) (SMSmessage : String) (users : List User)
    (errReport : NotificationErrorReport) (trace : List Event) :
    smsCalls (sendSMSLoop env SMSmessage users errReport trace).2
      = smsCalls trace ++ users.map (fun u => (SMSmessage, u.PhoneNumber)) := by
  induction users generalizing errReport trace with
  | nil => simp [sendSMSLoop]
  | cons u us ih =>
    cases h : env.SendSMS trace SMSmessage u.PhoneNumber with
    | none => simp [sendSMSLoop, h, ih, smsCalls_append, smsCalls]
    | some e => simp [sendSMSLoop, h, ih, smsCalls_append, smsCalls]

theorem sendSMSLoop_pushCalls (env : Env) (SMSmessage : String) (users : List User)
    (errReport : NotificationErrorReport) (trace : List Event) :
    pushCalls (sendSMSLoop env SMSmessage users errReport trace).2 = pushCalls trace := by
  induction users generalizing errReport trace with
  | nil => simp [sendSMSLoop]
  | cons u us ih =>
    cases h : env.SendSMS trace SMSmessage u.PhoneNumber with
    | none => simp [sendSMSLoop, h, ih, pushCalls_append, pushCalls]
    | some e => simp [sendSMSLoop, h, ih, pushCalls_append, pushCalls]

/-- The SMS loop only appends to the history. -/
theorem sendSMSLoop_trace (env : Env) (SMSmessage : String) (users : List User)
    (errReport : NotificationErrorReport) (trace : List Event) :
    ∃ evs, (sendSMSLoop env SMSmessage users errReport trace).2 = trace ++ evs := by
  induction users generalizing errReport trace with
  | nil => exact ⟨[], by simp [sendSMSLoop]⟩
  | cons u us ih =>
    cases h : env.SendSMS trace SMSmessage u.PhoneNumber with
    | none =>
      obtain ⟨evs, hevs⟩ := ih errReport (trace ++ [Event.SendSMS SMSmessage u.PhoneNumber none])
      exact ⟨Event.SendSMS SMSmessage u.PhoneNumber none :: evs, by
        simp [sendSMSLoop, h, hevs]⟩
    | some e =>
      obtain ⟨evs, hevs⟩ := ih
        { errReport with Push := errReport.Push.set u.ID ("failed to send SMS: " ++ e.Error) }
        (trace ++ [Event.SendSMS SMSmessage u.PhoneNumber (some e)])
      exact ⟨Event.SendSMS SMSmessage u.PhoneNumber (some e) :: evs, by
        simp [sendSMSLoop, h, hevs]⟩

/-- When none of the calls the SMS loop appends to the history has failed,
the loop leaves the report as it was. -/
theorem sendSMSLoop_report_of_no_failure (env : Env) (SMSmessage : String)
    (users : List User) (errReport : NotificationErrorReport) (trace : List Event)
    (hok : ∀ m p e, Event.SendSMS m p (some e) ∉
      (sendSMSLoop env SMSmessage users errReport trace).2.drop trace.length) :
    (sendSMSLoop env SMSmessage users errReport trace).1 = errReport := by
  induction users generalizing errReport trace with
  | nil => simp [sendSMSLoop]
  | cons u us ih =>
    cases h : env.SendSMS trace SMSmessage u.PhoneNumber with
    | none =>
      simp only [sendSMSLoop, h] at hok ⊢
      apply ih
      intro m p e hmem
      obtain ⟨evs, hevs⟩ := sendSMSLoop_trace env SMSmessage us errReport
        (trace ++ [Event.SendSMS SMSmessage u.PhoneNumber none])
      rw [hevs, List.drop_left] at hmem
      apply hok m p e
      rw [hevs, List.append_assoc, List.drop_left]
      simp [hmem]
    | some e =>
      exfalso
      simp only [sendSMSLoop, h] at hok
      obtain ⟨evs, hevs⟩ := sendSMSLoop_trace env SMSmessage us
        { errReport with Push := errReport.Push.set u.ID ("failed to send SMS: " ++ e.Error) }
        (trace ++ [Event.SendSMS SMSmessage u.PhoneNumber (some e)])
      apply hok SMSmessage u.PhoneNumber e
      rw [hevs]
      simp

/-! ## The two blocks and the run after a successful lookup -/

/-- The message `pushBlock` hands to the push provider. -/
theorem pushBlock_trace (env : Env) (n : Notification) (users : List User)
    (errReport : NotificationErrorReport) (trace : List Event)
    (hpush : ContainsString n.Channels "push" = true) :
    ∃ err, (pushBlock env n users errReport trace).2 = trace ++ [Event.SendPushNotification
      { To := (users.filter (tokenAccepted env)).map
          (fun u => (env.NewExponentPushToken u.ExpoPushNotificationToken).1)
        Title := n.Title, Body := n.Body, Data := n.Data, Sound := "default",
        Priority := DefaultPriority } err] := by
  have htok := collectPushTokens_tokens env users errReport []
  simp only [List.nil_append] at htok
  simp only [pushBlock, hpush, if_true]
  rw [htok]
  split <;> exact ⟨_, rfl⟩

theorem pushBlock_trace_skip (env : Env) (n : Notification) (users : List User)
    (errReport : NotificationErrorReport) (trace : List Event)
    (hpush : ContainsString n.Channels "push" = false) :
    pushBlock env n users errReport trace = (errReport, trace) := by
  simp [pushBlock, hpush]

theorem pushBlock_SMS (env : Env) (n : Notification) (users : List User)
    (errReport : NotificationErrorReport) (trace : List Event) :
    (pushBlock env n users errReport trace).1.SMS = errReport.SMS := by
  have h := collectPushTokens_SMS env users errReport []
  unfold pushBlock
  split
  · simp only
    split <;> exact h
  · rfl

theorem pushBlock_get_rejected (env : Env) (n : Notification) (users : List User)
    (errReport : NotificationErrorReport) (trace : List Event) (u : User)
    (hpush : ContainsString n.Channels "push" = true) (hmem : u ∈ users)
    (hbad : tokenAccepted env u = false) (hgen : u.ID ≠ "general") :
    (pushBlock env n users errReport trace).1.Push.get u.ID
      = some "failed to get expo token" := by
  have h := collectPushTokens_get_rejected env users errReport [] u hmem hbad
  simp only [pushBlock, hpush, if_true]
  split
  · simp only
    rw [GoMap.get_set_of_ne _ _ _ _ (Ne.symm hgen)]
    exact h
  · exact h

/-- Every entry `pushBlock` leaves in the push map was there before, or
carries the token reason, or is the `general` entry of a failed batch. -/
theorem pushBlock_mem (env : Env) (n : Notification) (users : List User)
    (errReport : NotificationErrorReport) (trace : List Event) (kv : String × String)
    (h : kv ∈ (pushBlock env n users errReport trace).1.Push) :
    kv ∈ errReport.Push ∨ kv.2 = "failed to get expo token" ∨
      (kv.1 = "general" ∧ ∃ e : GoError, kv.2 = "failed to send push: " ++ e.Error) := by
  unfold pushBlock at h
  split at h
  · simp only at h
    split at h
    · rename_i e _
      rcases GoMap.mem_set _ _ _ _ h with h1 | h1
      · rcases collectPushTokens_mem env users errReport [] kv h1 with h2 | h2
        · exact Or.inl h2
        · exact Or.inr (Or.inl h2)
      · exact Or.inr (Or.inr ⟨by rw [h1], e, by rw [h1]⟩)
    · rcases collectPushTokens_mem env users errReport [] kv h with h2 | h2
      · exact Or.inl h2
      · exact Or.inr (Or.inl h2)
  · exact Or.inl h

theorem pushBlock_smsCalls (env : Env) (n : Notification) (users : List User)
    (errReport : NotificationErrorReport) (trace : List Event) :
    smsCalls (pushBlock env n users errReport trace).2 = smsCalls trace := by
  unfold pushBlock
  split
  · simp only
    split <;> simp [smsCalls_append, smsCalls]
  · rfl

theorem smsBlock_skip (env : Env) (n : Notification) (users : List User)
    (errReport : NotificationErrorReport) (trace : List Event)
    (h : ContainsString n.Channels "sms" = false ∨ n.SMSmessage = "") :
    smsBlock env n users errReport trace = (errReport, trace) := by
  rcases h with h | h <;> simp [smsBlock, h]

theorem smsBlock_run (env : Env) (n : Notification) (users : List User)
    (errReport : NotificationErrorReport) (trace : List Event)
    (hsms : ContainsString n.Channels "sms" = true) (hmsg : n.SMSmessage ≠ "") :
    smsBlock env n users errReport trace = sendSMSLoop env n.SMSmessage users errReport trace := by
  simp [smsBlock, hsms, hmsg]

theorem smsBlock_trace (env : Env) (n : Notification) (users : List User)
    (errReport : NotificationErrorReport) (trace : List Event) :
    ∃ evs, (smsBlock env n users errReport trace).2 = trace ++ evs := by
  unfold smsBlock
  split
  · exact sendSMSLoop_trace _ _ _ _ _
  · exact ⟨[], by simp⟩

theorem smsBlock_pushCalls (env : Env) (n : Notification) (users : List User)
    (errReport : NotificationErrorReport) (trace : List Event) :
    pushCalls (smsBlock env n users errReport trace).2 = pushCalls trace := by
  unfold smsBlock
  split
  · exact sendSMSLoop_pushCalls _ _ _ _ _
  · rfl

theorem smsBlock_report_of_no_failure (env : Env) (n : Notification) (users : List User)
    (errReport : NotificationErrorReport) (trace : List Event)
    (hok : ∀ m p e, Event.SendSMS m p (some e) ∉
      (smsBlock env n users errReport trace).2.drop trace.length) :
    (smsBlock env n users errReport trace).1 = errReport := by
  unfold smsBlock at hok ⊢
  split
  · rename_i hc
    simp only [hc, if_true] at hok
    exact sendSMSLoop_report_of_no_failure _ _ _ _ _ hok
  · rfl

/-- The run of `doSendNotification` once validation, persistence and the
lookup have succeeded: the push block, then the SMS block. -/
theorem doSendNotification_after_lookup (env : Env) (trace : List Event) (n : Notification)
    (id : String) (users : List User) (hv : env.Validate n = true)
    (hp : env.SendNotification trace n = (id, none))
    (hu : env.GetUsers (trace ++ [Event.SendNotification n (id, none)]) n.To = (users, none)) :
    doSendNotification env trace n =
      { notificationID := id
        errReport := (smsBlock env n users
          (pushBlock env n users { Push := [], SMS := [] }
            (trace ++ [Event.SendNotification n (id, none), Event.GetUsers n.To (users, none)])).1
          (pushBlock env n users { Push := [], SMS := [] }
            (trace ++ [Event.SendNotification n (id, none), Event.GetUsers n.To (users, none)])).2).1
        err := none
        trace := (smsBlock env n users
          (pushBlock env n users { Push := [], SMS := [] }
            (trace ++ [Event.SendNotification n (id, none), Event.GetUsers n.To (users, none)])).1
          (pushBlock env n users { Push := [], SMS := [] }
            (trace ++ [Event.SendNotification n (id, none), Event.GetUsers n.To (users, none)])).2).2 } := by
  simp [doSendNotification, hv, hp, hu]

/-- The token check of the examples hands back the string it was given. -/
theorem prefixTokenCheck_returns_argument (s t : String)
    (h : prefixTokenCheck s = (t, none)) : t = s := by
  unfold prefixTokenCheck at h
  split at h
  · exact (Prod.mk.inj h).1.symm
  · simp at h

/-! ## Fatal outcomes -/

/-- C1: when `Validate()` is false, `doSendNotification` returns the empty
notification ID, an empty report and `MalformedBodyError{}`, and the history
of collaborator calls is unchanged: no persist, no lookup, no push, no SMS. -/
theorem doSendNotification_invalid (env : Env) (trace : List Event) (n : Notification)
    (hv : env.Validate n = false) :
    (doSendNotification env trace n).notificationID = "" ∧
    (doSendNotification env trace n).err = some (GoError.MalformedBodyError "") ∧
    (doSendNotification env trace n).errReport = { Push := [], SMS := [] } ∧
    (doSendNotification env trace n).trace = trace ∧
    persistCalls (doSendNotification env trace n).trace = persistCalls trace ∧
    getUsersCalls (doSendNotification env trace n).trace = getUsersCalls trace ∧
    pushCalls (doSendNotification env trace n).trace = pushCalls trace ∧
    smsCalls (doSendNotification env trace n).trace = smsCalls trace := by
  simp [doSendNotification, hv]

/-- C1, at a notification with no recipients, which the validator rejects. -/
theorem doSendNotification_invalid_witness :
    (exampleEnv [] none none).Validate {} = false ∧
    (doSendNotification (exampleEnv [] none none) [] {}).err
      = some (GoError.MalformedBodyError "") ∧
    (doSendNotification (exampleEnv [] none none) [] {}).trace = [] :=
  ⟨rfl, (doSendNotification_invalid (exampleEnv [] none none) [] {} rfl).2.1,
    (doSendNotification_invalid (exampleEnv [] none none) [] {} rfl).2.2.2.1⟩

/-- C2: when a valid notification cannot be persisted, the error of
`NotificationService.SendNotification` is returned as it is, with the empty
notification ID; the persist call is the only collaborator call of the run,
so the lookup, the push provider and the SMS provider are not called. -/
theorem doSendNotification_persist_error (env : Env) (trace : List Event) (n : Notification)
    (id : String) (e : GoError) (hv : env.Validate n = true)
    (hp : env.SendNotification trace n = (id, some e)) :
    (doSendNotification env trace n).err = some e ∧
    (doSendNotification env trace n).notificationID = "" ∧
    (doSendNotification env trace n).trace
      = trace ++ [Event.SendNotification n (id, some e)] ∧
    getUsersCalls (doSendNotification env trace n).trace = getUsersCalls trace ∧
    pushCalls (doSendNotification env trace n).trace = pushCalls trace ∧
    smsCalls (doSendNotification env trace n).trace = smsCalls trace := by
  simp [doSendNotification, hv, hp, getUsersCalls_append, pushCalls_append, smsCalls_append,
    getUsersCalls, pushCalls, smsCalls]

/-- C2, at a store that answers `db down`. -/
theorem doSendNotification_persist_error_witness :
    (doSendNotification
      (fixedEnv ("", some (GoError.plain "db down")) ([], none) none none) []
      { To := ["U1"], Channels := ["push", "sms"], SMSmessage := "hi" }).err
      = some (GoError.plain "db down") ∧
    (doSendNotification
      (fixedEnv ("", some (GoError.plain "db down")) ([], none) none none) []
      { To := ["U1"], Channels := ["push", "sms"], SMSmessage := "hi" }).trace
      = [Event.SendNotification { To := ["U1"], Channels := ["push", "sms"], SMSmessage := "hi" }
          ("", some (GoError.plain "db down"))] :=
  ⟨(doSendNotification_persist_error
      (fixedEnv ("", some (GoError.plain "db down")) ([], none) none none) []
      { To := ["U1"], Channels := ["push", "sms"], SMSmessage := "hi" } ""
      (GoError.plain "db down") rfl rfl).1,
    (doSendNotification_persist_error
      (fixedEnv ("", some (GoError.plain "db down")) ([], none) none none) []
      { To := ["U1"], Channels := ["push", "sms"], SMSmessage := "hi" } ""
      (GoError.plain "db down") rfl rfl).2.2.1⟩

/-- C3: when a valid notification is persisted and `UserService.GetUsers`
returns an error, `doSendNotification` returns that (non-nil) error, the
empty notification ID and a report without entries; the run consists of the
persist call and the lookup, and neither provider is called. -/
theorem doSendNotification_lookup_error (env : Env) (trace : List Event) (n : Notification)
    (id : String) (users : List User) (e : GoError) (hv : env.Validate n = true)
    (hp : env.SendNotification trace n = (id, none))
    (hu : env.GetUsers (trace ++ [Event.SendNotification n (id, none)]) n.To = (users, some e)) :
    (doSendNotification env trace n).err = some e ∧
    (doSendNotification env trace n).err ≠ none ∧
    (doSendNotification env trace n).notificationID = "" ∧
    (doSendNotification env trace n).errReport = { Push := [], SMS := [] } ∧
    (doSendNotification env trace n).trace
      = trace ++ [Event.SendNotification n (id, none), Event.GetUsers n.To (users, some e)] ∧
    pushCalls (doSendNotification env trace n).trace = pushCalls trace ∧
    smsCalls (doSendNotification env trace n).trace = smsCalls trace := by
  simp [doSendNotification, hv, hp, hu, pushCalls_append, smsCalls_append, pushCalls, smsCalls]

/-- C3, at a directory that answers `directory unreachable`. -/
theorem doSendNotification_lookup_error_witness :
    (doSendNotification
      (fixedEnv ("N1", none) ([], some (GoError.plain "directory unreachable")) none none) []
      { To := ["U1"], Channels := ["push", "sms"], SMSmessage := "hi" }).err
      = some (GoError.plain "directory unreachable") ∧
    (doSendNotification
      (fixedEnv ("N1", none) ([], some (GoError.plain "directory unreachable")) none none) []
      { To := ["U1"], Channels := ["push", "sms"], SMSmessage := "hi" }).notificationID = "" :=
  ⟨(doSendNotification_lookup_error
      (fixedEnv ("N1", none) ([], some (GoError.plain "directory unreachable")) none none) []
      { To := ["U1"], Channels := ["push", "sms"], SMSmessage := "hi" } "N1" []
      (GoError.plain "directory unreachable") rfl rfl rfl).1,
    (doSendNotification_lookup_error
      (fixedEnv ("N1", none) ([], some (GoError.plain "directory unreachable")) none none) []
      { To := ["U1"], Channels := ["push", "sms"], SMSmessage := "hi" } "N1" []
      (GoError.plain "directory unreachable") rfl rfl rfl).2.2.1⟩

/-! ## Non-fatal outcomes -/

/-- C4: when validation, persistence and the lookup succeed,
`doSendNotification` returns the identifier given by persistence and a nil
error, whatever the token check, the push provider and the SMS provider
answer (they are arbitrary functions of the history). -/
theorem doSendNotification_success (env : Env) (trace : List Event) (n : Notification)
    (id : String) (users : List User) (hv : env.Validate n = true)
    (hp : env.SendNotification trace n = (id, none))
    (hu : env.GetUsers (trace ++ [Event.SendNotification n (id, none)]) n.To = (users, none)) :
    (doSendNotification env trace n).notificationID = id ∧
    (doSendNotification env trace n).err = none := by
  simp [doSendNotification, hv, hp, hu]

/-- C4, at a dispatch whose push batch and SMS calls all fail. -/
theorem doSendNotification_success_witness :
    (doSendNotification
      (exampleEnv [{ ID := "U1", PhoneNumber := "555-0100" }]
        (some (GoError.plain "push down")) (some (GoError.plain "sms down"))) []
      { To := ["U1"], Channels := ["push", "sms"], SMSmessage := "hi" }).notificationID = "N1" ∧
    (doSendNotification
      (exampleEnv [{ ID := "U1", PhoneNumber := "555-0100" }]
        (some (GoError.plain "push down")) (some (GoError.plain "sms down"))) []
      { To := ["U1"], Channels := ["push", "sms"], SMSmessage := "hi" }).err = none :=
  doSendNotification_success
    (exampleEnv [{ ID := "U1", PhoneNumber := "555-0100" }]
      (some (GoError.plain "push down")) (some (GoError.plain "sms down"))) []
    { To := ["U1"], Channels := ["push", "sms"], SMSmessage := "hi" } "N1"
    [{ ID := "U1", PhoneNumber := "555-0100" }] rfl rfl rfl

/-! ## The push channel -/

/-- C5, as the claim states it, fails on the scenario of the spec: with `U1`
holding a valid token and `U2` none, on channel push, the report is exactly
`push: U2: failed to get expo token`, not the reason of the claim. -/
theorem push_token_reason_counterexample :
    ContainsString ["push"] "push" = true ∧
    tokenAccepted (exampleEnv [] none none) { ID := "U2" } = false ∧
    (doSendNotification
      (exampleEnv [{ ID := "U1", ExpoPushNotificationToken := "ExponentPushToken[a]" },
        { ID := "U2" }] none none) []
      { Type_ := "expense-created", Channels := ["push"], To := ["U1", "U2"], Title := "T",
        Body := "B" }).errReport
      = { Push := [("U2", "failed to get expo token")], SMS := [] } ∧
    (doSendNotification
      (exampleEnv [{ ID := "U1", ExpoPushNotificationToken := "ExponentPushToken[a]" },
        { ID := "U2" }] none none) []
      { Type_ := "expense-created", Channels := ["push"], To := ["U1", "U2"], Title := "T",
        Body := "B" }).errReport.Push.get "U2" ≠ some "failed to get push token" := by
  refine ⟨by decide, by decide, by decide, by decide⟩

/-- C5, amended: when validation, persistence and the lookup succeed and push
is requested, a resolved recipient whose token `expo.NewExponentPushToken`
rejects has the reason `failed to get expo token` under its ID in the push
map of the returned report, provided its ID is not the key `general` and no
`SendSMS` call of the run has failed. -/
theorem rejected_token_reported (env : Env) (trace : List Event) (n : Notification)
    (id : String) (users : List User) (u : User) (hv : env.Validate n = true)
    (hp : env.SendNotification trace n = (id, none))
    (hu : env.GetUsers (trace ++ [Event.SendNotification n (id, none)]) n.To = (users, none))
    (hpush : ContainsString n.Channels "push" = true) (hmem : u ∈ users)
    (hbad : tokenAccepted env u = false) (hgen : u.ID ≠ "general")
    (hok : ∀ ev ∈ eventsSince trace (doSendNotification env trace n), ev.failedSMS = false) :
    (doSendNotification env trace n).errReport.Push.get u.ID
      = some "failed to get expo token" := by
  have hsms : ∀ m p e, Event.SendSMS m p (some e) ∉
      eventsSince trace (doSendNotification env trace n) := by
    intro m p e hin
    simpa [Event.failedSMS] using hok _ hin
  clear hok
  rw [doSendNotification_after_lookup env trace n id users hv hp hu] at hsms ⊢
  simp only [eventsSince] at hsms ⊢
  have hget := pushBlock_get_rejected env n users { Push := [], SMS := [] }
    (trace ++ [Event.SendNotification n (id, none), Event.GetUsers n.To (users, none)]) u
    hpush hmem hbad hgen
  obtain ⟨perr, hpb⟩ := pushBlock_trace env n users { Push := [], SMS := [] }
    (trace ++ [Event.SendNotification n (id, none), Event.GetUsers n.To (users, none)]) hpush
  generalize pushBlock env n users { Push := [], SMS := [] }
    (trace ++ [Event.SendNotification n (id, none), Event.GetUsers n.To (users, none)]) = pb
    at hsms hget hpb ⊢
  obtain ⟨evs, hevs⟩ := smsBlock_trace env n users pb.1 pb.2
  have hsame : (smsBlock env n users pb.1 pb.2).1 = pb.1 := by
    apply smsBlock_report_of_no_failure
    intro m p e hin
    apply hsms m p e
    rw [hevs, List.drop_left] at hin
    rw [hevs, hpb, List.append_assoc, List.append_assoc, List.drop_left]
    simp [hin]
  rw [hsame]
  exact hget

/-- C5 amended, at the scenario of the spec with the SMS channel added and
every SMS call succeeding. -/
theorem rejected_token_reported_witness :
    (doSendNotification
      (exampleEnv [userWithToken, userWithoutToken] none none) []
      { Type_ := "expense-created", Channels := ["push", "sms"], To := ["U1", "U2"],
        Title := "T", Body := "B", SMSmessage := "hello" }).errReport.Push.get "U2"
      = some "failed to get expo token" :=
  rejected_token_reported
    (exampleEnv [userWithToken, userWithoutToken] none none) []
    { Type_ := "expense-created", Channels := ["push", "sms"], To := ["U1", "U2"],
      Title := "T", Body := "B", SMSmessage := "hello" } "N1"
    [userWithToken, userWithoutToken]
    userWithoutToken rfl rfl rfl (by decide) (by decide) (by decide)
    (by decide) (by decide)

/-- C6: when validation, persistence and the lookup succeed and push is
requested, the run hands exactly one message to the push provider. Its `To`
holds the tokens `expo.NewExponentPushToken` returned for the resolved users
whose token it accepted, in directory order; with a constructor that returns
the string it was given (as the SDK does) these are the users' own tokens.
`Title`, `Body` and `Data` are the notification's, `Sound` is `default` and
`Priority` is `expo.DefaultPriority`. -/
theorem push_message_contents (env : Env) (trace : List Event) (n : Notification)
    (id : String) (users : List User) (hv : env.Validate n = true)
    (hp : env.SendNotification trace n = (id, none))
    (hu : env.GetUsers (trace ++ [Event.SendNotification n (id, none)]) n.To = (users, none))
    (hpush : ContainsString n.Channels "push" = true) :
    pushCalls (doSendNotification env trace n).trace = pushCalls trace ++
      [{ To := (users.filter (tokenAccepted env)).map
            (fun u => (env.NewExponentPushToken u.ExpoPushNotificationToken).1)
         Title := n.Title, Body := n.Body, Data := n.Data, Sound := "default",
         Priority := DefaultPriority }] ∧
    ((∀ s t, env.NewExponentPushToken s = (t, none) → t = s) →
      pushCalls (doSendNotification env trace n).trace = pushCalls trace ++
        [{ To := (users.filter (tokenAccepted env)).map (fun u => u.ExpoPushNotificationToken)
           Title := n.Title, Body := n.Body, Data := n.Data, Sound := "default",
           Priority := DefaultPriority }]) := by
  have hgen : pushCalls (doSendNotification env trace n).trace = pushCalls trace ++
      [{ To := (users.filter (tokenAccepted env)).map
            (fun u => (env.NewExponentPushToken u.ExpoPushNotificationToken).1)
         Title := n.Title, Body := n.Body, Data := n.Data, Sound := "default",
         Priority := DefaultPriority }] := by
    rw [doSendNotification_after_lookup env trace n id users hv hp hu]
    simp only
    rw [smsBlock_pushCalls]
    obtain ⟨perr, hpb⟩ := pushBlock_trace env n users { Push := [], SMS := [] }
      (trace ++ [Event.SendNotification n (id, none), Event.GetUsers n.To (users, none)]) hpush
    rw [hpb]
    simp [pushCalls_append, pushCalls]
  refine ⟨hgen, fun hconv => ?_⟩
  rw [hgen]
  have hmap : (users.filter (tokenAccepted env)).map
        (fun u => (env.NewExponentPushToken u.ExpoPushNotificationToken).1)
      = (users.filter (tokenAccepted env)).map (fun u => u.ExpoPushNotificationToken) := by
    apply List.map_congr_left
    intro u hmem
    have hacc : tokenAccepted env u = true := (List.mem_filter.mp hmem).2
    apply hconv
    rcases h : env.NewExponentPushToken u.ExpoPushNotificationToken with ⟨t, _ | e⟩
    · rfl
    · simp [tokenAccepted, h] at hacc
  rw [hmap]

/-- C6, at the scenario of the spec: the provider is handed one message, with
the token of `U1` only. -/
theorem push_message_contents_witness :
    pushCalls (doSendNotification (exampleEnv [userWithToken, userWithoutToken] none none) []
      { Type_ := "expense-created", Channels := ["push"], To := ["U1", "U2"], Title := "T",
        Body := "B", Data := [("eventId", "E1")] }).trace
      = pushCalls [] ++
        [{ To := ([userWithToken, userWithoutToken].filter
              (tokenAccepted (exampleEnv [userWithToken, userWithoutToken] none none))).map
              (fun u => u.ExpoPushNotificationToken)
           Title := "T", Body := "B", Data := [("eventId", "E1")], Sound := "default",
           Priority := DefaultPriority }] ∧
    ([userWithToken, userWithoutToken].filter
      (tokenAccepted (exampleEnv [userWithToken, userWithoutToken] none none))).map
      (fun u => u.ExpoPushNotificationToken) = ["ExponentPushToken[a]"] :=
  ⟨(push_message_contents (exampleEnv [userWithToken, userWithoutToken] none none) []
      { Type_ := "expense-created", Channels := ["push"], To := ["U1", "U2"], Title := "T",
        Body := "B", Data := [("eventId", "E1")] } "N1" [userWithToken, userWithoutToken]
      rfl rfl rfl (by decide)).2 prefixTokenCheck_returns_argument,
    by decide⟩

/-- C7 fails on the code: a resolved user whose ID is `general`, a failing
push batch (`push down`) and a failing SMS call (`sms down`). The batch
failure is written under `general` at line 77 and then replaced at line 85,
where the SMS failure goes into the push map: the returned push map is
`general: failed to send SMS: sms down` and carries nothing of the batch
error. The run itself returns the ID and a nil error. -/
theorem general_entry_replaced_by_sms_failure :
    pushCalls (doSendNotification
      (exampleEnv [{ ID := "general", PhoneNumber := "555-0100" }]
        (some (GoError.plain "push down")) (some (GoError.plain "sms down"))) []
      { Channels := ["push", "sms"], To := ["general"], SMSmessage := "hi" }).trace
      = [{ To := [], Sound := "default", Priority := "default" }] ∧
    (doSendNotification
      (exampleEnv [{ ID := "general", PhoneNumber := "555-0100" }]
        (some (GoError.plain "push down")) (some (GoError.plain "sms down"))) []
      { Channels := ["push", "sms"], To := ["general"], SMSmessage := "hi" }).errReport
      = { Push := [("general", "failed to send SMS: sms down")], SMS := [] } ∧
    (doSendNotification
      (exampleEnv [{ ID := "general", PhoneNumber := "555-0100" }]
        (some (GoError.plain "push down")) (some (GoError.plain "sms down"))) []
      { Channels := ["push", "sms"], To := ["general"], SMSmessage := "hi" }).errReport.Push.get
        "general" ≠ some ("failed to send push: " ++ (GoError.plain "push down").Error) ∧
    (doSendNotification
      (exampleEnv [{ ID := "general", PhoneNumber := "555-0100" }]
        (some (GoError.plain "push down")) (some (GoError.plain "sms down"))) []
      { Channels := ["push", "sms"], To := ["general"], SMSmessage := "hi" }).notificationID
      = "N1" ∧
    (doSendNotification
      (exampleEnv [{ ID := "general", PhoneNumber := "555-0100" }]
        (some (GoError.plain "push down")) (some (GoError.plain "sms down"))) []
      { Channels := ["push", "sms"], To := ["general"], SMSmessage := "hi" }).err = none := by
  refine ⟨by decide, by decide, by decide, by decide, by decide⟩

/-! ## The SMS channel -/

/-- C8: two runs on the same notification, requesting SMS with a non-empty
`SMSmessage` (with or without push), started from the same history and
resolving the same users, make the same sequence of `SendSMS` calls whatever
their token checks, push providers (and SMS providers) answer: one call
`(SMSmessage, PhoneNumber)` per resolved user, in directory order. -/
theorem sms_calls_independent_of_push (env1 env2 : Env) (trace : List Event)
    (n : Notification) (id1 id2 : String) (users : List User)
    (hv1 : env1.Validate n = true) (hv2 : env2.Validate n = true)
    (hp1 : env1.SendNotification trace n = (id1, none))
    (hp2 : env2.SendNotification trace n = (id2, none))
    (hu1 : env1.GetUsers (trace ++ [Event.SendNotification n (id1, none)]) n.To = (users, none))
    (hu2 : env2.GetUsers (trace ++ [Event.SendNotification n (id2, none)]) n.To = (users, none))
    (hsms : ContainsString n.Channels "sms" = true) (hmsg : n.SMSmessage ≠ "") :
    smsCalls (doSendNotification env1 trace n).trace
      = smsCalls (doSendNotification env2 trace n).trace ∧
    smsCalls (doSendNotification env1 trace n).trace
      = smsCalls trace ++ users.map (fun u => (n.SMSmessage, u.PhoneNumber)) := by
  have key : ∀ (env : Env) (id : String), env.Validate n = true →
      env.SendNotification trace n = (id, none) →
      env.GetUsers (trace ++ [Event.SendNotification n (id, none)]) n.To = (users, none) →
      smsCalls (doSendNotification env trace n).trace
        = smsCalls trace ++ users.map (fun u => (n.SMSmessage, u.PhoneNumber)) := by
    intro env id hv hp hu
    rw [doSendNotification_after_lookup env trace n id users hv hp hu]
    simp only
    rw [smsBlock_run env n users _ _ hsms hmsg, sendSMSLoop_smsCalls, pushBlock_smsCalls]
    simp [smsCalls_append, smsCalls]
  exact ⟨(key env1 id1 hv1 hp1 hu1).trans (key env2 id2 hv2 hp2 hu2).symm,
    key env1 id1 hv1 hp1 hu1⟩

/-- C8, at two runs over the same two users: in the first the push batch
succeeds, in the second it fails and the SMS provider fails too. -/
theorem sms_calls_independent_of_push_witness :
    smsCalls (doSendNotification (exampleEnv [userWithToken, userWithoutToken] none none) []
      { Channels := ["push", "sms"], To := ["U1", "U2"], SMSmessage := "hello" }).trace
      = smsCalls (doSendNotification
        (exampleEnv [userWithToken, userWithoutToken] (some (GoError.plain "push down"))
          (some (GoError.plain "sms down"))) []
        { Channels := ["push", "sms"], To := ["U1", "U2"], SMSmessage := "hello" }).trace ∧
    smsCalls (doSendNotification (exampleEnv [userWithToken, userWithoutToken] none none) []
      { Channels := ["push", "sms"], To := ["U1", "U2"], SMSmessage := "hello" }).trace
      = [("hello", "555-0100"), ("hello", "555-0101")] :=
  sms_calls_independent_of_push (exampleEnv [userWithToken, userWithoutToken] none none)
    (exampleEnv [userWithToken, userWithoutToken] (some (GoError.plain "push down"))
      (some (GoError.plain "sms down"))) []
    { Channels := ["push", "sms"], To := ["U1", "U2"], SMSmessage := "hello" } "N1" "N1"
    [userWithToken, userWithoutToken] rfl rfl rfl rfl rfl rfl (by decide) (by decide)

/-- C9: when `sms` is not among the channels or `SMSmessage` is empty, a run
makes no `SendSMS` call, the SMS map of the report stays empty, and every
entry of the push map comes from the push block: it carries the token
reason, or it is the `general` entry of a failed batch. -/
theorem sms_skipped (env : Env) (trace : List Event) (n : Notification)
    (h : ContainsString n.Channels "sms" = false ∨ n.SMSmessage = "") :
    smsCalls (doSendNotification env trace n).trace = smsCalls trace ∧
    (doSendNotification env trace n).errReport.SMS = [] ∧
    ∀ kv ∈ (doSendNotification env trace n).errReport.Push,
      kv.2 = "failed to get expo token" ∨
        (kv.1 = "general" ∧ ∃ e : GoError, kv.2 = "failed to send push: " ++ e.Error) := by
  cases hv : env.Validate n with
  | false => simp [doSendNotification, hv]
  | true =>
    rcases hp : env.SendNotification trace n with ⟨id, _ | e⟩
    · rcases hu : env.GetUsers (trace ++ [Event.SendNotification n (id, none)]) n.To
        with ⟨users, _ | e⟩
      · rw [doSendNotification_after_lookup env trace n id users hv hp hu]
        simp only
        rw [smsBlock_skip env n users _ _ h]
        refine ⟨?_, ?_, ?_⟩
        · rw [pushBlock_smsCalls]
          simp [smsCalls_append, smsCalls]
        · rw [pushBlock_SMS]
        · intro kv hkv
          rcases pushBlock_mem _ _ _ _ _ kv hkv with h1 | h1
          · simp at h1
          · exact h1
      · simp [doSendNotification, hv, hp, hu, smsCalls_append, smsCalls]
    · simp [doSendNotification, hv, hp, smsCalls_append, smsCalls]

/-- C9, at the notification of `InviteEventMembers` (channels push and sms,
no SMS message) with a failing push batch: no SMS call, and the report holds
the push entries only. -/
theorem sms_skipped_witness :
    smsCalls (doSendNotification
      (exampleEnv [userWithToken, userWithoutToken] (some (GoError.plain "push down"))
        (some (GoError.plain "sms down"))) []
      (inviteNotification "rsvp" ["U1", "U2"] "Ann" "Picnic" "E1")).trace = [] ∧
    (doSendNotification
      (exampleEnv [userWithToken, userWithoutToken] (some (GoError.plain "push down"))
        (some (GoError.plain "sms down"))) []
      (inviteNotification "rsvp" ["U1", "U2"] "Ann" "Picnic" "E1")).errReport
      = { Push := [("U2", "failed to get expo token"),
            ("general", "failed to send push: push down")], SMS := [] } :=
  ⟨(sms_skipped
      (exampleEnv [userWithToken, userWithoutToken] (some (GoError.plain "push down"))
        (some (GoError.plain "sms down"))) []
      (inviteNotification "rsvp" ["U1", "U2"] "Ann" "Picnic" "E1") (Or.inr rfl)).1,
    by decide⟩

/-- C10 fails on the code: for a resolved user with the empty phone number
the loop of lines 81-87 calls `SendSMS` all the same, with the empty string
as number, and when that call fails an entry is recorded under the user's
ID. The loop of `InviteEventMembers` (line 354) guards the call by
`invited.PhoneNumber != ""`; this one has no such guard. -/
theorem sms_sent_to_empty_phone_number :
    smsCalls (doSendNotification
      (exampleEnv [{ ID := "U1", PhoneNumber := "" }] none
        (some (GoError.plain "invalid number"))) []
      { Channels := ["sms"], To := ["U1"], SMSmessage := "hello" }).trace = [("hello", "")] ∧
    (doSendNotification
      (exampleEnv [{ ID := "U1", PhoneNumber := "" }] none
        (some (GoError.plain "invalid number"))) []
      { Channels := ["sms"], To := ["U1"], SMSmessage := "hello" }).errReport
      = { Push := [("U1", "failed to send SMS: invalid number")], SMS := [] } := by
  refine ⟨by decide, by decide⟩

/-! ## Further lemmas on maps and on the two loops -/

theorem GoMap.set_ne_nil (m : GoMap) (k v : String) : m.set k v ≠ [] := by
  cases m with
  | nil => simp [GoMap.set]
  | cons kv m =>
    obtain ⟨a, b⟩ := kv
    by_cases h : a = k <;> simp [GoMap.set, h]

theorem GoMap.mem_of_get (m : GoMap) (k v : String) (h : m.get k = some v) : (k, v) ∈ m := by
  induction m with
  | nil => simp [GoMap.get] at h
  | cons ab m ih =>
    obtain ⟨a, b⟩ := ab
    by_cases hak : a = k
    · subst hak
      simp only [GoMap.get, if_true, Option.some.injEq] at h
      subst h
      exact List.mem_cons_self _ _
    · simp only [GoMap.get, hak, if_false] at h
      exact List.mem_cons_of_mem _ (ih h)

/-- An assignment keeps every key that was present. -/
theorem GoMap.isSome_get_set (m : GoMap) (k v j : String) (h : (m.get j).isSome = true) :
    ((m.set k v).get j).isSome = true := by
  by_cases hkj : k = j
  · subst hkj
    rw [GoMap.get_set_self]
    rfl
  · rw [GoMap.get_set_of_ne _ _ _ _ hkj]
    exact h

theorem collectPushTokens_ne_nil (env : Env) (users : List User)
    (errReport : NotificationErrorReport) (pushTokens : List String)
    (h : errReport.Push ≠ []) :
    (collectPushTokens env users errReport pushTokens).1.Push ≠ [] := by
  induction users generalizing errReport pushTokens with
  | nil => simpa [collectPushTokens] using h
  | cons u us ih =>
    rcases hu : env.NewExponentPushToken u.ExpoPushNotificationToken with ⟨t, _ | e⟩
    · simp only [collectPushTokens, hu]
      exact ih _ _ h
    · simp only [collectPushTokens, hu]
      exact ih _ _ (GoMap.set_ne_nil _ _ _)

/-- When every token is accepted the token loop leaves the report as it was. -/
theorem collectPushTokens_report_of_all_accepted (env : Env) (users : List User)
    (errReport : NotificationErrorReport) (pushTokens : List String)
    (h : ∀ u ∈ users, tokenAccepted env u = true) :
    (collectPushTokens env users errReport pushTokens).1 = errReport := by
  induction users generalizing errReport pushTokens with
  | nil => simp [collectPushTokens]
  | cons u us ih =>
    have hu := h u (List.mem_cons_self _ _)
    rcases hr : env.NewExponentPushToken u.ExpoPushNotificationToken with ⟨t, _ | e⟩
    · simp only [collectPushTokens, hr]
      exact ih _ _ (fun w hw => h w (List.mem_cons_of_mem _ hw))
    · simp [tokenAccepted, hr] at hu

/-- A rejected token leaves the push map with an entry. -/
theorem collectPushTokens_ne_nil_of_rejected (env : Env) (users : List User)
    (errReport : NotificationErrorReport) (pushTokens : List String) (u : User)
    (hmem : u ∈ users) (hbad : tokenAccepted env u = false) :
    (collectPushTokens env users errReport pushTokens).1.Push ≠ [] := by
  intro hnil
  have h := collectPushTokens_get_rejected env users errReport pushTokens u hmem hbad
  rw [hnil] at h
  simp [GoMap.get] at h

/-- The token loop keeps every key that was present. -/
theorem collectPushTokens_isSome_get (env : Env) (users : List User)
    (errReport : NotificationErrorReport) (pushTokens : List String) (j : String)
    (h : (errReport.Push.get j).isSome = true) :
    ((collectPushTokens env users errReport pushTokens).1.Push.get j).isSome = true := by
  induction users generalizing errReport pushTokens with
  | nil => simpa [collectPushTokens] using h
  | cons u us ih =>
    rcases hu : env.NewExponentPushToken u.ExpoPushNotificationToken with ⟨t, _ | e⟩
    · simp only [collectPushTokens, hu]
      exact ih _ _ h
    · simp only [collectPushTokens, hu]
      exact ih _ _ (GoMap.isSome_get_set _ _ _ _ h)

/-- Every key the token loop leaves in the push map was there before or is
the ID of one of the users. -/
theorem collectPushTokens_keys (env : Env) (users : List User)
    (errReport : NotificationErrorReport) (pushTokens : List String) (kv : String × String)
    (h : kv ∈ (collectPushTokens env users errReport pushTokens).1.Push) :
    kv ∈ errReport.Push ∨ ∃ u ∈ users, u.ID = kv.1 := by
  induction users generalizing errReport pushTokens with
  | nil => exact Or.inl (by simpa [collectPushTokens] using h)
  | cons u us ih =>
    rcases hu : env.NewExponentPushToken u.ExpoPushNotificationToken with ⟨t, _ | e⟩
    · simp only [collectPushTokens, hu] at h
      rcases ih _ _ h with h1 | ⟨w, hw, hk⟩
      · exact Or.inl h1
      · exact Or.inr ⟨w, List.mem_cons_of_mem _ hw, hk⟩
    · simp only [collectPushTokens, hu] at h
      rcases ih _ _ h with h1 | ⟨w, hw, hk⟩
      · rcases GoMap.mem_set _ _ _ _ h1 with h2 | h2
        · exact Or.inl h2
        · exact Or.inr ⟨u, List.mem_cons_self _ _, by rw [h2]⟩
      · exact Or.inr ⟨w, List.mem_cons_of_mem _ hw, hk⟩

/-- The SMS loop appends one `SendSMS` event per user, in order. -/
theorem sendSMSLoop_events (env : Env) (SMSmessage : String) (users : List User)
    (errReport : NotificationErrorReport) (trace : List Event) :
    ∃ rs : List (Option GoError), rs.length = users.length ∧
      (sendSMSLoop env SMSmessage users errReport trace).2
        = trace ++ List.zipWith (fun u r => Event.SendSMS SMSmessage u.PhoneNumber r) users rs := by
  induction users generalizing errReport trace with
  | nil => exact ⟨[], rfl, by simp [sendSMSLoop]⟩
  | cons u us ih =>
    cases h : env.SendSMS trace SMSmessage u.PhoneNumber with
    | none =>
      obtain ⟨rs, hlen, hrs⟩ := ih errReport
        (trace ++ [Event.SendSMS SMSmessage u.PhoneNumber none])
      exact ⟨none :: rs, by simp [hlen], by simp [sendSMSLoop, h, hrs]⟩
    | some e =>
      obtain ⟨rs, hlen, hrs⟩ := ih
        { errReport with Push := errReport.Push.set u.ID ("failed to send SMS: " ++ e.Error) }
        (trace ++ [Event.SendSMS SMSmessage u.PhoneNumber (some e)])
      exact ⟨some e :: rs, by simp [hlen], by simp [sendSMSLoop, h, hrs]⟩

theorem sendSMSLoop_SMS (env : Env) (SMSmessage : String) (users : List User)
    (errReport : NotificationErrorReport) (trace : List Event) :
    (sendSMSLoop env SMSmessage users errReport trace).1.SMS = errReport.SMS := by
  induction users generalizing errReport trace with
  | nil => simp [sendSMSLoop]
  | cons u us ih =>
    cases h : env.SendSMS trace SMSmessage u.PhoneNumber with
    | none => simp [sendSMSLoop, h, ih]
    | some e => simp [sendSMSLoop, h, ih]

theorem sendSMSLoop_ne_nil (env : Env) (SMSmessage : String) (users : List User)
    (errReport : NotificationErrorReport) (trace : List Event) (h : errReport.Push ≠ []) :
    (sendSMSLoop env SMSmessage users errReport trace).1.Push ≠ [] := by
  induction users generalizing errReport trace with
  | nil => simpa [sendSMSLoop] using h
  | cons u us ih =>
    cases hs : env.SendSMS trace SMSmessage u.PhoneNumber with
    | none =>
      simp only [sendSMSLoop, hs]
      exact ih _ _ h
    | some e =>
      simp only [sendSMSLoop, hs]
      exact ih _ _ (GoMap.set_ne_nil _ _ _)

/-- The SMS loop keeps every key that was present. -/
theorem sendSMSLoop_isSome_get (env : Env) (SMSmessage : String) (users : List User)
    (errReport : NotificationErrorReport) (trace : List Event) (j : String)
    (h : (errReport.Push.get j).isSome = true) :
    ((sendSMSLoop env SMSmessage users errReport trace).1.Push.get j).isSome = true := by
  induction users generalizing errReport trace with
  | nil => simpa [sendSMSLoop] using h
  | cons u us ih =>
    cases hs : env.SendSMS trace SMSmessage u.PhoneNumber with
    | none =>
      simp only [sendSMSLoop, hs]
      exact ih _ _ h
    | some e =>
      simp only [sendSMSLoop, hs]
      exact ih _ _ (GoMap.isSome_get_set _ _ _ _ h)

/-- Every key the SMS loop leaves in the push map was there before or is the
ID of one of the users. -/
theorem sendSMSLoop_keys (env : Env) (SMSmessage : String) (users : List User)
    (errReport : NotificationErrorReport) (trace : List Event) (kv : String × String)
    (h : kv ∈ (sendSMSLoop env SMSmessage users errReport trace).1.Push) :
    kv ∈ errReport.Push ∨ ∃ u ∈ users, u.ID = kv.1 := by
  induction users generalizing errReport trace with
  | nil => exact Or.inl (by simpa [sendSMSLoop] using h)
  | cons u us ih =>
    cases hs : env.SendSMS trace SMSmessage u.PhoneNumber with
    | none =>
      simp only [sendSMSLoop, hs] at h
      rcases ih _ _ h with h1 | ⟨w, hw, hk⟩
      · exact Or.inl h1
      · exact Or.inr ⟨w, List.mem_cons_of_mem _ hw, hk⟩
    | some e =>
      simp only [sendSMSLoop, hs] at h
      rcases ih _ _ h with h1 | ⟨w, hw, hk⟩
      · rcases GoMap.mem_set _ _ _ _ h1 with h2 | h2
        · exact Or.inl h2
        · exact Or.inr ⟨u, List.mem_cons_self _ _, by rw [h2]⟩
      · exact Or.inr ⟨w, List.mem_cons_of_mem _ hw, hk⟩

/-- A failed call among those the SMS loop appends leaves the push map with
an entry. -/
theorem sendSMSLoop_ne_nil_of_failure (env : Env) (SMSmessage : String) (users : List User)
    (errReport : NotificationErrorReport) (trace : List Event) (ev : Event)
    (hev : ev ∈ (sendSMSLoop env SMSmessage users errReport trace).2.drop trace.length)
    (hfail : ev.failedSMS = true) :
    (sendSMSLoop env SMSmessage users errReport trace).1.Push ≠ [] := by
  induction users generalizing errReport trace with
  | nil => simp [sendSMSLoop] at hev
  | cons u us ih =>
    cases hs : env.SendSMS trace SMSmessage u.PhoneNumber with
    | none =>
      simp only [sendSMSLoop, hs] at hev ⊢
      apply ih
      obtain ⟨evs, hevs⟩ := sendSMSLoop_trace env SMSmessage us errReport
        (trace ++ [Event.SendSMS SMSmessage u.PhoneNumber none])
      rw [hevs, List.drop_left]
      rw [hevs, List.append_assoc, List.drop_left] at hev
      rcases List.mem_append.mp hev with h1 | h1
      · simp only [List.mem_singleton] at h1
        subst h1
        simp [Event.failedSMS] at hfail
      · exact h1
    | some e =>
      simp only [sendSMSLoop, hs]
      exact sendSMSLoop_ne_nil _ _ _ _ _ (GoMap.set_ne_nil _ _ _)

/-! ## Further lemmas on the two blocks -/

theorem smsCalls_zipWith_SendSMS (SMSmessage : String) (users : List User)
    (rs : List (Option GoError)) (hlen : rs.length = users.length) :
    smsCalls (List.zipWith (fun u r => Event.SendSMS SMSmessage u.PhoneNumber r) users rs)
      = users.map (fun u => (SMSmessage, u.PhoneNumber)) := by
  induction users generalizing rs with
  | nil => simp [smsCalls]
  | cons u us ih =>
    cases rs with
    | nil => simp at hlen
    | cons r rs =>
      simp only [List.zipWith_cons_cons, smsCalls, List.map_cons]
      rw [ih rs (by simpa using hlen)]

theorem mem_zipWith_SendSMS (SMSmessage : String) (users : List User)
    (rs : List (Option GoError)) (ev : Event)
    (h : ev ∈ List.zipWith (fun u r => Event.SendSMS SMSmessage u.PhoneNumber r) users rs) :
    ∃ p r, ev = Event.SendSMS SMSmessage p r := by
  induction users generalizing rs with
  | nil => simp at h
  | cons u us ih =>
    cases rs with
    | nil => simp at h
    | cons r rs =>
      simp only [List.zipWith_cons_cons, List.mem_cons] at h
      rcases h with h | h
      · exact ⟨_, _, h⟩
      · exact ih rs h

/-- The push block appends nothing, or the one `SendPushNotification` event. -/
theorem pushBlock_events (env : Env) (n : Notification) (users : List User)
    (errReport : NotificationErrorReport) (trace : List Event) :
    ∃ pe, (pushBlock env n users errReport trace).2 = trace ++ pe ∧
      (pe = [] ∨ ∃ msg err, pe = [Event.SendPushNotification msg err]) := by
  unfold pushBlock
  split
  · simp only
    split
    · exact ⟨_, rfl, Or.inr ⟨_, _, rfl⟩⟩
    · exact ⟨_, rfl, Or.inr ⟨_, _, rfl⟩⟩
  · exact ⟨[], by simp, Or.inl rfl⟩

/-- The SMS block appends `SendSMS` events only. -/
theorem smsBlock_events (env : Env) (n : Notification) (users : List User)
    (errReport : NotificationErrorReport) (trace : List Event) :
    ∃ se, (smsBlock env n users errReport trace).2 = trace ++ se ∧
      ∀ ev ∈ se, ∃ p r, ev = Event.SendSMS n.SMSmessage p r := by
  unfold smsBlock
  split
  · obtain ⟨rs, _, hrs⟩ := sendSMSLoop_events env n.SMSmessage users errReport trace
    exact ⟨_, hrs, fun ev hev => mem_zipWith_SendSMS _ _ _ _ hev⟩
  · exact ⟨[], by simp, by simp⟩

theorem smsBlock_smsCalls (env : Env) (n : Notification) (users : List User)
    (errReport : NotificationErrorReport) (trace : List Event)
    (hsms : ContainsString n.Channels "sms" = true) (hmsg : n.SMSmessage ≠ "") :
    smsCalls (smsBlock env n users errReport trace).2
      = smsCalls trace ++ users.map (fun u => (n.SMSmessage, u.PhoneNumber)) := by
  rw [smsBlock_run env n users _ _ hsms hmsg, sendSMSLoop_smsCalls]

theorem smsBlock_SMS (env : Env) (n : Notification) (users : List User)
    (errReport : NotificationErrorReport) (trace : List Event) :
    (smsBlock env n users errReport trace).1.SMS = errReport.SMS := by
  unfold smsBlock
  split
  · exact sendSMSLoop_SMS _ _ _ _ _
  · rfl

theorem smsBlock_ne_nil (env : Env) (n : Notification) (users : List User)
    (errReport : NotificationErrorReport) (trace : List Event) (h : errReport.Push ≠ []) :
    (smsBlock env n users errReport trace).1.Push ≠ [] := by
  unfold smsBlock
  split
  · exact sendSMSLoop_ne_nil _ _ _ _ _ h
  · exact h

theorem smsBlock_isSome_get (env : Env) (n : Notification) (users : List User)
    (errReport : NotificationErrorReport) (trace : List Event) (j : String)
    (h : (errReport.Push.get j).isSome = true) :
    ((smsBlock env n users errReport trace).1.Push.get j).isSome = true := by
  unfold smsBlock
  split
  · exact sendSMSLoop_isSome_get _ _ _ _ _ _ h
  · exact h

theorem smsBlock_keys (env : Env) (n : Notification) (users : List User)
    (errReport : NotificationErrorReport) (trace : List Event) (kv : String × String)
    (h : kv ∈ (smsBlock env n users errReport trace).1.Push) :
    kv ∈ errReport.Push ∨ ∃ u ∈ users, u.ID = kv.1 := by
  unfold smsBlock at h
  split at h
  · exact sendSMSLoop_keys _ _ _ _ _ _ h
  · exact Or.inl h

theorem smsBlock_ne_nil_of_failure (env : Env) (n : Notification) (users : List User)
    (errReport : NotificationErrorReport) (trace : List Event) (ev : Event)
    (hev : ev ∈ (smsBlock env n users errReport trace).2.drop trace.length)
    (hfail : ev.failedSMS = true) :
    (smsBlock env n users errReport trace).1.Push ≠ [] := by
  unfold smsBlock at hev ⊢
  split
  · rename_i hc
    simp only [hc, if_true] at hev
    exact sendSMSLoop_ne_nil_of_failure _ _ _ _ _ ev hev hfail
  · rename_i hc
    simp [hc] at hev

theorem pushBlock_isSome_get (env : Env) (n : Notification) (users : List User)
    (errReport : NotificationErrorReport) (trace : List Event) (j : String)
    (h : (errReport.Push.get j).isSome = true) :
    ((pushBlock env n users errReport trace).1.Push.get j).isSome = true := by
  have hc := collectPushTokens_isSome_get env users errReport [] j h
  unfold pushBlock
  split
  · simp only
    split
    · exact GoMap.isSome_get_set _ _ _ _ hc
    · exact hc
  · exact h

/-- Every key the push block leaves in the push map was there before, or is
`general`, or is the ID of one of the users. -/
theorem pushBlock_keys (env : Env) (n : Notification) (users : List User)
    (errReport : NotificationErrorReport) (trace : List Event) (kv : String × String)
    (h : kv ∈ (pushBlock env n users errReport trace).1.Push) :
    kv ∈ errReport.Push ∨ kv.1 = "general" ∨ ∃ u ∈ users, u.ID = kv.1 := by
  unfold pushBlock at h
  split at h
  · simp only at h
    split at h
    · rcases GoMap.mem_set _ _ _ _ h with h1 | h1
      · rcases collectPushTokens_keys env users errReport [] kv h1 with h2 | h2
        · exact Or.inl h2
        · exact Or.inr (Or.inr h2)
      · exact Or.inr (Or.inl (by rw [h1]))
    · rcases collectPushTokens_keys env users errReport [] kv h with h2 | h2
      · exact Or.inl h2
      · exact Or.inr (Or.inr h2)
  · exact Or.inl h

/-- The events of a run after a successful lookup: the persist call, the
lookup, what the push block appends and what the SMS block appends. -/
theorem eventsSince_after_lookup (env : Env) (trace : List Event) (n : Notification)
    (id : String) (users : List User) (hv : env.Validate n = true)
    (hp : env.SendNotification trace n = (id, none))
    (hu : env.GetUsers (trace ++ [Event.SendNotification n (id, none)]) n.To = (users, none)) :
    ∃ pe se,
      (pushBlock env n users { Push := [], SMS := [] }
        (trace ++ [Event.SendNotification n (id, none), Event.GetUsers n.To (users, none)])).2
        = (trace ++ [Event.SendNotification n (id, none), Event.GetUsers n.To (users, none)])
          ++ pe ∧
      (smsBlock env n users
        (pushBlock env n users { Push := [], SMS := [] }
          (trace ++ [Event.SendNotification n (id, none), Event.GetUsers n.To (users, none)])).1
        (pushBlock env n users { Push := [], SMS := [] }
          (trace ++ [Event.SendNotification n (id, none), Event.GetUsers n.To (users, none)])).2).2
        = (pushBlock env n users { Push := [], SMS := [] }
          (trace ++ [Event.SendNotification n (id, none), Event.GetUsers n.To (users, none)])).2
          ++ se ∧
      (pe = [] ∨ ∃ msg err, pe = [Event.SendPushNotification msg err]) ∧
      (∀ ev ∈ se, ∃ p r, ev = Event.SendSMS n.SMSmessage p r) ∧
      eventsSince trace (doSendNotification env trace n)
        = Event.SendNotification n (id, none) :: Event.GetUsers n.To (users, none) :: (pe ++ se) := by
  obtain ⟨pe, hpe, hshape⟩ := pushBlock_events env n users { Push := [], SMS := [] }
    (trace ++ [Event.SendNotification n (id, none), Event.GetUsers n.To (users, none)])
  obtain ⟨se, hse, hsms⟩ := smsBlock_events env n users
    (pushBlock env n users { Push := [], SMS := [] }
      (trace ++ [Event.SendNotification n (id, none), Event.GetUsers n.To (users, none)])).1
    (pushBlock env n users { Push := [], SMS := [] }
      (trace ++ [Event.SendNotification n (id, none), Event.GetUsers n.To (users, none)])).2
  refine ⟨pe, se, hpe, hse, hshape, hsms, ?_⟩
  rw [doSendNotification_after_lookup env trace n id users hv hp hu]
  simp only [eventsSince]
  rw [hse, hpe, List.append_assoc, List.append_assoc, List.drop_left]
  simp

/-! ## The SMS channel, continued -/

/-- C11: on the SMS path (`sms` requested, `SMSmessage` non-empty, lookup
succeeded) the run calls `SendSMS` once per resolved user, in directory
order, with `(SMSmessage, PhoneNumber)`, whatever the earlier calls returned;
so the calls with a non-empty number are exactly one per resolved user with a
non-empty phone number. When push is not requested and no call fails, the
report is empty. -/
theorem sms_one_call_per_recipient (env : Env) (trace : List Event) (n : Notification)
    (id : String) (users : List User) (hv : env.Validate n = true)
    (hp : env.SendNotification trace n = (id, none))
    (hu : env.GetUsers (trace ++ [Event.SendNotification n (id, none)]) n.To = (users, none))
    (hsms : ContainsString n.Channels "sms" = true) (hmsg : n.SMSmessage ≠ "") :
    smsCalls (eventsSince trace (doSendNotification env trace n))
      = users.map (fun u => (n.SMSmessage, u.PhoneNumber)) ∧
    (smsCalls (eventsSince trace (doSendNotification env trace n))).filter (fun c => c.2 != "")
      = (users.filter (fun u => u.PhoneNumber != "")).map
          (fun u => (n.SMSmessage, u.PhoneNumber)) ∧
    (ContainsString n.Channels "push" = false →
      (∀ ev ∈ eventsSince trace (doSendNotification env trace n), ev.failedSMS = false) →
      (doSendNotification env trace n).errReport = { Push := [], SMS := [] }) := by
  obtain ⟨pe, se, hpe, hse, hshape, _, hev⟩ :=
    eventsSince_after_lookup env trace n id users hv hp hu
  have hcalls : smsCalls (eventsSince trace (doSendNotification env trace n))
      = users.map (fun u => (n.SMSmessage, u.PhoneNumber)) := by
    have h1 := smsBlock_smsCalls env n users
      (pushBlock env n users { Push := [], SMS := [] }
        (trace ++ [Event.SendNotification n (id, none), Event.GetUsers n.To (users, none)])).1
      (pushBlock env n users { Push := [], SMS := [] }
        (trace ++ [Event.SendNotification n (id, none), Event.GetUsers n.To (users, none)])).2
      hsms hmsg
    rw [hse, smsCalls_append] at h1
    have h2 := List.append_cancel_left h1
    rw [hev]
    simp only [smsCalls, smsCalls_append, h2]
    rcases hshape with h | ⟨msg, err, h⟩ <;> simp [h, smsCalls]
  refine ⟨hcalls, ?_, ?_⟩
  · rw [hcalls, List.filter_map]
    rfl
  · intro hpush hok
    rw [doSendNotification_after_lookup env trace n id users hv hp hu]
    simp only
    have hskip := pushBlock_trace_skip env n users { Push := [], SMS := [] }
      (trace ++ [Event.SendNotification n (id, none), Event.GetUsers n.To (users, none)]) hpush
    rw [hskip] at hse ⊢
    simp only at hse ⊢
    apply smsBlock_report_of_no_failure
    intro m p e hin
    rw [hse, List.drop_left] at hin
    have := hok (Event.SendSMS m p (some e)) (by rw [hev]; simp [hin])
    simp [Event.failedSMS] at this

/-- C11, at the scenario of the spec: one recipient with the number
`555-0100`, the message `hello`, the provider succeeding: one call and an
empty report. -/
theorem sms_one_call_per_recipient_witness :
    smsCalls (eventsSince [] (doSendNotification
      (exampleEnv [{ ID := "U1", PhoneNumber := "555-0100" }] none none) []
      { Channels := ["sms"], To := ["U1"], SMSmessage := "hello" }))
      = [("hello", "555-0100")] ∧
    (doSendNotification
      (exampleEnv [{ ID := "U1", PhoneNumber := "555-0100" }] none none) []
      { Channels := ["sms"], To := ["U1"], SMSmessage := "hello" }).errReport
      = { Push := [], SMS := [] } :=
  ⟨(sms_one_call_per_recipient
      (exampleEnv [{ ID := "U1", PhoneNumber := "555-0100" }] none none) []
      { Channels := ["sms"], To := ["U1"], SMSmessage := "hello" } "N1"
      [{ ID := "U1", PhoneNumber := "555-0100" }] rfl rfl rfl (by decide) (by decide)).1,
    (sms_one_call_per_recipient
      (exampleEnv [{ ID := "U1", PhoneNumber := "555-0100" }] none none) []
      { Channels := ["sms"], To := ["U1"], SMSmessage := "hello" } "N1"
      [{ ID := "U1", PhoneNumber := "555-0100" }] rfl rfl rfl (by decide) (by decide)).2.2
      (by decide) (by decide)⟩

/-- C12 fails on the code: with channel sms, one resolved user `U1` and a
failing SMS call (`sms down`), line 85 records the failure in the push map;
the SMS map of the returned report has no entry for `U1` and the push map
has gained one. -/
theorem sms_failure_recorded_under_push :
    smsCalls (eventsSince [] (doSendNotification
      (exampleEnv [{ ID := "U1", PhoneNumber := "555-0100" }] none
        (some (GoError.plain "sms down"))) []
      { Channels := ["sms"], To := ["U1"], SMSmessage := "hello" }))
      = [("hello", "555-0100")] ∧
    (doSendNotification
      (exampleEnv [{ ID := "U1", PhoneNumber := "555-0100" }] none
        (some (GoError.plain "sms down"))) []
      { Channels := ["sms"], To := ["U1"], SMSmessage := "hello" }).errReport
      = { Push := [("U1", "failed to send SMS: sms down")], SMS := [] } ∧
    (doSendNotification
      (exampleEnv [{ ID := "U1", PhoneNumber := "555-0100" }] none
        (some (GoError.plain "sms down"))) []
      { Channels := ["sms"], To := ["U1"], SMSmessage := "hello" }).errReport.SMS.get "U1"
      = none := by
  refine ⟨by decide, by decide, by decide⟩

/-! ## When the report is empty -/

/-- The push block, when push is requested, in terms of the token loop and
the answer of the provider. -/
theorem pushBlock_eq (env : Env) (n : Notification) (users : List User)
    (errReport : NotificationErrorReport) (trace : List Event)
    (hpush : ContainsString n.Channels "push" = true) :
    pushBlock env n users errReport trace =
      ((match env.SendPushNotification trace
          (pushMessage n (collectPushTokens env users errReport []).2) with
        | some e =>
          { (collectPushTokens env users errReport []).1 with
            Push := (collectPushTokens env users errReport []).1.Push.set "general"
              ("failed to send push: " ++ e.Error) }
        | none => (collectPushTokens env users errReport []).1),
       trace ++ [Event.SendPushNotification
          (pushMessage n (collectPushTokens env users errReport []).2)
          (env.SendPushNotification trace
            (pushMessage n (collectPushTokens env users errReport []).2))]) := by
  simp only [pushBlock, hpush, if_true, pushMessage]
  split <;> simp_all

theorem report_eq_empty_iff (r : NotificationErrorReport) :
    r = { Push := [], SMS := [] } ↔ r.Push = [] ∧ r.SMS = [] := by
  cases r
  simp

/-- The SMS block returns the empty report exactly when it was handed the
empty report and none of the calls it appended failed. -/
theorem smsBlock_empty_iff (env : Env) (n : Notification) (users : List User)
    (errReport : NotificationErrorReport) (trace se : List Event)
    (hse : (smsBlock env n users errReport trace).2 = trace ++ se) :
    (smsBlock env n users errReport trace).1 = { Push := [], SMS := [] } ↔
      (errReport = { Push := [], SMS := [] } ∧ ∀ ev ∈ se, ev.failedSMS = false) := by
  constructor
  · intro h
    have h2 := (report_eq_empty_iff _).mp h
    refine ⟨(report_eq_empty_iff _).mpr ⟨?_, ?_⟩, ?_⟩
    · by_contra hne
      exact smsBlock_ne_nil env n users errReport trace hne h2.1
    · rw [← smsBlock_SMS env n users errReport trace]
      exact h2.2
    · intro ev hev
      cases hf : ev.failedSMS with
      | false => rfl
      | true =>
        exfalso
        apply smsBlock_ne_nil_of_failure env n users errReport trace ev _ hf h2.1
        rw [hse, List.drop_left]
        exact hev
  · rintro ⟨hr, hok⟩
    rw [← hr]
    apply smsBlock_report_of_no_failure
    intro m p e hin
    rw [hse, List.drop_left] at hin
    have := hok _ hin
    simp [Event.failedSMS] at this

/-- The push block, started on the empty report, returns the empty report
exactly when every token was accepted (if push is requested) and the batch
call it appended did not fail. -/
theorem pushBlock_empty_iff (env : Env) (n : Notification) (users : List User)
    (trace pe : List Event)
    (hpe : (pushBlock env n users { Push := [], SMS := [] } trace).2 = trace ++ pe) :
    (pushBlock env n users { Push := [], SMS := [] } trace).1 = { Push := [], SMS := [] } ↔
      ((ContainsString n.Channels "push" = true → ∀ u ∈ users, tokenAccepted env u = true) ∧
        ∀ ev ∈ pe, ev.failedPush = false) := by
  cases hpush : ContainsString n.Channels "push" with
  | false =>
    rw [pushBlock_trace_skip env n users _ _ hpush] at hpe ⊢
    have hnil : pe = [] := by simpa using hpe
    simp [hnil]
  | true =>
    rw [pushBlock_eq env n users _ _ hpush] at hpe ⊢
    have hpe2 : pe = [Event.SendPushNotification
        (pushMessage n (collectPushTokens env users { Push := [], SMS := [] } []).2)
        (env.SendPushNotification trace
          (pushMessage n (collectPushTokens env users { Push := [], SMS := [] } []).2))] :=
      (List.append_cancel_left hpe).symm
    cases hb : env.SendPushNotification trace
        (pushMessage n (collectPushTokens env users { Push := [], SMS := [] } []).2) with
    | some e =>
      rw [hb] at hpe2
      constructor
      · intro h
        exfalso
        have h2 := ((report_eq_empty_iff _).mp h).1
        exact GoMap.set_ne_nil _ _ _ h2
      · rintro ⟨_, hok⟩
        have := hok _ (by rw [hpe2]; exact List.mem_cons_self _ _)
        simp [Event.failedPush] at this
    | none =>
      rw [hb] at hpe2
      simp only
      constructor
      · intro h
        refine ⟨fun _ u hu => ?_, ?_⟩
        · cases ha : tokenAccepted env u with
          | true => rfl
          | false =>
            exfalso
            exact collectPushTokens_ne_nil_of_rejected env users _ [] u hu ha
              ((report_eq_empty_iff _).mp h).1
        · intro ev hev
          rw [hpe2] at hev
          simp only [List.mem_singleton] at hev
          subst hev
          rfl
      · rintro ⟨hacc, _⟩
        exact collectPushTokens_report_of_all_accepted env users _ [] (hacc trivial)

/-- C13: for a run that returns a nil error (validation, persistence and the
lookup succeeded), the returned report has no entry, in either map, exactly
when no unit failed: every resolved user's token was accepted if push is
requested, and no `SendPushNotification` and no `SendSMS` call of the run
returned an error. -/
theorem report_empty_iff_no_failure (env : Env) (trace : List Event) (n : Notification)
    (id : String) (users : List User) (hv : env.Validate n = true)
    (hp : env.SendNotification trace n = (id, none))
    (hu : env.GetUsers (trace ++ [Event.SendNotification n (id, none)]) n.To = (users, none)) :
    (doSendNotification env trace n).errReport = { Push := [], SMS := [] } ↔
      ((ContainsString n.Channels "push" = true → ∀ u ∈ users, tokenAccepted env u = true) ∧
        ∀ ev ∈ eventsSince trace (doSendNotification env trace n),
          ev.failedPush = false ∧ ev.failedSMS = false) := by
  obtain ⟨pe, se, hpe, hse, hshape, hsmsev, hev⟩ :=
    eventsSince_after_lookup env trace n id users hv hp hu
  rw [hev, doSendNotification_after_lookup env trace n id users hv hp hu]
  simp only
  rw [smsBlock_empty_iff env n users _ _ se hse, pushBlock_empty_iff env n users _ pe hpe]
  have hpe_sms : ∀ ev ∈ pe, ev.failedSMS = false := by
    intro ev hin
    rcases hshape with h | ⟨msg, err, h⟩
    · simp [h] at hin
    · rw [h, List.mem_singleton] at hin
      subst hin
      rfl
  have hse_push : ∀ ev ∈ se, ev.failedPush = false := by
    intro ev hin
    obtain ⟨p, r, h⟩ := hsmsev ev hin
    subst h
    rfl
  constructor
  · rintro ⟨⟨hacc, hpush⟩, hsms⟩
    refine ⟨hacc, ?_⟩
    intro ev hin
    simp only [List.mem_cons, List.mem_append] at hin
    rcases hin with h | h | h | h
    · subst h
      exact ⟨rfl, rfl⟩
    · subst h
      exact ⟨rfl, rfl⟩
    · exact ⟨hpush ev h, hpe_sms ev h⟩
    · exact ⟨hse_push ev h, hsms ev h⟩
  · rintro ⟨hacc, hall⟩
    refine ⟨⟨hacc, fun ev hin => (hall ev ?_).1⟩, fun ev hin => (hall ev ?_).2⟩
    · simp [hin]
    · simp [hin]

/-- C13, at a run with both channels, accepted tokens and succeeding
providers: the report is empty. -/
theorem report_empty_iff_no_failure_witness :
    (doSendNotification (exampleEnv [userWithToken] none none) []
      { Channels := ["push", "sms"], To := ["U1"], SMSmessage := "hello" }).errReport
      = { Push := [], SMS := [] } :=
  (report_empty_iff_no_failure (exampleEnv [userWithToken] none none) []
    { Channels := ["push", "sms"], To := ["U1"], SMSmessage := "hello" } "N1" [userWithToken]
    rfl rfl rfl).mpr ⟨by decide, by decide⟩

/-! ## Who is attempted and which keys are reported -/

theorem pushCalls_eq_nil_of_sms_events (m : String) (se : List Event)
    (h : ∀ ev ∈ se, ∃ p r, ev = Event.SendSMS m p r) : pushCalls se = [] := by
  induction se with
  | nil => rfl
  | cons e es ih =>
    obtain ⟨p, r, he⟩ := h e (List.mem_cons_self _ _)
    subst he
    simp only [pushCalls]
    exact ih (fun ev hev => h ev (List.mem_cons_of_mem _ hev))

/-- The `SendSMS` calls of a run after a successful lookup: one per resolved
user on the SMS path, none otherwise. -/
theorem smsCalls_after_lookup (env : Env) (trace : List Event) (n : Notification)
    (id : String) (users : List User) (hv : env.Validate n = true)
    (hp : env.SendNotification trace n = (id, none))
    (hu : env.GetUsers (trace ++ [Event.SendNotification n (id, none)]) n.To = (users, none)) :
    smsCalls (eventsSince trace (doSendNotification env trace n))
      = if ContainsString n.Channels "sms" && n.SMSmessage != "" then
          users.map (fun u => (n.SMSmessage, u.PhoneNumber))
        else [] := by
  obtain ⟨pe, se, hpe, hse, hshape, _, hev⟩ :=
    eventsSince_after_lookup env trace n id users hv hp hu
  have hpe0 : smsCalls pe = [] := by
    rcases hshape with h | ⟨msg, err, h⟩ <;> simp [h, smsCalls]
  rw [hev]
  simp only [smsCalls, smsCalls_append, hpe0, List.nil_append]
  split
  · rename_i hc
    simp only [Bool.and_eq_true, bne_iff_ne, ne_eq] at hc
    have h1 := smsBlock_smsCalls env n users
      (pushBlock env n users { Push := [], SMS := [] }
        (trace ++ [Event.SendNotification n (id, none), Event.GetUsers n.To (users, none)])).1
      (pushBlock env n users { Push := [], SMS := [] }
        (trace ++ [Event.SendNotification n (id, none), Event.GetUsers n.To (users, none)])).2
      hc.1 hc.2
    rw [hse, smsCalls_append] at h1
    exact List.append_cancel_left h1
  · rename_i hc
    have hskip : ContainsString n.Channels "sms" = false ∨ n.SMSmessage = "" := by
      cases h1 : ContainsString n.Channels "sms" with
      | false => exact Or.inl rfl
      | true =>
        right
        by_contra h2
        exact hc (by simp [h1, h2])
    rw [smsBlock_skip env n users _ _ hskip] at hse
    have hnil : se = [] := by simpa using hse
    rw [hnil]
    rfl

/-- The `SendPushNotification` calls of a run after a successful lookup: one
when push is requested, carrying the accepted tokens, none otherwise. -/
theorem pushCalls_after_lookup (env : Env) (trace : List Event) (n : Notification)
    (id : String) (users : List User) (hv : env.Validate n = true)
    (hp : env.SendNotification trace n = (id, none))
    (hu : env.GetUsers (trace ++ [Event.SendNotification n (id, none)]) n.To = (users, none)) :
    pushCalls (eventsSince trace (doSendNotification env trace n))
      = if ContainsString n.Channels "push" then
          [pushMessage n ((users.filter (tokenAccepted env)).map
            (fun u => (env.NewExponentPushToken u.ExpoPushNotificationToken).1))]
        else [] := by
  obtain ⟨pe, se, hpe, hse, _, hsmsev, hev⟩ :=
    eventsSince_after_lookup env trace n id users hv hp hu
  rw [hev]
  simp only [pushCalls, pushCalls_append, pushCalls_eq_nil_of_sms_events _ se hsmsev,
    List.append_nil]
  cases hpush : ContainsString n.Channels "push" with
  | false =>
    rw [pushBlock_trace_skip env n users _ _ hpush] at hpe
    have hnil : pe = [] := by simpa using hpe
    simp [hnil, pushCalls]
  | true =>
    rw [pushBlock_eq env n users _ _ hpush] at hpe
    have hpe2 := (List.append_cancel_left hpe).symm
    have htok := collectPushTokens_tokens env users { Push := [], SMS := [] } []
    simp only [List.nil_append] at htok
    rw [hpe2, htok]
    simp [pushCalls]

/-- Every key of the push map returned after a successful lookup is `general`
or the ID of a resolved user, and the SMS map is empty. -/
theorem report_keys_after_lookup (env : Env) (trace : List Event) (n : Notification)
    (id : String) (users : List User) (hv : env.Validate n = true)
    (hp : env.SendNotification trace n = (id, none))
    (hu : env.GetUsers (trace ++ [Event.SendNotification n (id, none)]) n.To = (users, none)) :
    (∀ kv ∈ (doSendNotification env trace n).errReport.Push,
      kv.1 = "general" ∨ ∃ u ∈ users, u.ID = kv.1) ∧
    (doSendNotification env trace n).errReport.SMS = [] := by
  rw [doSendNotification_after_lookup env trace n id users hv hp hu]
  simp only
  refine ⟨fun kv hkv => ?_, ?_⟩
  · rcases smsBlock_keys _ _ _ _ _ kv hkv with h1 | h1
    · rcases pushBlock_keys _ _ _ _ _ kv h1 with h2 | h2 | h2
      · simp at h2
      · exact Or.inl h2
      · exact Or.inr h2
    · exact Or.inr h1
  · rw [smsBlock_SMS, pushBlock_SMS]

/-- C14, as the claim states it, fails: recipients `U1` and `U9`, the
directory returning a contact for `U1` only, both channels requested and
every send succeeding. The report is empty: nothing is recorded for `U9`. -/
theorem unresolved_recipient_counterexample :
    "U9" ∈ ["U1", "U9"] ∧ (∀ u ∈ [userWithToken], u.ID ≠ "U9") ∧
    (doSendNotification (exampleEnv [userWithToken] none none) []
      { Channels := ["push", "sms"], To := ["U1", "U9"], SMSmessage := "hello" }).err = none ∧
    (doSendNotification (exampleEnv [userWithToken] none none) []
      { Channels := ["push", "sms"], To := ["U1", "U9"], SMSmessage := "hello" }).errReport
      = { Push := [], SMS := [] } ∧
    (doSendNotification (exampleEnv [userWithToken] none none) []
      { Channels := ["push", "sms"], To := ["U1", "U9"],
        SMSmessage := "hello" }).errReport.Push.get "U9" ≠ some "failed to resolve contact" ∧
    (doSendNotification (exampleEnv [userWithToken] none none) []
      { Channels := ["push", "sms"], To := ["U1", "U9"],
        SMSmessage := "hello" }).errReport.SMS.get "U9" ≠ some "failed to resolve contact" := by
  refine ⟨by decide, by decide, by decide, by decide, by decide, by decide⟩

/-- C14, amended: after a successful lookup, an identifier other than
`general` for which the directory returned no contact has no entry in the
report, on either channel, and the attempts are made for the returned
contacts only: the SMS calls are those of the returned users and the push
message carries the accepted tokens of the returned users. -/
theorem unresolved_recipient_not_reported (env : Env) (trace : List Event)
    (n : Notification) (id : String) (users : List User) (k : String)
    (hv : env.Validate n = true) (hp : env.SendNotification trace n = (id, none))
    (hu : env.GetUsers (trace ++ [Event.SendNotification n (id, none)]) n.To = (users, none))
    (hk : ∀ u ∈ users, u.ID ≠ k) (hgen : k ≠ "general") :
    (doSendNotification env trace n).errReport.Push.get k = none ∧
    (doSendNotification env trace n).errReport.SMS.get k = none ∧
    (smsCalls (eventsSince trace (doSendNotification env trace n)) = [] ∨
      smsCalls (eventsSince trace (doSendNotification env trace n))
        = users.map (fun u => (n.SMSmessage, u.PhoneNumber))) ∧
    (pushCalls (eventsSince trace (doSendNotification env trace n)) = [] ∨
      pushCalls (eventsSince trace (doSendNotification env trace n))
        = [pushMessage n ((users.filter (tokenAccepted env)).map
            (fun u => (env.NewExponentPushToken u.ExpoPushNotificationToken).1))]) := by
  obtain ⟨hkeys, hSMS⟩ := report_keys_after_lookup env trace n id users hv hp hu
  refine ⟨?_, ?_, ?_, ?_⟩
  · cases hget : (doSendNotification env trace n).errReport.Push.get k with
    | none => rfl
    | some v =>
      exfalso
      rcases hkeys (k, v) (GoMap.mem_of_get _ _ _ hget) with h | ⟨u, hu1, hu2⟩
      · exact hgen h
      · exact hk u hu1 hu2
  · rw [hSMS]
    rfl
  · rw [smsCalls_after_lookup env trace n id users hv hp hu]
    split
    · exact Or.inr rfl
    · exact Or.inl rfl
  · rw [pushCalls_after_lookup env trace n id users hv hp hu]
    split
    · exact Or.inr rfl
    · exact Or.inl rfl

/-- C14 amended, at recipients `U1` and `U9` with a contact for `U1` only and
failing providers: `U9` has no entry and one SMS call is made, to `U1`. -/
theorem unresolved_recipient_not_reported_witness :
    (doSendNotification
      (exampleEnv [userWithToken] (some (GoError.plain "push down"))
        (some (GoError.plain "sms down"))) []
      { Channels := ["push", "sms"], To := ["U1", "U9"],
        SMSmessage := "hello" }).errReport.Push.get "U9" = none ∧
    (doSendNotification
      (exampleEnv [userWithToken] (some (GoError.plain "push down"))
        (some (GoError.plain "sms down"))) []
      { Channels := ["push", "sms"], To := ["U1", "U9"],
        SMSmessage := "hello" }).errReport.SMS.get "U9" = none ∧
    smsCalls (eventsSince [] (doSendNotification
      (exampleEnv [userWithToken] (some (GoError.plain "push down"))
        (some (GoError.plain "sms down"))) []
      { Channels := ["push", "sms"], To := ["U1", "U9"], SMSmessage := "hello" }))
      = [("hello", "555-0100")] :=
  ⟨(unresolved_recipient_not_reported
      (exampleEnv [userWithToken] (some (GoError.plain "push down"))
        (some (GoError.plain "sms down"))) []
      { Channels := ["push", "sms"], To := ["U1", "U9"], SMSmessage := "hello" } "N1"
      [userWithToken] "U9" rfl rfl rfl (by decide) (by decide)).1,
    (unresolved_recipient_not_reported
      (exampleEnv [userWithToken] (some (GoError.plain "push down"))
        (some (GoError.plain "sms down"))) []
      { Channels := ["push", "sms"], To := ["U1", "U9"], SMSmessage := "hello" } "N1"
      [userWithToken] "U9" rfl rfl rfl (by decide) (by decide)).2.1,
    by decide⟩

theorem getUsersCalls_eq_nil_of_sms_events (m : String) (se : List Event)
    (h : ∀ ev ∈ se, ∃ p r, ev = Event.SendSMS m p r) : getUsersCalls se = [] := by
  induction se with
  | nil => rfl
  | cons e es ih =>
    obtain ⟨p, r, he⟩ := h e (List.mem_cons_self _ _)
    subst he
    simp only [getUsersCalls]
    exact ih (fun ev hev => h ev (List.mem_cons_of_mem _ hev))

/-- C15, as the claim states it, fails: the recipient list holds `U1` twice,
the directory returns the one contact of `U1` (with a phone number), and on
the SMS path one call is made, not two. -/
theorem duplicate_recipients_counterexample :
    (∀ r ∈ ["U1", "U1"], ∃ u ∈ [userWithToken], u.ID = r ∧ u.PhoneNumber ≠ "") ∧
    smsCalls (eventsSince [] (doSendNotification (exampleEnv [userWithToken] none none) []
      { Channels := ["sms"], To := ["U1", "U1"], SMSmessage := "hello" }))
      = [("hello", "555-0100")] ∧
    (smsCalls (eventsSince [] (doSendNotification (exampleEnv [userWithToken] none none) []
      { Channels := ["sms"], To := ["U1", "U1"], SMSmessage := "hello" }))).length
      ≠ ["U1", "U1"].length := by
  refine ⟨by decide, by decide, by decide⟩

/-- C15, amended: the recipient list is handed to the one lookup as it is,
and after a successful lookup each requested channel is attempted once per
contact the directory returned, whatever the multiplicities in the recipient
list: on the SMS path the number of `SendSMS` calls is the number of returned
contacts, and with push requested the one push message carries one token per
returned contact with an accepted token. -/
theorem attempts_follow_the_directory (env : Env) (trace : List Event) (n : Notification)
    (id : String) (users : List User) (hv : env.Validate n = true)
    (hp : env.SendNotification trace n = (id, none))
    (hu : env.GetUsers (trace ++ [Event.SendNotification n (id, none)]) n.To = (users, none)) :
    getUsersCalls (eventsSince trace (doSendNotification env trace n)) = [n.To] ∧
    (ContainsString n.Channels "sms" = true → n.SMSmessage ≠ "" →
      (smsCalls (eventsSince trace (doSendNotification env trace n))).length = users.length) ∧
    (ContainsString n.Channels "push" = true →
      ∃ msg, pushCalls (eventsSince trace (doSendNotification env trace n)) = [msg] ∧
        msg.To.length = (users.filter (tokenAccepted env)).length) := by
  refine ⟨?_, ?_, ?_⟩
  · obtain ⟨pe, se, _, _, hshape, hsmsev, hev⟩ :=
      eventsSince_after_lookup env trace n id users hv hp hu
    rw [hev]
    simp only [getUsersCalls, getUsersCalls_append,
      getUsersCalls_eq_nil_of_sms_events _ se hsmsev, List.append_nil]
    rcases hshape with h | ⟨msg, err, h⟩ <;> simp [h, getUsersCalls]
  · intro hsms hmsg
    rw [smsCalls_after_lookup env trace n id users hv hp hu]
    simp [hsms, hmsg]
  · intro hpush
    rw [pushCalls_after_lookup env trace n id users hv hp hu]
    simp [hpush, pushMessage]

/-- C15 amended, at a recipient list holding `U1` twice: when the directory
returns the contact twice two SMS calls are made. -/
theorem attempts_follow_the_directory_witness :
    (smsCalls (eventsSince [] (doSendNotification
      (exampleEnv [userWithToken, userWithToken] none none) []
      { Channels := ["sms"], To := ["U1", "U1"], SMSmessage := "hello" }))).length
      = [userWithToken, userWithToken].length ∧
    getUsersCalls (eventsSince [] (doSendNotification
      (exampleEnv [userWithToken, userWithToken] none none) []
      { Channels := ["sms"], To := ["U1", "U1"], SMSmessage := "hello" })) = [["U1", "U1"]] :=
  ⟨(attempts_follow_the_directory (exampleEnv [userWithToken, userWithToken] none none) []
      { Channels := ["sms"], To := ["U1", "U1"], SMSmessage := "hello" } "N1"
      [userWithToken, userWithToken] rfl rfl rfl).2.1 (by decide) (by decide),
    (attempts_follow_the_directory (exampleEnv [userWithToken, userWithToken] none none) []
      { Channels := ["sms"], To := ["U1", "U1"], SMSmessage := "hello" } "N1"
      [userWithToken, userWithToken] rfl rfl rfl).1⟩

/-! ## Writes to the report -/

/-- C16, as the claim states it, fails: one resolved user whose ID is
`general`, without push token, channel push, and a failing batch. Line 63
records `failed to get expo token` under `general`; line 77 then assigns the
same key and the returned reason is the batch failure, not the first one
recorded. -/
theorem report_entry_replaced_counterexample :
    (collectPushTokens (exampleEnv [{ ID := "general" }] (some (GoError.plain "push down")) none)
      [{ ID := "general" }] { Push := [], SMS := [] } []).1.Push.get "general"
      = some "failed to get expo token" ∧
    (doSendNotification
      (exampleEnv [{ ID := "general" }] (some (GoError.plain "push down")) none) []
      { Channels := ["push"], To := ["general"] }).errReport.Push.get "general"
      = some "failed to send push: push down" ∧
    (doSendNotification
      (exampleEnv [{ ID := "general" }] (some (GoError.plain "push down")) none) []
      { Channels := ["push"], To := ["general"] }).errReport.Push.get "general"
      ≠ some "failed to get expo token" := by
  refine ⟨by decide, by decide, by decide⟩

theorem smsResults_append (a b : List Event) :
    smsResults (a ++ b) = smsResults a ++ smsResults b := by
  induction a with
  | nil => rfl
  | cons e a ih => cases e <;> simp [smsResults, ih]

theorem smsResults_zipWith_SendSMS (SMSmessage : String) (users : List User)
    (rs : List (Option GoError)) (hlen : rs.length = users.length) :
    smsResults (List.zipWith (fun u r => Event.SendSMS SMSmessage u.PhoneNumber r) users rs)
      = rs := by
  induction users generalizing rs with
  | nil =>
    cases rs with
    | nil => rfl
    | cons r rs => simp at hlen
  | cons u us ih =>
    cases rs with
    | nil => simp at hlen
    | cons r rs =>
      simp only [List.zipWith_cons_cons, smsResults]
      rw [ih rs (by simpa using hlen)]

/-- The SMS loop appends one `SendSMS` event per user, in order, and the ID of
every user whose call failed has an entry in the push map it returns. -/
theorem sendSMSLoop_results (env : Env) (SMSmessage : String) (users : List User)
    (errReport : NotificationErrorReport) (trace : List Event) :
    ∃ rs : List (Option GoError), rs.length = users.length ∧
      (sendSMSLoop env SMSmessage users errReport trace).2
        = trace ++ List.zipWith (fun u r => Event.SendSMS SMSmessage u.PhoneNumber r) users rs ∧
      ∀ ur ∈ users.zip rs, ur.2.isSome = true →
        ((sendSMSLoop env SMSmessage users errReport trace).1.Push.get ur.1.ID).isSome
          = true := by
  induction users generalizing errReport trace with
  | nil => exact ⟨[], rfl, by simp [sendSMSLoop], by simp⟩
  | cons u us ih =>
    cases h : env.SendSMS trace SMSmessage u.PhoneNumber with
    | none =>
      obtain ⟨rs, hlen, hrs, hpres⟩ := ih errReport
        (trace ++ [Event.SendSMS SMSmessage u.PhoneNumber none])
      refine ⟨none :: rs, by simp [hlen], by simp [sendSMSLoop, h, hrs], ?_⟩
      intro ur hur hsome
      simp only [List.zip_cons_cons, List.mem_cons] at hur
      rcases hur with hur | hur
      · subst hur
        simp at hsome
      · simp only [sendSMSLoop, h]
        exact hpres ur hur hsome
    | some e =>
      obtain ⟨rs, hlen, hrs, hpres⟩ := ih
        { errReport with Push := errReport.Push.set u.ID ("failed to send SMS: " ++ e.Error) }
        (trace ++ [Event.SendSMS SMSmessage u.PhoneNumber (some e)])
      refine ⟨some e :: rs, by simp [hlen], by simp [sendSMSLoop, h, hrs], ?_⟩
      intro ur hur hsome
      simp only [List.zip_cons_cons, List.mem_cons] at hur
      simp only [sendSMSLoop, h]
      rcases hur with hur | hur
      · subst hur
        apply sendSMSLoop_isSome_get
        simp only
        rw [GoMap.get_set_self]
        rfl
      · exact hpres ur hur hsome

/-- After the push block, when push is requested, the ID of every user whose
token was rejected has an entry in the push map. -/
theorem pushBlock_isSome_get_rejected (env : Env) (n : Notification) (users : List User)
    (errReport : NotificationErrorReport) (trace : List Event) (u : User)
    (hpush : ContainsString n.Channels "push" = true) (hmem : u ∈ users)
    (hbad : tokenAccepted env u = false) :
    ((pushBlock env n users errReport trace).1.Push.get u.ID).isSome = true := by
  have h := collectPushTokens_get_rejected env users errReport [] u hmem hbad
  have hsome : ((collectPushTokens env users errReport []).1.Push.get u.ID).isSome = true := by
    rw [h]
    rfl
  rw [pushBlock_eq env n users errReport trace hpush]
  simp only
  split
  · exact GoMap.isSome_get_set _ _ _ _ hsome
  · exact hsome

/-- C16, amended: within a run of `doSendNotification` that gets past the
lookup, every entry written is still present in the returned report. The ID
of a user whose token was rejected (line 63), the key `general` after a
failed batch (line 77) and the ID of every user whose SMS call failed
(line 85) each have an entry in the returned push map; from any report, no
step (token loop, push block, SMS loop, SMS block) removes a present key or
touches the SMS map. An assignment to a key sets its reason to the value
written, replacing an earlier one: when no SMS call fails, the reason under
`general` after a failed batch is that of the batch. -/
theorem report_entries_never_removed (env : Env) (trace : List Event) (n : Notification)
    (id : String) (users : List User) (hv : env.Validate n = true)
    (hp : env.SendNotification trace n = (id, none))
    (hu : env.GetUsers (trace ++ [Event.SendNotification n (id, none)]) n.To = (users, none)) :
    (ContainsString n.Channels "push" = true → ∀ u ∈ users, tokenAccepted env u = false →
      ((doSendNotification env trace n).errReport.Push.get u.ID).isSome = true) ∧
    (∀ msg e, Event.SendPushNotification msg (some e)
        ∈ eventsSince trace (doSendNotification env trace n) →
      ((doSendNotification env trace n).errReport.Push.get "general").isSome = true ∧
      ((∀ ev ∈ eventsSince trace (doSendNotification env trace n), ev.failedSMS = false) →
        (doSendNotification env trace n).errReport.Push.get "general"
          = some ("failed to send push: " ++ e.Error))) ∧
    (ContainsString n.Channels "sms" = true → n.SMSmessage ≠ "" →
      (smsResults (eventsSince trace (doSendNotification env trace n))).length
        = users.length ∧
      ∀ ur ∈ users.zip (smsResults (eventsSince trace (doSendNotification env trace n))),
        ur.2.isSome = true →
        ((doSendNotification env trace n).errReport.Push.get ur.1.ID).isSome = true) ∧
    (∀ (r : NotificationErrorReport) (j : String), (r.Push.get j).isSome = true →
      (∀ us toks, ((collectPushTokens env us r toks).1.Push.get j).isSome = true ∧
        (collectPushTokens env us r toks).1.SMS = r.SMS) ∧
      (∀ tr, ((pushBlock env n users r tr).1.Push.get j).isSome = true ∧
        (pushBlock env n users r tr).1.SMS = r.SMS) ∧
      (∀ m us tr, ((sendSMSLoop env m us r tr).1.Push.get j).isSome = true ∧
        (sendSMSLoop env m us r tr).1.SMS = r.SMS) ∧
      (∀ tr, ((smsBlock env n users r tr).1.Push.get j).isSome = true ∧
        (smsBlock env n users r tr).1.SMS = r.SMS) ∧
      (∀ v, (r.Push.set j v).get j = some v)) := by
  obtain ⟨pe, se, hpe, hse, hshape, hsmsev, hev⟩ :=
    eventsSince_after_lookup env trace n id users hv hp hu
  have hout := doSendNotification_after_lookup env trace n id users hv hp hu
  refine ⟨?_, ?_, ?_, ?_⟩
  · intro hpush u hmem hbad
    rw [hout]
    simp only
    apply smsBlock_isSome_get
    exact pushBlock_isSome_get_rejected env n users _ _ u hpush hmem hbad
  · intro msg e hin
    rw [hev] at hin
    have hinpe : Event.SendPushNotification msg (some e) ∈ pe := by
      simp only [List.mem_cons, List.mem_append, reduceCtorEq, false_or] at hin
      rcases hin with h | h
      · exact h
      · obtain ⟨p, r, hpr⟩ := hsmsev _ h
        simp at hpr
    cases hpush : ContainsString n.Channels "push" with
    | false =>
      rw [pushBlock_trace_skip env n users _ _ hpush] at hpe
      have hnil : pe = [] := by simpa using hpe
      rw [hnil] at hinpe
      simp at hinpe
    | true =>
      have hpb := pushBlock_eq env n users { Push := [], SMS := [] }
        (trace ++ [Event.SendNotification n (id, none), Event.GetUsers n.To (users, none)])
        hpush
      have hpe2 : pe = [Event.SendPushNotification
          (pushMessage n (collectPushTokens env users { Push := [], SMS := [] } []).2)
          (env.SendPushNotification
            (trace ++ [Event.SendNotification n (id, none),
              Event.GetUsers n.To (users, none)])
            (pushMessage n (collectPushTokens env users { Push := [], SMS := [] } []).2))] := by
        rw [hpb] at hpe
        exact (List.append_cancel_left hpe).symm
      rw [hpe2, List.mem_singleton] at hinpe
      have hbatch : env.SendPushNotification
          (trace ++ [Event.SendNotification n (id, none), Event.GetUsers n.To (users, none)])
          (pushMessage n (collectPushTokens env users { Push := [], SMS := [] } []).2)
          = some e := by
        injection hinpe with _ h2
        exact h2.symm
      have hgen : (pushBlock env n users { Push := [], SMS := [] }
          (trace ++ [Event.SendNotification n (id, none),
            Event.GetUsers n.To (users, none)])).1.Push.get "general"
          = some ("failed to send push: " ++ e.Error) := by
        rw [hpb]
        simp only [hbatch]
        exact GoMap.get_set_self _ _ _
      constructor
      · rw [hout]
        simp only
        apply smsBlock_isSome_get
        rw [hgen]
        rfl
      · intro hok
        rw [hout]
        simp only
        have hsame := smsBlock_report_of_no_failure env n users
          (pushBlock env n users { Push := [], SMS := [] }
            (trace ++ [Event.SendNotification n (id, none),
              Event.GetUsers n.To (users, none)])).1
          (pushBlock env n users { Push := [], SMS := [] }
            (trace ++ [Event.SendNotification n (id, none),
              Event.GetUsers n.To (users, none)])).2
          (by
            intro m p e2 hin2
            rw [hse, List.drop_left] at hin2
            have := hok (Event.SendSMS m p (some e2)) (by rw [hev]; simp [hin2])
            simp [Event.failedSMS] at this)
        rw [hsame]
        exact hgen
  · intro hsms hmsg
    obtain ⟨rs, hlen, hrs, hpres⟩ := sendSMSLoop_results env n.SMSmessage users
      (pushBlock env n users { Push := [], SMS := [] }
        (trace ++ [Event.SendNotification n (id, none), Event.GetUsers n.To (users, none)])).1
      (pushBlock env n users { Push := [], SMS := [] }
        (trace ++ [Event.SendNotification n (id, none), Event.GetUsers n.To (users, none)])).2
    have hrun := smsBlock_run env n users
      (pushBlock env n users { Push := [], SMS := [] }
        (trace ++ [Event.SendNotification n (id, none), Event.GetUsers n.To (users, none)])).1
      (pushBlock env n users { Push := [], SMS := [] }
        (trace ++ [Event.SendNotification n (id, none), Event.GetUsers n.To (users, none)])).2
      hsms hmsg
    have hse2 : se = List.zipWith
        (fun u r => Event.SendSMS n.SMSmessage u.PhoneNumber r) users rs := by
      rw [hrun, hrs] at hse
      exact (List.append_cancel_left hse).symm
    have hpe0 : smsResults pe = [] := by
      rcases hshape with h | ⟨msg, err, h⟩ <;> simp [h, smsResults]
    have hres : smsResults (eventsSince trace (doSendNotification env trace n)) = rs := by
      rw [hev]
      simp only [smsResults, smsResults_append, hpe0, List.nil_append, hse2]
      exact smsResults_zipWith_SendSMS _ _ _ hlen
    rw [hres]
    refine ⟨hlen, ?_⟩
    intro ur hur hsome
    rw [hout]
    simp only
    rw [hrun]
    exact hpres ur hur hsome
  · intro r j h
    exact ⟨fun us toks => ⟨collectPushTokens_isSome_get env us r toks j h,
        collectPushTokens_SMS env us r toks⟩,
      fun tr => ⟨pushBlock_isSome_get env n users r tr j h, pushBlock_SMS env n users r tr⟩,
      fun m us tr => ⟨sendSMSLoop_isSome_get env m us r tr j h, sendSMSLoop_SMS env m us r tr⟩,
      fun tr => ⟨smsBlock_isSome_get env n users r tr j h, smsBlock_SMS env n users r tr⟩,
      fun v => GoMap.get_set_self r.Push j v⟩

/-- C16 amended, at a run with push and SMS over `U1` (accepted token) and
`U2` (no token) where the batch and every SMS call fail: `U2`, `general` and
`U1` all have an entry in the returned report. -/
theorem report_entries_never_removed_witness :
    ((doSendNotification
      (exampleEnv [userWithToken, userWithoutToken] (some (GoError.plain "push down"))
        (some (GoError.plain "sms down"))) []
      { Channels := ["push", "sms"], To := ["U1", "U2"],
        SMSmessage := "hello" }).errReport.Push.get "U2").isSome = true ∧
    ((doSendNotification
      (exampleEnv [userWithToken, userWithoutToken] (some (GoError.plain "push down"))
        (some (GoError.plain "sms down"))) []
      { Channels := ["push", "sms"], To := ["U1", "U2"],
        SMSmessage := "hello" }).errReport.Push.get "general").isSome = true ∧
    (doSendNotification
      (exampleEnv [userWithToken, userWithoutToken] (some (GoError.plain "push down"))
        (some (GoError.plain "sms down"))) []
      { Channels := ["push", "sms"], To := ["U1", "U2"], SMSmessage := "hello" }).errReport.Push
      = [("U2", "failed to send SMS: sms down"),
         ("general", "failed to send push: push down"),
         ("U1", "failed to send SMS: sms down")] :=
  ⟨(report_entries_never_removed
      (exampleEnv [userWithToken, userWithoutToken] (some (GoError.plain "push down"))
        (some (GoError.plain "sms down"))) []
      { Channels := ["push", "sms"], To := ["U1", "U2"], SMSmessage := "hello" } "N1"
      [userWithToken, userWithoutToken] rfl rfl rfl).1 (by decide) userWithoutToken
      (by decide) (by decide),
    ((report_entries_never_removed
      (exampleEnv [userWithToken, userWithoutToken] (some (GoError.plain "push down"))
        (some (GoError.plain "sms down"))) []
      { Channels := ["push", "sms"], To := ["U1", "U2"], SMSmessage := "hello" } "N1"
      [userWithToken, userWithoutToken] rfl rfl rfl).2.1
      { To := ["ExponentPushToken[a]"], Sound := "default", Priority := "default" }
      (GoError.plain "push down") (by decide)).1,
    by decide⟩

/-! ## Hard failures and the stored record -/

/-- C17, as the claim states it, fails: when the lookup fails the run returns
a non-nil error although the persist call of the same run has succeeded. -/
theorem hard_failure_after_persist_counterexample :
    (doSendNotification
      (fixedEnv ("N1", none) ([], some (GoError.plain "directory unreachable")) none none) []
      { To := ["U1"], Channels := ["push"] }).err
      = some (GoError.plain "directory unreachable") ∧
    eventsSince [] (doSendNotification
      (fixedEnv ("N1", none) ([], some (GoError.plain "directory unreachable")) none none) []
      { To := ["U1"], Channels := ["push"] })
      = [Event.SendNotification { To := ["U1"], Channels := ["push"] } ("N1", none),
         Event.GetUsers ["U1"] ([], some (GoError.plain "directory unreachable"))] ∧
    (Event.SendNotification { To := ["U1"], Channels := ["push"] } ("N1", none)).stored
      = true := by
  refine ⟨by decide, by decide, by decide⟩

/-- C17, amended: a run that returns a non-nil error has called neither the
push nor the SMS provider, and it has stored no record unless the error is
that of the recipient lookup: then the run consists of the successful persist
call followed by the failed lookup. -/
theorem hard_failure_calls (env : Env) (trace : List Event) (n : Notification)
    (herr : (doSendNotification env trace n).err ≠ none) :
    pushCalls (eventsSince trace (doSendNotification env trace n)) = [] ∧
    smsCalls (eventsSince trace (doSendNotification env trace n)) = [] ∧
    ((∀ ev ∈ eventsSince trace (doSendNotification env trace n), ev.stored = false) ∨
      ∃ id users e, env.SendNotification trace n = (id, none) ∧
        eventsSince trace (doSendNotification env trace n)
          = [Event.SendNotification n (id, none), Event.GetUsers n.To (users, some e)] ∧
        (doSendNotification env trace n).err = some e) := by
  cases hv : env.Validate n with
  | false =>
    simp [doSendNotification, hv, eventsSince, pushCalls, smsCalls]
  | true =>
    rcases hp : env.SendNotification trace n with ⟨id, _ | e⟩
    · rcases hu : env.GetUsers (trace ++ [Event.SendNotification n (id, none)]) n.To
        with ⟨users, _ | e⟩
      · exfalso
        apply herr
        simp [doSendNotification, hv, hp, hu]
      · refine ⟨?_, ?_, Or.inr ⟨id, users, e, rfl, ?_, ?_⟩⟩
        · simp [doSendNotification, hv, hp, hu, eventsSince, pushCalls]
        · simp [doSendNotification, hv, hp, hu, eventsSince, smsCalls]
        · simp [doSendNotification, hv, hp, hu, eventsSince]
        · simp [doSendNotification, hv, hp, hu]
    · refine ⟨?_, ?_, Or.inl ?_⟩
      · simp [doSendNotification, hv, hp, eventsSince, pushCalls]
      · simp [doSendNotification, hv, hp, eventsSince, smsCalls]
      · simp [doSendNotification, hv, hp, eventsSince, Event.stored]

/-- C17 amended, at a store that answers `db down`: nothing is stored and no
provider is called. -/
theorem hard_failure_calls_witness :
    (doSendNotification
      (fixedEnv ("", some (GoError.plain "db down")) ([], none) none none) []
      { To := ["U1"], Channels := ["push", "sms"], SMSmessage := "hi" }).err ≠ none ∧
    pushCalls (eventsSince [] (doSendNotification
      (fixedEnv ("", some (GoError.plain "db down")) ([], none) none none) []
      { To := ["U1"], Channels := ["push", "sms"], SMSmessage := "hi" })) = [] ∧
    smsCalls (eventsSince [] (doSendNotification
      (fixedEnv ("", some (GoError.plain "db down")) ([], none) none none) []
      { To := ["U1"], Channels := ["push", "sms"], SMSmessage := "hi" })) = [] :=
  ⟨by decide,
    (hard_failure_calls (fixedEnv ("", some (GoError.plain "db down")) ([], none) none none) []
      { To := ["U1"], Channels := ["push", "sms"], SMSmessage := "hi" } (by decide)).1,
    (hard_failure_calls (fixedEnv ("", some (GoError.plain "db down")) ([], none) none none) []
      { To := ["U1"], Channels := ["push", "sms"], SMSmessage := "hi" } (by decide)).2.1⟩

/-! ## The validator of the spec -/

/-- C18: with the validator of the spec, a notification whose recipient list
is empty, or whose channel list is empty, or whose channels hold a kind other
than push and sms, or whose type is not among the recognised values fails
validation, and `doSendNotification` returns the malformed-body error and
the empty ID without calling any collaborator. -/
theorem doSendNotification_malformed (env : Env) (trace : List Event) (n : Notification)
    (types : List String) (henv : env.Validate = Notification.Validate types)
    (h : n.To = [] ∨ n.Channels = [] ∨ (∃ c ∈ n.Channels, c ≠ "push" ∧ c ≠ "sms") ∨
      n.Type_ ∉ types) :
    Notification.Validate types n = false ∧
    (doSendNotification env trace n).err = some (GoError.MalformedBodyError "") ∧
    (doSendNotification env trace n).notificationID = "" ∧
    (doSendNotification env trace n).trace = trace ∧
    pushCalls (eventsSince trace (doSendNotification env trace n)) = [] ∧
    smsCalls (eventsSince trace (doSendNotification env trace n)) = [] := by
  have hval : Notification.Validate types n = false := by
    rcases h with h | h | ⟨c, hc, hp, hs⟩ | h
    · simp [Notification.Validate, h]
    · simp [Notification.Validate, h]
    · have hall : n.Channels.all (fun c => c == "push" || c == "sms") = false := by
        rw [Bool.eq_false_iff]
        intro hall
        have := List.all_eq_true.mp hall c hc
        simp [hp, hs] at this
      simp [Notification.Validate, hall]
    · have hnot : types.contains n.Type_ = false := by
        simpa using h
      unfold Notification.Validate
      rw [hnot, Bool.and_false]
  have hv : env.Validate n = false := by rw [henv]; exact hval
  refine ⟨hval, ?_⟩
  simp [doSendNotification, hv, eventsSince, pushCalls, smsCalls]

/-- C18, at a notification that asks for the channel `email`. -/
theorem doSendNotification_malformed_witness :
    Notification.Validate ["expense-created"]
      { Type_ := "expense-created", Channels := ["push", "email"], To := ["U1"] } = false ∧
    (doSendNotification (validatingEnv ["expense-created"] [userWithToken] none none) []
      { Type_ := "expense-created", Channels := ["push", "email"], To := ["U1"] }).err
      = some (GoError.MalformedBodyError "") ∧
    (doSendNotification (validatingEnv ["expense-created"] [userWithToken] none none) []
      { Type_ := "expense-created", Channels := ["push", "email"], To := ["U1"] }).trace = [] :=
  ⟨(doSendNotification_malformed
      (validatingEnv ["expense-created"] [userWithToken] none none) []
      { Type_ := "expense-created", Channels := ["push", "email"], To := ["U1"] }
      ["expense-created"] rfl (by decide)).1,
    (doSendNotification_malformed
      (validatingEnv ["expense-created"] [userWithToken] none none) []
      { Type_ := "expense-created", Channels := ["push", "email"], To := ["U1"] }
      ["expense-created"] rfl (by decide)).2.1,
    (doSendNotification_malformed
      (validatingEnv ["expense-created"] [userWithToken] none none) []
      { Type_ := "expense-created", Channels := ["push", "email"], To := ["U1"] }
      ["expense-created"] rfl (by decide)).2.2.2.1⟩

/-! ## Error responses -/

/-- C20: a request whose `kickbackId` is empty is answered by `CreateTask`
and `GetTasks`, and a request whose `taskId` is empty by `GetTask`,
`UpdateTask` and `DeleteTask`, with status 400 and the message
`missing required path parameter '<name>'` for that parameter, an empty
`errorCode` and no result; the history of collaborator calls is unchanged, so
the task service is not called. -/
theorem task_handlers_missing_param (env : TaskEnv) (trace : List TaskEvent) (c : Context) :
    (c.Param "kickbackId" = "" →
      ((CreateTask env trace c).1.Status = 400 ∧
        (CreateTask env trace c).1.errorMessage
          = some "missing required path parameter 'kickbackId'" ∧
        (CreateTask env trace c).1.errorCode = some "" ∧
        (CreateTask env trace c).2 = trace) ∧
      ((GetTasks env trace c).1.Status = 400 ∧
        (GetTasks env trace c).1.errorMessage
          = some "missing required path parameter 'kickbackId'" ∧
        (GetTasks env trace c).1.errorCode = some "" ∧
        (GetTasks env trace c).2 = trace)) ∧
    (c.Param "taskId" = "" →
      ((GetTask env trace c).1.Status = 400 ∧
        (GetTask env trace c).1.errorMessage
          = some "missing required path parameter 'taskId'" ∧
        (GetTask env trace c).1.errorCode = some "" ∧
        (GetTask env trace c).2 = trace) ∧
      ((UpdateTask env trace c).1.Status = 400 ∧
        (UpdateTask env trace c).1.errorMessage
          = some "missing required path parameter 'taskId'" ∧
        (UpdateTask env trace c).1.errorCode = some "" ∧
        (UpdateTask env trace c).2 = trace) ∧
      ((DeleteTask env trace c).1.Status = 400 ∧
        (DeleteTask env trace c).1.errorMessage
          = some "missing required path parameter 'taskId'" ∧
        (DeleteTask env trace c).1.errorCode = some "" ∧
        (DeleteTask env trace c).2 = trace)) := by
  constructor
  · intro h
    simp [CreateTask, GetTasks, h, EncodeError, GoError.Code, GoError.Error, StatusBadRequest,
      Response.errorMessage, Response.errorCode]
  · intro h
    simp [GetTask, UpdateTask, DeleteTask, h, EncodeError, GoError.Code, GoError.Error,
      StatusBadRequest, Response.errorMessage, Response.errorCode]

/-- C20, at a request without path parameters (the case `no taskId in path`
of `TestGetTaskHandler`) and a service that would answer every call. -/
theorem task_handlers_missing_param_witness :
    (GetTask (exampleTaskEnv {} none) [] noParams).1.Status = 400 ∧
    (GetTask (exampleTaskEnv {} none) [] noParams).1.errorMessage
      = some "missing required path parameter 'taskId'" ∧
    (GetTask (exampleTaskEnv {} none) [] noParams).2 = [] ∧
    (CreateTask (exampleTaskEnv {} none) [] noParams).1.errorMessage
      = some "missing required path parameter 'kickbackId'" :=
  ⟨((task_handlers_missing_param (exampleTaskEnv {} none) [] noParams).2 rfl).1.1,
    ((task_handlers_missing_param (exampleTaskEnv {} none) [] noParams).2 rfl).1.2.1,
    ((task_handlers_missing_param (exampleTaskEnv {} none) [] noParams).2 rfl).1.2.2.2,
    ((task_handlers_missing_param (exampleTaskEnv {} none) [] noParams).1 rfl).1.2.1⟩

/-! ## Task handlers: the body and the successful answers -/

/-- C21: with the path parameter present, `CreateTask` and `UpdateTask`
answer a body that does not decode with status 400 and the message
`malformed request body`, which does not depend on the `Field` of
`MalformedBodyError`; the history of collaborator calls is unchanged, so the
task service is not called. -/
theorem task_handlers_malformed_body (env : TaskEnv) (trace : List TaskEvent) (c : Context) :
    (c.Param "kickbackId" ≠ "" → (env.DecodeTask c.Body).2 ≠ none →
      (CreateTask env trace c).1.Status = 400 ∧
      (CreateTask env trace c).1.errorMessage = some "malformed request body" ∧
      (CreateTask env trace c).2 = trace) ∧
    (c.Param "taskId" ≠ "" → (env.DecodeTaskUpdates c.Body).2 ≠ none →
      (UpdateTask env trace c).1.Status = 400 ∧
      (UpdateTask env trace c).1.errorMessage = some "malformed request body" ∧
      (UpdateTask env trace c).2 = trace) ∧
    (∀ Field, (GoError.MalformedBodyError Field).Error = "malformed request body" ∧
      (GoError.MalformedBodyError Field).Code = some 400) := by
  refine ⟨?_, ?_, fun Field => ⟨rfl, rfl⟩⟩
  · intro hparam hdec
    rcases hd : env.DecodeTask c.Body with ⟨t, _ | e⟩
    · simp [hd] at hdec
    · simp [CreateTask, hparam, hd, EncodeError, GoError.Code, GoError.Error, StatusBadRequest,
        Response.errorMessage]
  · intro hparam hdec
    rcases hd : env.DecodeTaskUpdates c.Body with ⟨t, _ | e⟩
    · simp [hd] at hdec
    · simp [UpdateTask, hparam, hd, EncodeError, GoError.Code, GoError.Error, StatusBadRequest,
        Response.errorMessage]

/-- C21, at a request with both path parameters and the body `bad`, which
does not decode. -/
theorem task_handlers_malformed_body_witness :
    (CreateTask (exampleTaskEnv {} none) [] { Param := fun _ => "id1", Body := "bad" }).1.Status
      = 400 ∧
    (CreateTask (exampleTaskEnv {} none) []
      { Param := fun _ => "id1", Body := "bad" }).1.errorMessage
      = some "malformed request body" ∧
    (UpdateTask (exampleTaskEnv {} none) []
      { Param := fun _ => "id1", Body := "bad" }).1.errorMessage
      = some "malformed request body" ∧
    (UpdateTask (exampleTaskEnv {} none) [] { Param := fun _ => "id1", Body := "bad" }).2
      = [] :=
  ⟨((task_handlers_malformed_body (exampleTaskEnv {} none) []
      { Param := fun _ => "id1", Body := "bad" }).1 (by decide) (by decide)).1,
    ((task_handlers_malformed_body (exampleTaskEnv {} none) []
      { Param := fun _ => "id1", Body := "bad" }).1 (by decide) (by decide)).2.1,
    ((task_handlers_malformed_body (exampleTaskEnv {} none) []
      { Param := fun _ => "id1", Body := "bad" }).2.1 (by decide) (by decide)).2.1,
    ((task_handlers_malformed_body (exampleTaskEnv {} none) []
      { Param := fun _ => "id1", Body := "bad" }).2.1 (by decide) (by decide)).2.2⟩

/-- C22: with a non-empty `kickbackId` and a body that decodes to `t`,
`CreateTask` calls the task service once, with `t` whose `ParentID` is set
to the `kickbackId` of the path, and when the service returns `id` without
error the answer is status 200 with the result `taskId: id`. With a
non-empty `taskId` (and a body that decodes to `updates`), `UpdateTask`
calls the task service once with `(taskId, updates)` and `DeleteTask` calls
it once with `taskId`; each answers a nil error of that call with status
204, no error and no result. An error of the service call is answered
through `EncodeError`. -/
theorem task_handlers_success (env : TaskEnv) (trace : List TaskEvent) (c : Context) :
    (∀ t, c.Param "kickbackId" ≠ "" → env.DecodeTask c.Body = (t, none) →
      (CreateTask env trace c).2 = trace ++
        [TaskEvent.CreateTask { t with ParentID := c.Param "kickbackId" }
          (env.CreateTask trace { t with ParentID := c.Param "kickbackId" })] ∧
      (∀ id, env.CreateTask trace { t with ParentID := c.Param "kickbackId" } = (id, none) →
        (CreateTask env trace c).1.Status = 200 ∧
        (CreateTask env trace c).1.Body.Result = Value.map [("taskId", Value.str id)] ∧
        (CreateTask env trace c).1.Body.Meta.Error = none) ∧
      (∀ id e, env.CreateTask trace { t with ParentID := c.Param "kickbackId" } = (id, some e) →
        (CreateTask env trace c).1 = EncodeError env.StatusText c e)) ∧
    (∀ updates, c.Param "taskId" ≠ "" → env.DecodeTaskUpdates c.Body = (updates, none) →
      (UpdateTask env trace c).2 = trace ++
        [TaskEvent.UpdateTask (c.Param "taskId") updates
          (env.UpdateTask trace (c.Param "taskId") updates)] ∧
      (env.UpdateTask trace (c.Param "taskId") updates = none →
        (UpdateTask env trace c).1.Status = 204 ∧
        (UpdateTask env trace c).1.Body.Meta.Error = none ∧
        (UpdateTask env trace c).1.Body.Result = Value.nil) ∧
      (∀ e, env.UpdateTask trace (c.Param "taskId") updates = some e →
        (UpdateTask env trace c).1 = EncodeError env.StatusText c e)) ∧
    (c.Param "taskId" ≠ "" →
      (DeleteTask env trace c).2 = trace ++
        [TaskEvent.DeleteTask (c.Param "taskId") (env.DeleteTask trace (c.Param "taskId"))] ∧
      (env.DeleteTask trace (c.Param "taskId") = none →
        (DeleteTask env trace c).1.Status = 204 ∧
        (DeleteTask env trace c).1.Body.Meta.Error = none ∧
        (DeleteTask env trace c).1.Body.Result = Value.nil) ∧
      (∀ e, env.DeleteTask trace (c.Param "taskId") = some e →
        (DeleteTask env trace c).1 = EncodeError env.StatusText c e)) := by
  refine ⟨?_, ?_, ?_⟩
  · intro t hparam hdec
    refine ⟨?_, ?_, ?_⟩
    · rcases hres : env.CreateTask trace { t with ParentID := c.Param "kickbackId" }
        with ⟨id, _ | e⟩ <;> simp [CreateTask, hparam, hdec, hres]
    · intro id hres
      simp [CreateTask, hparam, hdec, hres, EncodeSuccess, StatusOK]
    · intro id e hres
      simp [CreateTask, hparam, hdec, hres]
  · intro updates hparam hdec
    refine ⟨?_, ?_, ?_⟩
    · cases hres : env.UpdateTask trace (c.Param "taskId") updates <;>
        simp [UpdateTask, hparam, hdec, hres]
    · intro hres
      simp [UpdateTask, hparam, hdec, hres, EncodeSuccess, StatusNoContent]
    · intro e hres
      simp [UpdateTask, hparam, hdec, hres]
  · intro hparam
    refine ⟨?_, ?_, ?_⟩
    · cases hres : env.DeleteTask trace (c.Param "taskId") <;>
        simp [DeleteTask, hparam, hres]
    · intro hres
      simp [DeleteTask, hparam, hres, EncodeSuccess, StatusNoContent]
    · intro e hres
      simp [DeleteTask, hparam, hres]

/-- C22, at a body that carries the parent `other` on the path of the
kickback `KB1`, and at an update and a deletion of the task `T1`. -/
theorem task_handlers_success_witness :
    (CreateTask (exampleTaskEnv { Name := "buy ice", ParentID := "other" } none) []
      { Param := fun _ => "KB1", Body := "ok" }).2
      = [TaskEvent.CreateTask { Name := "buy ice", ParentID := "KB1" } ("TSK_1", none)] ∧
    (CreateTask (exampleTaskEnv { Name := "buy ice", ParentID := "other" } none) []
      { Param := fun _ => "KB1", Body := "ok" }).1.Status = 200 ∧
    (UpdateTask (exampleTaskEnv {} none) [] { Param := fun _ => "T1", Body := "ok" }).2
      = [TaskEvent.UpdateTask "T1" {} none] ∧
    (UpdateTask (exampleTaskEnv {} none) [] { Param := fun _ => "T1", Body := "ok" }).1.Status
      = 204 ∧
    (DeleteTask (exampleTaskEnv {} none) [] { Param := fun _ => "T1" }).2
      = [TaskEvent.DeleteTask "T1" none] ∧
    (DeleteTask (exampleTaskEnv {} none) [] { Param := fun _ => "T1" }).1.Status = 204 :=
  ⟨((task_handlers_success (exampleTaskEnv { Name := "buy ice", ParentID := "other" } none) []
      { Param := fun _ => "KB1", Body := "ok" }).1 { Name := "buy ice", ParentID := "other" }
      (by decide) rfl).1,
    (((task_handlers_success (exampleTaskEnv { Name := "buy ice", ParentID := "other" } none) []
      { Param := fun _ => "KB1", Body := "ok" }).1 { Name := "buy ice", ParentID := "other" }
      (by decide) rfl).2.1 "TSK_1" rfl).1,
    ((task_handlers_success (exampleTaskEnv {} none) []
      { Param := fun _ => "T1", Body := "ok" }).2.1 {} (by decide) rfl).1,
    (((task_handlers_success (exampleTaskEnv {} none) []
      { Param := fun _ => "T1", Body := "ok" }).2.1 {} (by decide) rfl).2.1 rfl).1,
    ((task_handlers_success (exampleTaskEnv {} none) [] { Param := fun _ => "T1" }).2.2
      (by decide)).1,
    (((task_handlers_success (exampleTaskEnv {} none) [] { Param := fun _ => "T1" }).2.2
      (by decide)).2.1 rfl).1⟩

/-! ## The report and the batch call, on every path -/

/-- C25: whatever the notification, the history and the collaborators, the
SMS map of the report `doSendNotification` returns is empty: the SMS map is
created empty and no step assigns to it. -/
theorem report_SMS_empty (env : Env) (trace : List Event) (n : Notification) :
    (doSendNotification env trace n).errReport.SMS = [] := by
  cases hv : env.Validate n with
  | false => simp [doSendNotification, hv]
  | true =>
    rcases hp : env.SendNotification trace n with ⟨id, _ | e⟩
    · rcases hu : env.GetUsers (trace ++ [Event.SendNotification n (id, none)]) n.To
        with ⟨users, _ | e⟩
      · exact (report_keys_after_lookup env trace n id users hv hp hu).2
      · simp [doSendNotification, hv, hp, hu]
    · simp [doSendNotification, hv, hp]

/-- C26: when validation, persistence and the lookup succeed, the run calls
`SendPushNotification` exactly once if push is among the channels, also when
no resolved user has an accepted token or the directory returned no user
(the message then has an empty `To`), and not at all if push is not among
the channels. -/
theorem push_called_once (env : Env) (trace : List Event) (n : Notification)
    (id : String) (users : List User) (hv : env.Validate n = true)
    (hp : env.SendNotification trace n = (id, none))
    (hu : env.GetUsers (trace ++ [Event.SendNotification n (id, none)]) n.To = (users, none)) :
    (ContainsString n.Channels "push" = true →
      (pushCalls (eventsSince trace (doSendNotification env trace n))).length = 1 ∧
      ((∀ u ∈ users, tokenAccepted env u = false) →
        pushCalls (eventsSince trace (doSendNotification env trace n))
          = [pushMessage n []])) ∧
    (ContainsString n.Channels "push" = false →
      pushCalls (eventsSince trace (doSendNotification env trace n)) = []) := by
  rw [pushCalls_after_lookup env trace n id users hv hp hu]
  constructor
  · intro hpush
    simp only [hpush, if_true, List.length_singleton, true_and]
    intro hrej
    have hnil : users.filter (tokenAccepted env) = [] := by
      rw [List.filter_eq_nil_iff]
      intro u hmem
      simp [hrej u hmem]
    rw [hnil]
    rfl
  · intro hpush
    simp [hpush]

/-- C26, at a directory that returns no user: one batch call, with an empty
`To`. -/
theorem push_called_once_witness :
    pushCalls (eventsSince [] (doSendNotification (exampleEnv [] none none) []
      { Channels := ["push"], To := ["U1"], Title := "T", Body := "B" }))
      = [{ To := [], Title := "T", Body := "B", Sound := "default", Priority := "default" }] :=
  ((push_called_once (exampleEnv [] none none) []
    { Channels := ["push"], To := ["U1"], Title := "T", Body := "B" } "N1" [] rfl rfl rfl).1
    (by decide)).2 (by decide)

/-- C27, as the claim states it, fails in its last clause: the recipient list
holds the identifier `general`, the directory returns no user, push is
requested and the batch fails. The identifier `general` was not returned by
the directory and yet is a key of the returned report. -/
theorem unreturned_general_counterexample :
    "general" ∈ ({ Channels := ["push"], To := ["general"] } : Notification).To ∧
    eventsSince [] (doSendNotification
      (exampleEnv [] (some (GoError.plain "push down")) none) []
      { Channels := ["push"], To := ["general"] })
      = [Event.SendNotification { Channels := ["push"], To := ["general"] } ("N1", none),
         Event.GetUsers ["general"] ([], none),
         Event.SendPushNotification { To := [], Sound := "default", Priority := "default" }
          (some (GoError.plain "push down"))] ∧
    (doSendNotification (exampleEnv [] (some (GoError.plain "push down")) none) []
      { Channels := ["push"], To := ["general"] }).errReport.Push
      = [("general", "failed to send push: push down")] ∧
    (doSendNotification (exampleEnv [] (some (GoError.plain "push down")) none) []
      { Channels := ["push"], To := ["general"] }).errReport.Push.get "general" ≠ none := by
  refine ⟨by decide, by decide, by decide, by decide⟩

/-- C27, amended: every key of the push map `doSendNotification` returns is
`general` or the ID of a user that the lookup of this run returned; so an
identifier other than `general` that belongs to no returned user has no
entry in the returned report. -/
theorem push_map_keys (env : Env) (trace : List Event) (n : Notification) :
    (∀ kv ∈ (doSendNotification env trace n).errReport.Push,
      kv.1 = "general" ∨
        ∃ ids users, Event.GetUsers ids (users, none)
            ∈ eventsSince trace (doSendNotification env trace n) ∧
          ∃ u ∈ users, u.ID = kv.1) ∧
    (∀ k, k ≠ "general" →
      (∀ ids users, Event.GetUsers ids (users, none)
          ∈ eventsSince trace (doSendNotification env trace n) → ∀ u ∈ users, u.ID ≠ k) →
      (doSendNotification env trace n).errReport.Push.get k = none ∧
      (doSendNotification env trace n).errReport.SMS.get k = none) := by
  have hkeys : ∀ kv ∈ (doSendNotification env trace n).errReport.Push,
      kv.1 = "general" ∨
        ∃ ids users, Event.GetUsers ids (users, none)
            ∈ eventsSince trace (doSendNotification env trace n) ∧
          ∃ u ∈ users, u.ID = kv.1 := by
    cases hv : env.Validate n with
    | false => simp [doSendNotification, hv]
    | true =>
      rcases hp : env.SendNotification trace n with ⟨id, _ | e⟩
      · rcases hu : env.GetUsers (trace ++ [Event.SendNotification n (id, none)]) n.To
          with ⟨users, _ | e⟩
        · intro kv hkv
          obtain ⟨pe, se, _, _, _, _, hev⟩ :=
            eventsSince_after_lookup env trace n id users hv hp hu
          rcases (report_keys_after_lookup env trace n id users hv hp hu).1 kv hkv with h | h
          · exact Or.inl h
          · refine Or.inr ⟨n.To, users, ?_, h⟩
            rw [hev]
            simp
        · simp [doSendNotification, hv, hp, hu]
      · simp [doSendNotification, hv, hp]
  have hSMS : (doSendNotification env trace n).errReport.SMS = [] := by
    cases hv : env.Validate n with
    | false => simp [doSendNotification, hv]
    | true =>
      rcases hp : env.SendNotification trace n with ⟨id, _ | e⟩
      · rcases hu : env.GetUsers (trace ++ [Event.SendNotification n (id, none)]) n.To
          with ⟨users, _ | e⟩
        · exact (report_keys_after_lookup env trace n id users hv hp hu).2
        · simp [doSendNotification, hv, hp, hu]
      · simp [doSendNotification, hv, hp]
  refine ⟨hkeys, fun k hgen hk => ⟨?_, ?_⟩⟩
  · cases hget : (doSendNotification env trace n).errReport.Push.get k with
    | none => rfl
    | some v =>
      exfalso
      rcases hkeys (k, v) (GoMap.mem_of_get _ _ _ hget) with h | ⟨ids, users, hin, u, hu1, hu2⟩
      · exact hgen h
      · exact hk ids users hin u hu1 hu2
  · rw [hSMS]
    rfl

/-! ## The two list helpers -/

theorem memberListToUserIDsLoop_eq (members : List Member) (userIDs : List String) :
    memberListToUserIDsLoop members userIDs = userIDs ++ members.map (fun m => m.UserID) := by
  induction members generalizing userIDs with
  | nil => simp [memberListToUserIDsLoop]
  | cons m ms ih => simp [memberListToUserIDsLoop, ih]

theorem assigneesToUserIDsLoop_eq (onlyCompleted : Bool) (assignees : List ExpenseAssignee)
    (userIDs : List String) :
    assigneesToUserIDsLoop onlyCompleted assignees userIDs
      = userIDs ++ (assignees.filter (fun a => !onlyCompleted || a.IsCompleted)).map
          (fun a => a.UserID) := by
  induction assignees generalizing userIDs with
  | nil => simp [assigneesToUserIDsLoop]
  | cons a as ih =>
    cases onlyCompleted <;> cases h : a.IsCompleted <;>
      simp [assigneesToUserIDsLoop, ih, h]

/-- C30: `assigneesToUserIDs(assignees, false)` is the list of the `UserID`
fields in order, of the same length; `assigneesToUserIDs(assignees, true)` is
the list of the `UserID` fields of exactly the assignees with `IsCompleted`,
in order, a sublist of the former; `memberListToUserIDs(members)` is the list
of the `UserID` fields in order, of the same length. -/
theorem userID_lists (assignees : List ExpenseAssignee) (members : List Member) :
    assigneesToUserIDs assignees false = assignees.map (fun a => a.UserID) ∧
    (assigneesToUserIDs assignees false).length = assignees.length ∧
    assigneesToUserIDs assignees true
      = (assignees.filter (fun a => a.IsCompleted)).map (fun a => a.UserID) ∧
    List.Sublist (assigneesToUserIDs assignees true) (assigneesToUserIDs assignees false) ∧
    memberListToUserIDs members = members.map (fun m => m.UserID) ∧
    (memberListToUserIDs members).length = members.length := by
  have h1 : assigneesToUserIDs assignees false = assignees.map (fun a => a.UserID) := by
    simp [assigneesToUserIDs, assigneesToUserIDsLoop_eq]
  have h2 : assigneesToUserIDs assignees true
      = (assignees.filter (fun a => a.IsCompleted)).map (fun a => a.UserID) := by
    simp [assigneesToUserIDs, assigneesToUserIDsLoop_eq]
  have h3 : memberListToUserIDs members = members.map (fun m => m.UserID) := by
    simp [memberListToUserIDs, memberListToUserIDsLoop_eq]
  refine ⟨h1, by rw [h1, List.length_map], h2, ?_, h3, by rw [h3, List.length_map]⟩
  rw [h1, h2]
  exact List.Sublist.map _ (List.filter_sublist _)

/-! ## `UpdateEvent`: who is notified -/

theorem usersToNotifyLoop_eq (currentUserID : String) (userIDs usersToNotify : List String) :
    usersToNotifyLoop currentUserID userIDs usersToNotify
      = usersToNotify ++ userIDs.filter (fun id => id != currentUserID) := by
  induction userIDs generalizing usersToNotify with
  | nil => simp [usersToNotifyLoop]
  | cons id ids ih =>
    by_cases h : id = currentUserID
    · simp [usersToNotifyLoop, ih, h]
    · simp [usersToNotifyLoop, ih, h]

theorem dispatches_append (a b : List HandlerEvent) :
    dispatches (a ++ b) = dispatches a ++ dispatches b := by
  induction a with
  | nil => rfl
  | cons e a ih => cases e <;> simp [dispatches, ih]

/-- C23: every notification a run of `UpdateEvent` dispatches goes to the
member user IDs of the event the run retrieved, without the occurrences of
the current user's ID and otherwise in the same order, so the current user
is not among the recipients; and when the update succeeds, requires a
notification and the event is at least an hour old, exactly this
notification is dispatched. -/
theorem UpdateEvent_recipients (env : HandlerEnv) (trace : List HandlerEvent)
    (ntrace : List Event) (c : Context) :
    (∀ n ∈ dispatches ((UpdateEvent env trace ntrace c).events trace),
      c.CurrentUserID ∉ n.To ∧
      ∃ updatedEvent,
        HandlerEvent.GetEvent (c.Param "eventId") (updatedEvent, none)
          ∈ (UpdateEvent env trace ntrace c).events trace ∧
        n.To = (env.MemberUserIDs updatedEvent).filter (fun id => id != c.CurrentUserID)) ∧
    (∀ updates updatedEvent, c.Param "eventId" ≠ "" →
      env.DecodeEventUpdates c.Body = (updates, none) →
      env.UpdateEvent trace (c.Param "eventId") updates = none →
      env.GetEvent (trace ++ [HandlerEvent.UpdateEvent (c.Param "eventId") updates none])
        (c.Param "eventId") = (updatedEvent, none) →
      env.RequiresNotification updates = true →
      ¬ env.Since updatedEvent.CreatedAt < 1 * env.Hour →
      dispatches ((UpdateEvent env trace ntrace c).events trace)
        = [eventUpdatedNotification env
            ((env.MemberUserIDs updatedEvent).filter (fun id => id != c.CurrentUserID))
            updatedEvent (c.Param "eventId")]) := by
  constructor
  · intro n hn
    by_cases hparam : c.Param "eventId" = ""
    · simp [UpdateEvent, hparam, HandlerResult.events, dispatches] at hn
    · rcases hdec : env.DecodeEventUpdates c.Body with ⟨updates, _ | e⟩
      · cases hupd : env.UpdateEvent trace (c.Param "eventId") updates with
        | some e =>
          simp [UpdateEvent, hparam, hdec, hupd, HandlerResult.events, dispatches] at hn
        | none =>
          rcases hget : env.GetEvent
              (trace ++ [HandlerEvent.UpdateEvent (c.Param "eventId") updates none])
              (c.Param "eventId") with ⟨updatedEvent, _ | e⟩
          · by_cases hsend : env.RequiresNotification updates = true ∧
                ¬ env.Since updatedEvent.CreatedAt < 1 * env.Hour
            · obtain ⟨hreq, hold⟩ := hsend
              simp only [UpdateEvent, hparam, hdec, hupd, hget, hreq, hold, if_true, if_false,
                dispatch, HandlerResult.events, List.append_assoc, List.drop_left,
                usersToNotifyLoop_eq, List.nil_append] at hn ⊢
              simp only [List.cons_append, List.nil_append, dispatches, List.mem_singleton]
                at hn
              subst hn
              refine ⟨?_, updatedEvent, by simp, rfl⟩
              simp [eventUpdatedNotification]
            · exfalso
              have hnone : dispatches ((UpdateEvent env trace ntrace c).events trace) = [] := by
                by_cases hreq : env.RequiresNotification updates = true
                · have hold : env.Since updatedEvent.CreatedAt < 1 * env.Hour := by
                    by_contra h
                    exact hsend ⟨hreq, h⟩
                  simp only [UpdateEvent, hparam, hdec, hupd, hget, hreq, hold, if_true,
                    if_false, HandlerResult.events, List.append_assoc, List.drop_left]
                  simp [dispatches]
                · simp only [UpdateEvent, hparam, hdec, hupd, hget, hreq, if_false,
                    HandlerResult.events, List.append_assoc, List.drop_left]
                  simp [dispatches]
              rw [hnone] at hn
              simp at hn
          · simp [UpdateEvent, hparam, hdec, hupd, hget, HandlerResult.events, dispatches]
              at hn
      · simp [UpdateEvent, hparam, hdec, HandlerResult.events, dispatches] at hn
  · intro updates updatedEvent hparam hdec hupd hget hreq hold
    simp only [UpdateEvent, hparam, hdec, hupd, hget, hreq, hold, if_true, if_false,
      dispatch, HandlerResult.events, List.append_assoc, List.drop_left,
      usersToNotifyLoop_eq, List.nil_append]
    simp [dispatches]

/-- C23, at an event with the members `U1`, `U2`, `U3`, `U2` updated by
`U2`: the notification goes to `U1` and `U3`. -/
theorem UpdateEvent_recipients_witness :
    (dispatches ((UpdateEvent
      (exampleHandlerEnv
        { Name := "Picnic",
          Members := [{ UserID := "U1" }, { UserID := "U2" }, { UserID := "U3" },
            { UserID := "U2" }] } {} {} {} ("", none)) [] []
      { Param := fun _ => "E1", CurrentUserID := "U2" }).events [])).map (fun n => n.To)
      = [["U1", "U3"]] := by
  rw [(UpdateEvent_recipients
      (exampleHandlerEnv
        { Name := "Picnic",
          Members := [{ UserID := "U1" }, { UserID := "U2" }, { UserID := "U3" },
            { UserID := "U2" }] } {} {} {} ("", none)) [] []
      { Param := fun _ => "E1", CurrentUserID := "U2" }).2 {}
      { Name := "Picnic",
        Members := [{ UserID := "U1" }, { UserID := "U2" }, { UserID := "U3" },
          { UserID := "U2" }] } (by decide) rfl rfl rfl rfl (by decide)]
  decide

/-! ## `RSVP`: the acting user -/

theorem rsvpCalls_append (a b : List HandlerEvent) :
    rsvpCalls (a ++ b) = rsvpCalls a ++ rsvpCalls b := by
  induction a with
  | nil => rfl
  | cons e a ih => cases e <;> simp [rsvpCalls, ih]

/-- The dispatches of a going status append only dispatches to the history. -/
theorem rsvpGoingDispatches_trace (env : HandlerEnv) (trace : List HandlerEvent)
    (ntrace : List Event) (source eventID : String) (event : models.Event) (user : User) :
    ∃ ds, (rsvpGoingDispatches env trace ntrace source eventID event user).1 = trace ++ ds ∧
      rsvpCalls ds = [] := by
  unfold rsvpGoingDispatches
  by_cases hweb : source = "web" <;> by_cases hhost : ContainsString event.Hosts user.ID = true
  · simp only [hweb, hhost, if_true, dispatch, List.append_assoc]
    exact ⟨_, rfl, rfl⟩
  · simp only [hweb, hhost, if_true, if_false, dispatch]
    exact ⟨_, rfl, rfl⟩
  · simp only [hweb, hhost, if_true, if_false, dispatch]
    exact ⟨_, rfl, rfl⟩
  · simp only [hweb, hhost, if_false]
    exact ⟨[], by simp, rfl⟩

/-- Once the path parameter is present, the body decodes and a user ID is at
hand, `RSVP` calls `EventService.RSVP` once, for the acting user. -/
theorem RSVP_rsvpCalls (env : HandlerEnv) (trace : List HandlerEvent) (ntrace : List Event)
    (c : Context) (rsvp : RSVPBody) (hparam : c.Param "eventId" ≠ "")
    (hdec : env.DecodeRSVP c.Body = (rsvp, none))
    (hne : ¬ (c.CurrentUserID = "" ∧ rsvp.UserID = "")) :
    rsvpCalls ((RSVP env trace ntrace c).events trace)
      = [(c.Param "eventId", if rsvp.UserID = "" then c.CurrentUserID else rsvp.UserID,
          rsvp.Status)] := by
  cases herr : env.RSVP trace (c.Param "eventId")
      (if rsvp.UserID = "" then c.CurrentUserID else rsvp.UserID) rsvp.Status with
  | some e =>
    simp only [RSVP, hparam, hdec, hne, herr, if_false, HandlerResult.events, List.drop_left]
    rfl
  | none =>
    rcases hev : env.GetEvent
        (trace ++ [HandlerEvent.RSVP (c.Param "eventId")
          (if rsvp.UserID = "" then c.CurrentUserID else rsvp.UserID) rsvp.Status none])
        (c.Param "eventId") with ⟨event, _ | e⟩
    · rcases hus : env.GetUserByID
          (trace ++ [HandlerEvent.RSVP (c.Param "eventId")
            (if rsvp.UserID = "" then c.CurrentUserID else rsvp.UserID) rsvp.Status none] ++
            [HandlerEvent.GetEvent (c.Param "eventId") (event, none)])
          (if rsvp.UserID = "" then c.CurrentUserID else rsvp.UserID) with ⟨user, _ | e⟩
      · simp only [RSVP, hparam, hdec, hne, herr, hev, hus, if_false, HandlerResult.events,
          dispatch]
        by_cases hgoing : rsvp.Status = env.MemberStatusGoing
        · obtain ⟨ds, hds, hcalls⟩ := rsvpGoingDispatches_trace env
            (trace ++ [HandlerEvent.RSVP (c.Param "eventId")
              (if rsvp.UserID = "" then c.CurrentUserID else rsvp.UserID) rsvp.Status none] ++
              [HandlerEvent.GetEvent (c.Param "eventId") (event, none)] ++
              [HandlerEvent.GetUserByID
                (if rsvp.UserID = "" then c.CurrentUserID else rsvp.UserID) (user, none)])
            ntrace (c.Query "source") (c.Param "eventId") event user
          simp only [hgoing, if_true]
          rw [← hgoing, hds]
          simp only [List.append_assoc, List.drop_left]
          simp [rsvpCalls, rsvpCalls_append, hcalls]
        · simp only [hgoing, if_false, List.append_assoc, List.drop_left]
          simp [rsvpCalls]
      · simp only [RSVP, hparam, hdec, hne, herr, hev, hus, if_false, HandlerResult.events]
        simp only [List.append_assoc, List.drop_left]
        simp [rsvpCalls]
    · simp only [RSVP, hparam, hdec, hne, herr, hev, if_false, HandlerResult.events]
      simp only [List.append_assoc, List.drop_left]
      simp [rsvpCalls]

/-- C24: `RSVP` acts for the `userId` of the body when it is non-empty and
for the authenticated user otherwise. When both are empty it answers with
status 400 and calls no collaborator; in every run, each call of
`EventService.RSVP` carries a non-empty user ID. -/
theorem RSVP_acting_user (env : HandlerEnv) (trace : List HandlerEvent) (ntrace : List Event)
    (c : Context) :
    (∀ call ∈ rsvpCalls ((RSVP env trace ntrace c).events trace), call.2.1 ≠ "") ∧
    (∀ rsvp, c.Param "eventId" ≠ "" → env.DecodeRSVP c.Body = (rsvp, none) →
      (c.CurrentUserID = "" ∧ rsvp.UserID = "" →
        (RSVP env trace ntrace c).Responses.map (fun r => r.Status) = [400] ∧
        (RSVP env trace ntrace c).trace = trace ∧
        rsvpCalls ((RSVP env trace ntrace c).events trace) = []) ∧
      (¬ (c.CurrentUserID = "" ∧ rsvp.UserID = "") →
        rsvpCalls ((RSVP env trace ntrace c).events trace)
          = [(c.Param "eventId",
              if rsvp.UserID ≠ "" then rsvp.UserID else c.CurrentUserID, rsvp.Status)])) := by
  have hboth : ∀ rsvp, c.Param "eventId" ≠ "" → env.DecodeRSVP c.Body = (rsvp, none) →
      c.CurrentUserID = "" ∧ rsvp.UserID = "" →
      (RSVP env trace ntrace c).Responses.map (fun r => r.Status) = [400] ∧
      (RSVP env trace ntrace c).trace = trace ∧
      rsvpCalls ((RSVP env trace ntrace c).events trace) = [] := by
    intro rsvp hparam hdec hempty
    simp [RSVP, hparam, hdec, hempty, EncodeError, GoError.Code, StatusBadRequest,
      HandlerResult.events, rsvpCalls]
  constructor
  · intro call hcall
    by_cases hparam : c.Param "eventId" = ""
    · simp [RSVP, hparam, HandlerResult.events, rsvpCalls] at hcall
    · rcases hdec : env.DecodeRSVP c.Body with ⟨rsvp, _ | e⟩
      · by_cases hempty : c.CurrentUserID = "" ∧ rsvp.UserID = ""
        · rw [(hboth rsvp hparam hdec hempty).2.2] at hcall
          simp at hcall
        · rw [RSVP_rsvpCalls env trace ntrace c rsvp hparam hdec hempty] at hcall
          simp only [List.mem_singleton] at hcall
          subst hcall
          simp only
          by_cases hbody : rsvp.UserID = ""
          · simp only [hbody, if_true]
            intro hcur
            exact hempty ⟨hcur, hbody⟩
          · simp only [hbody, if_false]
            exact hbody
      · simp [RSVP, hparam, hdec, HandlerResult.events, rsvpCalls] at hcall
  · intro rsvp hparam hdec
    refine ⟨hboth rsvp hparam hdec, fun hne => ?_⟩
    rw [RSVP_rsvpCalls env trace ntrace c rsvp hparam hdec hne]
    by_cases hbody : rsvp.UserID = "" <;> simp [hbody]

/-- C24, at a request whose body names no user: with the authenticated user
`U5` that user acts, and without an authenticated user the answer is 400. -/
theorem RSVP_acting_user_witness :
    rsvpCalls ((RSVP (exampleHandlerEnv {} {} { Status := "going" } {} ("", none)) [] []
      { Param := fun _ => "E1", CurrentUserID := "U5" }).events [])
      = [("E1", "U5", "going")] ∧
    (RSVP (exampleHandlerEnv {} {} { Status := "going" } {} ("", none)) [] []
      { Param := fun _ => "E1" }).Responses.map (fun r => r.Status) = [400] :=
  ⟨by
      have h := ((RSVP_acting_user (exampleHandlerEnv {} {} { Status := "going" } {} ("", none))
        [] [] { Param := fun _ => "E1", CurrentUserID := "U5" }).2 { Status := "going" }
        (by decide) rfl).2 (by decide)
      exact h,
    ((((RSVP_acting_user (exampleHandlerEnv {} {} { Status := "going" } {} ("", none))
      [] [] { Param := fun _ => "E1" }).2 { Status := "going" }
      (by decide) rfl).1) (by decide)).1⟩

/-! ## `DeleteExpense`: who is notified -/

/-- C29: after `DeleteExpense` has retrieved the expense and its event and
deleted the expense, it dispatches exactly one notification: to the user IDs
of all assignees when the current user created the expense, and to the
creator alone when not (once the lookup of the current user has succeeded);
the two cases exclude each other and cover every run. -/
theorem DeleteExpense_dispatch (env : HandlerEnv) (trace : List HandlerEvent)
    (ntrace : List Event) (c : Context) (expense : Expense) (event : models.Event)
    (hparam : c.Param "expenseId" ≠ "")
    (hexp : env.GetExpense trace (c.Param "expenseId") = (expense, none))
    (hev : env.GetEvent
      (trace ++ [HandlerEvent.GetExpense (c.Param "expenseId") (expense, none)])
      expense.ParentID = (event, none))
    (hdel : env.DeleteExpense
      (trace ++ [HandlerEvent.GetExpense (c.Param "expenseId") (expense, none)] ++
        [HandlerEvent.GetEvent expense.ParentID (event, none)])
      (c.Param "expenseId") = none) :
    (expense.CreatedBy = c.CurrentUserID →
      dispatches ((DeleteExpense env trace ntrace c).events trace)
        = [{ Type_ := env.ExpenseDeleted
             Channels := ["push"]
             To := expense.Assignees.map (fun a => a.UserID)
             Title := "Your assigned expense has been deleted"
             Body := expense.Name ++ " has been deleted in your Kickback " ++ event.Name
             Data := [("eventId", expense.ParentID)] }]) ∧
    (expense.CreatedBy ≠ c.CurrentUserID →
      ∀ user, env.GetUserByID
        (trace ++ [HandlerEvent.GetExpense (c.Param "expenseId") (expense, none)] ++
          [HandlerEvent.GetEvent expense.ParentID (event, none)] ++
          [HandlerEvent.DeleteExpense (c.Param "expenseId") none])
        c.CurrentUserID = (user, none) →
      dispatches ((DeleteExpense env trace ntrace c).events trace)
        = [{ Type_ := env.ExpenseDeleted
             Channels := ["push"]
             To := [expense.CreatedBy]
             Title := "Your expense has been deleted"
             Body := env.Name user ++ " marked your expense " ++ expense.Name ++
               " as completed in your Kickback " ++ event.Name
             Data := [("eventId", expense.ParentID)] }]) := by
  have hids : assigneesToUserIDs expense.Assignees false
      = expense.Assignees.map (fun a => a.UserID) := by
    simp [assigneesToUserIDs, assigneesToUserIDsLoop_eq]
  constructor
  · intro hcreator
    simp only [DeleteExpense, hparam, hexp, hev, hdel, hcreator, if_true, if_false,
      dispatch, HandlerResult.events, ne_eq, not_true_eq_false]
    simp only [List.append_assoc, List.drop_left]
    simp only [List.cons_append, List.nil_append, dispatches, hids]
  · intro hother user huser
    simp only [DeleteExpense, hparam, hexp, hev, hdel, hother, huser, if_true, if_false,
      dispatch, HandlerResult.events, ne_eq, not_false_eq_true]
    simp only [List.append_assoc, List.drop_left]
    simp only [List.cons_append, List.nil_append, dispatches]

/-- C29, at an expense of `U1` with the assignees `U2` and `U3`: deleted by
`U1` the assignees are notified, deleted by `U2` the creator is. -/
theorem DeleteExpense_dispatch_witness :
    (dispatches ((DeleteExpense
      (exampleHandlerEnv {}
        { Name := "ice", CreatedBy := "U1",
          Assignees := [{ UserID := "U2" }, { UserID := "U3", IsCompleted := true }] }
        {} {} ("", none)) [] []
      { Param := fun _ => "X1", CurrentUserID := "U1" }).events [])).map (fun n => n.To)
      = [["U2", "U3"]] ∧
    (dispatches ((DeleteExpense
      (exampleHandlerEnv {}
        { Name := "ice", CreatedBy := "U1",
          Assignees := [{ UserID := "U2" }, { UserID := "U3", IsCompleted := true }] }
        {} {} ("", none)) [] []
      { Param := fun _ => "X1", CurrentUserID := "U2" }).events [])).map (fun n => n.To)
      = [["U1"]] := by
  have h1 := (DeleteExpense_dispatch
    (exampleHandlerEnv {}
      { Name := "ice", CreatedBy := "U1",
        Assignees := [{ UserID := "U2" }, { UserID := "U3", IsCompleted := true }] }
      {} {} ("", none)) [] []
    { Param := fun _ => "X1", CurrentUserID := "U1" }
    { Name := "ice", CreatedBy := "U1",
      Assignees := [{ UserID := "U2" }, { UserID := "U3", IsCompleted := true }] } {}
    (by decide) rfl rfl rfl).1 rfl
  have h2 := (DeleteExpense_dispatch
    (exampleHandlerEnv {}
      { Name := "ice", CreatedBy := "U1",
        Assignees := [{ UserID := "U2" }, { UserID := "U3", IsCompleted := true }] }
      {} {} ("", none)) [] []
    { Param := fun _ => "X1", CurrentUserID := "U2" }
    { Name := "ice", CreatedBy := "U1",
      Assignees := [{ UserID := "U2" }, { UserID := "U3", IsCompleted := true }] } {}
    (by decide) rfl rfl rfl).2 (by decide) { ID := "U2", FirstName := "Ann" } rfl
  rw [h1, h2]
  exact ⟨rfl, rfl⟩

/-! ## `InviteEventMembers`: the invites -/

theorem inviteCalls_append (a b : List HandlerEvent) :
    inviteCalls (a ++ b) = inviteCalls a ++ inviteCalls b := by
  induction a with
  | nil => rfl
  | cons e a ih => cases e <;> simp [inviteCalls, ih]

theorem createUserCalls_append (a b : List HandlerEvent) :
    createUserCalls (a ++ b) = createUserCalls a ++ createUserCalls b := by
  induction a with
  | nil => rfl
  | cons e a ih => cases e <;> simp [createUserCalls, ih]

/-- The loop over the new users: it appends one `CreateUser` call per new
user and one invite per call, notes every failure that is not a
`UserExistsError` under the phone number, and collects as hosts only users
it invites. -/
theorem newUsersLoop_spec (env : HandlerEnv) (currentUser : String)
    (newUsers : List InviteNewUser) (invitesToSend : List Member) (failures : GoMap)
    (hosts : List String) (trace : List HandlerEvent) :
    ∃ evs,
      (newUsersLoop env currentUser newUsers invitesToSend failures hosts trace).2.2.2
        = trace ++ evs ∧
      inviteCalls evs = [] ∧
      (createUserCalls evs).map (fun call => call.1) = newUsers.map newUserArg ∧
      (newUsersLoop env currentUser newUsers invitesToSend failures hosts trace).1
        = invitesToSend ++ (createUserCalls evs).map
            (fun call => invitedMember env currentUser (invitee env call.2)) ∧
      (∀ h ∈ (newUsersLoop env currentUser newUsers invitesToSend failures hosts trace).2.2.1,
        h ∈ hosts ∨ ∃ call ∈ createUserCalls evs, invitee env call.2 = h) ∧
      (∀ k, (failures.get k).isSome = true →
        ((newUsersLoop env currentUser newUsers invitesToSend failures hosts
          trace).2.1.get k).isSome = true) ∧
      (∀ call ∈ createUserCalls evs, ∀ id err, call.2 = (id, some err) →
        env.AsUserExistsError err = none →
        ((newUsersLoop env currentUser newUsers invitesToSend failures hosts
          trace).2.1.get call.1.PhoneNumber).isSome = true) := by
  induction newUsers generalizing invitesToSend failures hosts trace with
  | nil =>
    exact ⟨[], by simp [newUsersLoop], rfl, rfl, by simp [newUsersLoop, createUserCalls],
      fun h hh => Or.inl (by simpa [newUsersLoop] using hh), by simp [newUsersLoop],
      by simp [createUserCalls]⟩
  | cons nu nus ih =>
    rcases hres : env.CreateUser trace (newUserArg nu) with ⟨id, _ | err⟩
    · obtain ⟨evs, htr, hinv, hcalls, hlist, hhosts, hfail, hrec⟩ := ih
        (invitesToSend ++ [invitedMember env currentUser id]) failures
        (if nu.IsHost then hosts ++ [id] else hosts)
        (trace ++ [HandlerEvent.CreateUser (newUserArg nu) (id, none)])
      refine ⟨HandlerEvent.CreateUser (newUserArg nu) (id, none) :: evs, ?_, ?_, ?_, ?_, ?_,
        ?_, ?_⟩
      · simp only [newUsersLoop, newUserArg, invitedMember] at hres htr ⊢
        simp only [hres, htr, List.append_assoc, List.singleton_append]
      · simpa [inviteCalls] using hinv
      · simp [createUserCalls, hcalls]
      · simp only [newUsersLoop, newUserArg, invitedMember] at hres hlist ⊢
        simp only [hres, hlist, createUserCalls, List.map_cons, invitee, List.append_assoc,
          List.singleton_append]
      · intro h hh
        simp only [newUsersLoop, newUserArg, invitedMember] at hres hhosts hh
        simp only [hres] at hh
        rcases hhosts h hh with h1 | ⟨call, hc1, hc2⟩
        · by_cases hhost : nu.IsHost = true
          · simp only [hhost, if_true, List.mem_append, List.mem_singleton] at h1
            rcases h1 with h1 | h1
            · exact Or.inl h1
            · exact Or.inr ⟨(newUserArg nu, (id, none)), by simp [createUserCalls],
                by simp [invitee, h1]⟩
          · simp only [hhost] at h1
            exact Or.inl h1
        · exact Or.inr ⟨call, by simp [createUserCalls, hc1], hc2⟩
      · intro k hk
        simp only [newUsersLoop, newUserArg, invitedMember] at hres hfail ⊢
        simp only [hres]
        exact hfail k hk
      · intro call hcall id' err' hc herr'
        simp only [createUserCalls, List.mem_cons] at hcall
        simp only [newUsersLoop, newUserArg, invitedMember] at hres hrec ⊢
        simp only [hres]
        rcases hcall with hcall | hcall
        · subst hcall
          simp at hc
        · exact hrec call hcall id' err' hc herr'
    · cases hex : env.AsUserExistsError err with
      | some existing =>
        obtain ⟨evs, htr, hinv, hcalls, hlist, hhosts, hfail, hrec⟩ := ih
          (invitesToSend ++ [invitedMember env currentUser existing]) failures
          (if nu.IsHost then hosts ++ [existing] else hosts)
          (trace ++ [HandlerEvent.CreateUser (newUserArg nu) (id, some err)])
        refine ⟨HandlerEvent.CreateUser (newUserArg nu) (id, some err) :: evs, ?_, ?_, ?_, ?_,
          ?_, ?_, ?_⟩
        · simp only [newUsersLoop, newUserArg, invitedMember] at hres htr ⊢
          simp only [hres, hex, htr, List.append_assoc, List.singleton_append]
        · simpa [inviteCalls] using hinv
        · simp [createUserCalls, hcalls]
        · simp only [newUsersLoop, newUserArg, invitedMember] at hres hlist ⊢
          simp only [hres, hex, hlist, createUserCalls, List.map_cons, invitee,
            List.append_assoc, List.singleton_append]
        · intro h hh
          simp only [newUsersLoop, newUserArg, invitedMember] at hres hhosts hh
          simp only [hres, hex] at hh
          rcases hhosts h hh with h1 | ⟨call, hc1, hc2⟩
          · by_cases hhost : nu.IsHost = true
            · simp only [hhost, if_true, List.mem_append, List.mem_singleton] at h1
              rcases h1 with h1 | h1
              · exact Or.inl h1
              · exact Or.inr ⟨(newUserArg nu, (id, some err)), by simp [createUserCalls],
                  by simp [invitee, hex, h1]⟩
            · simp only [hhost] at h1
              exact Or.inl h1
          · exact Or.inr ⟨call, by simp [createUserCalls, hc1], hc2⟩
        · intro k hk
          simp only [newUsersLoop, newUserArg, invitedMember] at hres hfail ⊢
          simp only [hres, hex]
          exact hfail k hk
        · intro call hcall id' err' hc herr'
          simp only [createUserCalls, List.mem_cons] at hcall
          simp only [newUsersLoop, newUserArg, invitedMember] at hres hrec ⊢
          simp only [hres, hex]
          rcases hcall with hcall | hcall
          · subst hcall
            simp only [Prod.mk.injEq, Option.some.injEq] at hc
            rw [← hc.2, hex] at herr'
            simp at herr'
          · exact hrec call hcall id' err' hc herr'
      | none =>
        obtain ⟨evs, htr, hinv, hcalls, hlist, hhosts, hfail, hrec⟩ := ih
          (invitesToSend ++ [invitedMember env currentUser id])
          (failures.set nu.PhoneNumber ("Failed: " ++ err.Error))
          (if nu.IsHost then hosts ++ [id] else hosts)
          (trace ++ [HandlerEvent.CreateUser (newUserArg nu) (id, some err)])
        refine ⟨HandlerEvent.CreateUser (newUserArg nu) (id, some err) :: evs, ?_, ?_, ?_, ?_,
          ?_, ?_, ?_⟩
        · simp only [newUsersLoop, newUserArg, invitedMember] at hres htr ⊢
          simp only [hres, hex, htr, List.append_assoc, List.singleton_append]
        · simpa [inviteCalls] using hinv
        · simp [createUserCalls, hcalls]
        · simp only [newUsersLoop, newUserArg, invitedMember] at hres hlist ⊢
          simp only [hres, hex, hlist, createUserCalls, List.map_cons, invitee,
            List.append_assoc, List.singleton_append]
        · intro h hh
          simp only [newUsersLoop, newUserArg, invitedMember] at hres hhosts hh
          simp only [hres, hex] at hh
          rcases hhosts h hh with h1 | ⟨call, hc1, hc2⟩
          · by_cases hhost : nu.IsHost = true
            · simp only [hhost, if_true, List.mem_append, List.mem_singleton] at h1
              rcases h1 with h1 | h1
              · exact Or.inl h1
              · exact Or.inr ⟨(newUserArg nu, (id, some err)), by simp [createUserCalls],
                  by simp [invitee, hex, h1]⟩
            · simp only [hhost] at h1
              exact Or.inl h1
          · exact Or.inr ⟨call, by simp [createUserCalls, hc1], hc2⟩
        · intro k hk
          simp only [newUsersLoop, newUserArg, invitedMember] at hres hfail ⊢
          simp only [hres, hex]
          exact hfail k (GoMap.isSome_get_set _ _ _ _ hk)
        · intro call hcall id' err' hc herr'
          simp only [createUserCalls, List.mem_cons] at hcall
          simp only [newUsersLoop, newUserArg, invitedMember] at hres hfail hrec ⊢
          simp only [hres, hex]
          rcases hcall with hcall | hcall
          · subst hcall
            apply hfail
            simp only [newUserArg]
            rw [GoMap.get_set_self]
            rfl
          · exact hrec call hcall id' err' hc herr'

theorem usersLoop_spec (env : HandlerEnv) (currentUser : String) (users : List InviteUser)
    (invitesToSend : List Member) (hosts : List String) :
    (usersLoop env currentUser users invitesToSend hosts).1
      = invitesToSend ++ users.map (fun u => invitedMember env currentUser u.UserID) ∧
    ∀ h ∈ (usersLoop env currentUser users invitesToSend hosts).2,
      h ∈ hosts ∨ ∃ u ∈ users, u.UserID = h := by
  induction users generalizing invitesToSend hosts with
  | nil => simp [usersLoop]
  | cons u us ih =>
    obtain ⟨h1, h2⟩ := ih (invitesToSend ++ [invitedMember env currentUser u.UserID])
      (if u.IsHost then hosts ++ [u.UserID] else hosts)
    constructor
    · simp only [usersLoop, invitedMember] at h1 ⊢
      simp only [h1, List.map_cons, List.append_assoc, List.singleton_append]
    · intro h hh
      simp only [usersLoop, invitedMember] at h2 hh
      rcases h2 h hh with h3 | ⟨w, hw1, hw2⟩
      · by_cases hhost : u.IsHost = true
        · simp only [hhost, if_true, List.mem_append, List.mem_singleton] at h3
          rcases h3 with h3 | h3
          · exact Or.inl h3
          · exact Or.inr ⟨u, List.mem_cons_self _ _, h3.symm⟩
        · simp only [hhost] at h3
          exact Or.inl h3
      · exact Or.inr ⟨w, List.mem_cons_of_mem _ hw1, hw2⟩

theorem inviteCalls_inviteSMSLoop (env : HandlerEnv) (hostName : String) (event : models.Event)
    (eventID : String) (invitedUsers : List User) (trace : List HandlerEvent) :
    inviteCalls (inviteSMSLoop env hostName event eventID invitedUsers trace)
      = inviteCalls trace := by
  induction invitedUsers generalizing trace with
  | nil => rfl
  | cons u us ih =>
    by_cases hphone : u.PhoneNumber = ""
    · simp only [inviteSMSLoop, hphone, ne_eq, not_true_eq_false, if_false]
      exact ih _
    · simp only [inviteSMSLoop, hphone, ne_eq, not_false_eq_true, if_true]
      rw [ih, inviteCalls_append]
      simp [inviteCalls]

theorem inviteCalls_collectInvites (env : HandlerEnv) (currentUser : String)
    (body : InviteBody) (trace : List HandlerEvent) :
    inviteCalls (collectInvites env currentUser body trace).2.2.2 = inviteCalls trace := by
  obtain ⟨evs, htr, hinv, _⟩ := newUsersLoop_spec env currentUser body.NewUsers [] [] [] trace
  simp only [collectInvites]
  rw [htr, inviteCalls_append, hinv, List.append_nil]

/-- Once the path parameter is present and the body decodes,
`InviteEventMembers` calls `EventService.Invite` once, with the invites
collected by the two loops. -/
theorem InviteEventMembers_inviteCalls (env : HandlerEnv) (trace : List HandlerEvent)
    (ntrace : List Event) (c : Context) (body : InviteBody)
    (hparam : c.Param "eventId" ≠ "") (hdec : env.DecodeInvite c.Body = (body, none)) :
    inviteCalls (InviteEventMembers env trace ntrace c).trace
      = inviteCalls trace ++
        [(c.Param "eventId", (collectInvites env c.CurrentUserID body trace).1)] := by
  have hcoll := inviteCalls_collectInvites env c.CurrentUserID body trace
  simp only [InviteEventMembers, hparam, hdec, if_false]
  repeat' split
  all_goals
    simp [inviteCalls_append, inviteCalls, dispatch, inviteCalls_inviteSMSLoop, hcoll]

/-- C28: once the path parameter is present and the body decodes,
`InviteEventMembers` hands `EventService.Invite` one list of invites, with
one invite per new user followed by one per listed user, whatever
`CreateUser` returned: a new user is invited as the existing account after a
`UserExistsError` and under the ID `CreateUser` returned otherwise; a new
user whose creation failed otherwise is noted in `failures` under its phone
number and is invited all the same; and every collected host is the user of
some invite of the list. -/
theorem invites_to_send (env : HandlerEnv) (trace : List HandlerEvent) (ntrace : List Event)
    (c : Context) (body : InviteBody) (hparam : c.Param "eventId" ≠ "")
    (hdec : env.DecodeInvite c.Body = (body, none)) :
    inviteCalls (InviteEventMembers env trace ntrace c).trace
      = inviteCalls trace ++
        [(c.Param "eventId", (collectInvites env c.CurrentUserID body trace).1)] ∧
    (collectInvites env c.CurrentUserID body trace).1.length
      = body.NewUsers.length + body.Users.length ∧
    (∀ h ∈ (collectInvites env c.CurrentUserID body trace).2.2.1,
      ∃ m ∈ (collectInvites env c.CurrentUserID body trace).1, m.UserID = h) ∧
    ∃ evs, (collectInvites env c.CurrentUserID body trace).2.2.2 = trace ++ evs ∧
      (createUserCalls evs).map (fun call => call.1) = body.NewUsers.map newUserArg ∧
      (collectInvites env c.CurrentUserID body trace).1
        = (createUserCalls evs).map
            (fun call => invitedMember env c.CurrentUserID (invitee env call.2)) ++
          body.Users.map (fun u => invitedMember env c.CurrentUserID u.UserID) ∧
      ∀ call ∈ createUserCalls evs, ∀ id err, call.2 = (id, some err) →
        env.AsUserExistsError err = none →
        ((collectInvites env c.CurrentUserID body trace).2.1.get call.1.PhoneNumber).isSome
          = true ∧
        invitedMember env c.CurrentUserID id
          ∈ (collectInvites env c.CurrentUserID body trace).1 := by
  obtain ⟨evs, htr, _, hcalls, hlist, hhosts, _, hrec⟩ :=
    newUsersLoop_spec env c.CurrentUserID body.NewUsers [] [] [] trace
  obtain ⟨hulist, huhosts⟩ := usersLoop_spec env c.CurrentUserID body.Users
    (newUsersLoop env c.CurrentUserID body.NewUsers [] [] [] trace).1
    (newUsersLoop env c.CurrentUserID body.NewUsers [] [] [] trace).2.2.1
  have hinvites : (collectInvites env c.CurrentUserID body trace).1
      = (createUserCalls evs).map
          (fun call => invitedMember env c.CurrentUserID (invitee env call.2)) ++
        body.Users.map (fun u => invitedMember env c.CurrentUserID u.UserID) := by
    simp only [collectInvites]
    rw [hulist, hlist, List.nil_append]
  have hlen : (createUserCalls evs).length = body.NewUsers.length := by
    have := congrArg List.length hcalls
    simpa using this
  refine ⟨InviteEventMembers_inviteCalls env trace ntrace c body hparam hdec, ?_, ?_,
    evs, ?_, hcalls, hinvites, ?_⟩
  · rw [hinvites]
    simp [hlen]
  · intro h hh
    simp only [collectInvites] at hh
    rw [hinvites]
    rcases huhosts h hh with h1 | ⟨u, hu1, hu2⟩
    · rcases hhosts h h1 with h2 | ⟨call, hc1, hc2⟩
      · simp at h2
      · exact ⟨invitedMember env c.CurrentUserID (invitee env call.2),
          List.mem_append_left _ (List.mem_map.mpr ⟨call, hc1, rfl⟩), hc2⟩
    · exact ⟨invitedMember env c.CurrentUserID u.UserID,
        List.mem_append_right _ (List.mem_map.mpr ⟨u, hu1, rfl⟩), hu2⟩
  · simp only [collectInvites]
    exact htr
  · intro call hcall id err hc herr
    constructor
    · simp only [collectInvites]
      exact hrec call hcall id err hc herr
    · rw [hinvites]
      apply List.mem_append_left
      refine List.mem_map.mpr ⟨call, hcall, ?_⟩
      rw [hc]
      simp [invitee, herr]

/-- C28, at two new users, both hosts, and one listed user: the first number
belongs to the account `U7`, the creation of the second fails with
`db down`. Three invites are sent; the failure is noted under the second
number and the second new user is invited under the empty ID. -/
theorem invites_to_send_witness :
    (collectInvites
      (exampleHandlerEnv {} {} {}
        { NewUsers := [{ IsHost := true, PhoneNumber := "555-0000" },
            { IsHost := true, PhoneNumber := "555-0001" }],
          Users := [{ UserID := "U3" }] } ("", some (GoError.plain "db down")))
      "U1"
      { NewUsers := [{ IsHost := true, PhoneNumber := "555-0000" },
          { IsHost := true, PhoneNumber := "555-0001" }],
        Users := [{ UserID := "U3" }] } []).1.length = 2 + 1 ∧
    (collectInvites
      (exampleHandlerEnv {} {} {}
        { NewUsers := [{ IsHost := true, PhoneNumber := "555-0000" },
            { IsHost := true, PhoneNumber := "555-0001" }],
          Users := [{ UserID := "U3" }] } ("", some (GoError.plain "db down")))
      "U1"
      { NewUsers := [{ IsHost := true, PhoneNumber := "555-0000" },
          { IsHost := true, PhoneNumber := "555-0001" }],
        Users := [{ UserID := "U3" }] } []).1.map (fun m => m.UserID) = ["U7", "", "U3"] ∧
    (collectInvites
      (exampleHandlerEnv {} {} {}
        { NewUsers := [{ IsHost := true, PhoneNumber := "555-0000" },
            { IsHost := true, PhoneNumber := "555-0001" }],
          Users := [{ UserID := "U3" }] } ("", some (GoError.plain "db down")))
      "U1"
      { NewUsers := [{ IsHost := true, PhoneNumber := "555-0000" },
          { IsHost := true, PhoneNumber := "555-0001" }],
        Users := [{ UserID := "U3" }] } []).2.1 = [("555-0001", "Failed: db down")] :=
  ⟨(invites_to_send
      (exampleHandlerEnv {} {} {}
        { NewUsers := [{ IsHost := true, PhoneNumber := "555-0000" },
            { IsHost := true, PhoneNumber := "555-0001" }],
          Users := [{ UserID := "U3" }] } ("", some (GoError.plain "db down")))
      [] [] { Param := fun _ => "E1", CurrentUserID := "U1" }
      { NewUsers := [{ IsHost := true, PhoneNumber := "555-0000" },
          { IsHost := true, PhoneNumber := "555-0001" }],
        Users := [{ UserID := "U3" }] } (by decide) rfl).2.1,
    by decide, by decide⟩

/-- C27, at recipients `U1` and `U9` with a contact for `U1` only and failing
providers: the keys of the push map are `U1` and `general`, and `U9` has no
entry. -/
theorem push_map_keys_witness :
    (doSendNotification
      (exampleEnv [userWithToken] (some (GoError.plain "push down"))
        (some (GoError.plain "sms down"))) []
      { Channels := ["push", "sms"], To := ["U1", "U9"],
        SMSmessage := "hello" }).errReport.Push.map (fun kv => kv.1) = ["general", "U1"] ∧
    (doSendNotification
      (exampleEnv [userWithToken] (some (GoError.plain "push down"))
        (some (GoError.plain "sms down"))) []
      { Channels := ["push", "sms"], To := ["U1", "U9"],
        SMSmessage := "hello" }).errReport.Push.get "U9" = none := by
  refine ⟨by decide, ?_⟩
  refine ((push_map_keys
    (exampleEnv [userWithToken] (some (GoError.plain "push down"))
      (some (GoError.plain "sms down"))) []
    { Channels := ["push", "sms"], To := ["U1", "U9"], SMSmessage := "hello" }).2 "U9"
    (by decide) ?_).1
  intro ids users hin
  have hev : eventsSince [] (doSendNotification
      (exampleEnv [userWithToken] (some (GoError.plain "push down"))
        (some (GoError.plain "sms down"))) []
      { Channels := ["push", "sms"], To := ["U1", "U9"], SMSmessage := "hello" })
      = [Event.SendNotification
          { Channels := ["push", "sms"], To := ["U1", "U9"], SMSmessage := "hello" }
          ("N1", none),
         Event.GetUsers ["U1", "U9"] ([userWithToken], none),
         Event.SendPushNotification
          { To := ["ExponentPushToken[a]"], Sound := "default", Priority := "default" }
          (some (GoError.plain "push down")),
         Event.SendSMS "hello" "555-0100" (some (GoError.plain "sms down"))] := by
    decide
  rw [hev] at hin
  simp only [List.mem_cons, List.mem_singleton, Event.GetUsers.injEq, Prod.mk.injEq,
    and_true, reduceCtorEq, false_or, or_false, List.not_mem_nil] at hin
  rw [hin.2]
  decide

end Kickback
